import Mathlib

/-!
Clash subscription rendering (`sub/subClashService.go`, `sub/subController.go`).

A shallow embedding of the subscription renderer: the traffic aggregation loop,
the usage header, the descriptor formatter, the template splice and the
listener/client pipeline of `GetClash`.

Conventions of the embedding:

* Go `int64` values are integers of `Int`; every addition of the source is
  followed by `wrap64`, the two's-complement wraparound of Go.
* Go strings are `String`s (sequences of Unicode characters).
* A failed type assertion (a run-time panic of the source) is the value `none`.
-/

namespace Sub

/-! ## Machine integers -/

/-- Two's-complement reduction of an integer to the range of Go's `int64`. -/
def wrap64 (x : Int) : Int :=
  (x + 9223372036854775808) % 18446744073709551616 - 9223372036854775808

/-- The integer is a value of Go's `int64`. -/
def isInt64 (x : Int) : Prop :=
  -9223372036854775808 ≤ x ∧ x < 9223372036854775808

instance (x : Int) : Decidable (isInt64 x) := by
  unfold isInt64; exact inferInstance

/-- Rounding of `a` to a multiple of `m`, to the nearest one and on a tie to
the one with the even quotient: the rounding of IEEE 754 when `m` is the
spacing of the representable values around `a`. -/
def roundEven (a m : Nat) : Nat :=
  let q := a / m
  let r := a % m
  if m < 2 * r ∨ (2 * r = m ∧ q % 2 = 1) then (q + 1) * m else q * m

/-- The spacing of the `float64` values around a natural number of at most 64
bits: 1 below 2^53, and twice as much with every further bit. -/
def float64Ulp (a : Nat) : Nat :=
  if a < 9007199254740992 then 1
  else if a < 18014398509481984 then 2
  else if a < 36028797018963968 then 4
  else if a < 72057594037927936 then 8
  else if a < 144115188075855872 then 16
  else if a < 288230376151711744 then 32
  else if a < 576460752303423488 then 64
  else if a < 1152921504606846976 then 128
  else if a < 2305843009213693952 then 256
  else if a < 4611686018427387904 then 512
  else if a < 9223372036854775808 then 1024
  else 2048

/-- Go's conversion `float64(n)` of an `int` (line 178), as the integer that
the resulting `float64` denotes: `n` itself up to 2^53 in magnitude, `n`
rounded to 53 significant bits beyond. -/
def float64OfInt (n : Int) : Int :=
  if n < 0 then -((roundEven n.natAbs (float64Ulp n.natAbs) : Nat) : Int)
  else ((roundEven n.natAbs (float64Ulp n.natAbs) : Nat) : Int)

/-- Go's conversion `int(f)` (line 189) of a `float64` that denotes the
integer `x`: `x` itself when it is an `int64`. Outside this range Go leaves the
result to the implementation; the value that the conversion instruction of
amd64 yields, -2^63, is taken. -/
def intOfFloat64 (x : Int) : Int :=
  if -9223372036854775808 ≤ x ∧ x < 9223372036854775808 then x else -9223372036854775808

/-! ## Traffic records -/

/-- Modelled from the spec: the record type `xray.ClientTraffic` is declared
outside the shown sources. Only the four `int64` counters read by `GetClash`
are kept: uploaded bytes, downloaded bytes, total quota and expiry timestamp. -/
structure ClientTraffic where
  Up : Int
  Down : Int
  Total : Int
  ExpiryTime : Int
  deriving DecidableEq, Repr

/-- All four counters are `int64` values. -/
def ClientTraffic.valid (c : ClientTraffic) : Prop :=
  isInt64 c.Up ∧ isInt64 c.Down ∧ isInt64 c.Total ∧ isInt64 c.ExpiryTime

instance (c : ClientTraffic) : Decidable c.valid := by
  unfold ClientTraffic.valid; exact inferInstance

/-- The zero value of `var traffic xray.ClientTraffic`. -/
def zeroTraffic : ClientTraffic := ⟨0, 0, 0, 0⟩

/-- One iteration of the statistics loop of `GetClash` (lines 79-99): the body
of `for index, clientTraffic := range clientTraffics`. -/
def aggStep (index : Nat) (traffic clientTraffic : ClientTraffic) : ClientTraffic :=
  if index = 0 then
    { Up := clientTraffic.Up
      Down := clientTraffic.Down
      Total := clientTraffic.Total
      ExpiryTime :=
        if clientTraffic.ExpiryTime > 0 then clientTraffic.ExpiryTime
        else traffic.ExpiryTime }
  else
    { Up := wrap64 (traffic.Up + clientTraffic.Up)
      Down := wrap64 (traffic.Down + clientTraffic.Down)
      Total :=
        if traffic.Total = 0 ∨ clientTraffic.Total = 0 then 0
        else wrap64 (traffic.Total + clientTraffic.Total)
      ExpiryTime :=
        if clientTraffic.ExpiryTime ≠ traffic.ExpiryTime then 0
        else traffic.ExpiryTime }

/-- The statistics loop from position `index` on, with running value `traffic`. -/
def aggLoop : Nat → ClientTraffic → List ClientTraffic → ClientTraffic
  | _, traffic, [] => traffic
  | index, traffic, clientTraffic :: rest =>
      aggLoop (index + 1) (aggStep index traffic clientTraffic) rest

/-- The statistics loop of `GetClash` run on all collected records. -/
def aggregate (clientTraffics : List ClientTraffic) : ClientTraffic :=
  aggLoop 0 zeroTraffic clientTraffics


/-! ## Strings and formatting -/

/-- Go's `%d` verb on an integer: its decimal digits, after a minus sign when
it is negative. -/
def fmtD : Int → String
  | .ofNat n => Nat.repr n
  | .negSucc n => "-" ++ Nat.repr (n + 1)

/-- The white-space characters of `unicode.IsSpace`, which `strings.TrimSpace`
removes. -/
def isSpace (c : Char) : Bool :=
  c = ' ' || c = '\t' || c = '\n' || c.toNat = 11 || c.toNat = 12 || c = '\r' ||
  c.toNat = 0x85 || c.toNat = 0xA0 || c.toNat = 0x1680 ||
  (0x2000 ≤ c.toNat && c.toNat ≤ 0x200A) ||
  c.toNat = 0x2028 || c.toNat = 0x2029 || c.toNat = 0x202F || c.toNat = 0x205F ||
  c.toNat = 0x3000

/-- Go's `strings.TrimSpace`: the string without its leading and trailing
white space. -/
def TrimSpace (s : String) : String :=
  ⟨((s.data.dropWhile isSpace).reverse.dropWhile isSpace).reverse⟩

/-- Go's `strings.HasPrefix`. -/
def HasPrefix (s pre : String) : Bool :=
  pre.data.isPrefixOf s.data

/-- The pieces of a character sequence between its line feeds. -/
def splitNL : List Char → List (List Char)
  | [] => [[]]
  | c :: cs =>
    if c = '\n' then [] :: splitNL cs
    else
      match splitNL cs with
      | [] => [[c]]
      | l :: ls => (c :: l) :: ls

/-- Go's `strings.Split(s, "\n")`. -/
def Split (s : String) : List String :=
  (splitNL s.data).map String.mk

/-- Go's `strings.Join(lines, sep)`. -/
def Join (lines : List String) (sep : String) : String :=
  sep.intercalate lines

/-- The slice `s[:len(s)-1]` of a string whose last character is one byte wide
(the source applies it to a string that ends in a line feed). -/
def dropLastByte (s : String) : String :=
  ⟨s.data.dropLast⟩

/-! ## Descriptors -/

/-- The dynamic values a generator stores in a descriptor (`map[string]any`):
strings, `int`s, booleans, `[]string` and nested `map[string]any`. -/
inductive PVal where
  | str (s : String)
  | int (i : Int)
  | bool (b : Bool)
  | strs (l : List String)
  | map (m : List (String × PVal))
  deriving Repr

/-- A descriptor `map[string]any`: a finite map kept as an association list
with distinct keys. The order of the list has no meaning for the source: a Go
map is unordered. -/
abbrev Proxy := List (String × PVal)

/-- Reading `m[k]`: `none` when the key is absent. -/
def mapGet {α : Type} : List (String × α) → String → Option α
  | [], _ => none
  | (k', v) :: rest, k => if k' = k then some v else mapGet rest k

/-- The assignment `m[k] = v`. -/
def mapSet {α : Type} : List (String × α) → String → α → List (String × α)
  | [], k, v => [(k, v)]
  | (k', v') :: rest, k, v =>
    if k' = k then (k, v) :: rest else (k', v') :: mapSet rest k v

/-- The statement `delete(m, k)`. -/
def mapDelete {α : Type} (m : List (String × α)) (k : String) : List (String × α) :=
  m.filter (fun kv => kv.1 ≠ k)

/-- Insertion of a printed entry among entries sorted by key, as `fmt` sorts
the keys of a map before printing it. -/
def insertByKey (kv : String × String) : List (String × String) → List (String × String)
  | [] => [kv]
  | x :: xs => if kv.1.data < x.1.data then kv :: x :: xs else x :: insertByKey kv xs

mutual
/-- Go's `%v` verb on a descriptor value; `%s`, `%d` and `%t` print the same
text on a string, an integer and a boolean. A map prints as `map[k:v ...]` with
its keys sorted, a slice as `[a b ...]`. -/
def fmtV : PVal → String
  | .str s => s
  | .int i => fmtD i
  | .bool b => if b then "true" else "false"
  | .strs l => "[" ++ " ".intercalate l ++ "]"
  | .map m =>
      "map[" ++ " ".intercalate
        (((fmtFields m).foldr insertByKey []).map fun kv => kv.1 ++ ":" ++ kv.2) ++ "]"
termination_by structural x => x
/-- The entries of a map with their values printed. -/
def fmtFields : List (String × PVal) → List (String × String)
  | [] => []
  | kv :: rest => fmtField kv :: fmtFields rest
termination_by structural x => x
/-- One entry of a map with its value printed. -/
def fmtField : String × PVal → String × String
  | (k, v) => (k, fmtV v)
termination_by structural x => x
end

/-- The character-level loop of `fmt.Sprintf`: a `%` and the verb after it are
replaced by the next argument, printed. Every verb of the source (`%d`, `%s`,
`%t`, `%v`) is applied to a value of its own kind, on which it prints what `%v`
prints, and no call of the source passes more arguments than verbs. A verb
without argument prints `%!verb(MISSING)`, a final `%` prints `%!(NOVERB)`. -/
def sprintfAux : List Char → List PVal → List Char
  | [], _ => []
  | c :: cs, args =>
    if c = '%' then
      match cs, args with
      | _ :: rest, a :: as => (fmtV a).data ++ sprintfAux rest as
      | verb :: rest, [] => '%' :: '!' :: verb :: ("(MISSING)".data ++ sprintfAux rest [])
      | [], _ => "%!(NOVERB)".data
    else c :: sprintfAux cs args

/-- Go's `fmt.Sprintf`. -/
def Sprintf (format : String) (args : List PVal) : String :=
  ⟨sprintfAux format.data args⟩

/-- The function `formatProxy` (lines 135-166). `order` is the order in which
`for key, value := range proxy` visits the entries: Go leaves it unspecified, it
is some enumeration of the entries of the map. The result is `none` when the
assertion `proxy["name"].(string)` fails. -/
def formatProxy (order : Proxy → Proxy) (proxy : Proxy) : Option String :=
  match mapGet proxy "name" with
  | some (.str name) =>
    let result := (order proxy).foldl
      (fun result kv =>
        if kv.1 = "name" then result
        else
          let formattedValue :=
            match kv.2 with
            | .str v => v
            | .int v => Sprintf "%d" [.int v]
            | .bool v => Sprintf "%t" [.bool v]
            | v => Sprintf "%v" [v]
          result ++ ", " ++ kv.1 ++ ": " ++ formattedValue)
      ("  - \x7bname: " ++ name)
    some (result ++ "\x7d")
  | _ => none

/-! ## Header and template splice -/

/-- The usage header of `GetClash` (line 130). Go's `/` on `int64` truncates
towards zero. -/
def clashHeader (traffic : ClientTraffic) : String :=
  Sprintf "upload=%d; download=%d; total=%d; expire=%d"
    [.int traffic.Up, .int traffic.Down, .int traffic.Total,
     .int (Int.tdiv traffic.ExpiryTime 1000)]

/-- The usage header of `SUBController.subs` (line 146). -/
def subsHeader (traffic : ClientTraffic) : String :=
  Sprintf "upload=%d; download=%d; total=%d; expire=%d"
    [.int traffic.Up, .int traffic.Down, .int traffic.Total,
     .int (Int.tdiv traffic.ExpiryTime 1000)]

/-- The state of the template scan of `GetClash`. -/
structure SpliceState where
  resultLines : List String
  proxiesSectionFound : Bool
  deriving DecidableEq, Repr

/-- One iteration of `for _, line := range templateLines` (lines 112-123). -/
def spliceStep (proxiesSection : String) (st : SpliceState) (line : String) : SpliceState :=
  let trimmedLine := TrimSpace line
  if trimmedLine = "proxies:" then
    { resultLines := st.resultLines ++ [dropLastByte proxiesSection]
      proxiesSectionFound := true }
  else if st.proxiesSectionFound &&
      (HasPrefix trimmedLine "proxy-groups:" || HasPrefix trimmedLine "rules:") then
    { resultLines := st.resultLines ++ [line]
      proxiesSectionFound := false }
  else if !st.proxiesSectionFound then
    { st with resultLines := st.resultLines ++ [line] }
  else st

/-- Lines 107-128 and the document of line 131: the template scan, the final
append when the flag is not set, and the join. -/
def spliceTemplate (tpl : String) (proxiesSection : String) : String :=
  let templateLines := Split tpl
  let st := templateLines.foldl (spliceStep proxiesSection) ⟨[], false⟩
  let resultLines :=
    if !st.proxiesSectionFound then st.resultLines ++ [dropLastByte proxiesSection]
    else st.resultLines
  Join resultLines "\n"


/-! ## Settings documents -/

/-- The values `encoding/json` stores in an `any`: `nil`, booleans, numbers,
strings, `[]any` and `map[string]any`. A number is a `float64`; it is kept as
the integer it denotes (the only numbers the source reads are port numbers;
numbers with a fractional part are outside the embedding), and the
conversions between `int` and `float64` are `float64OfInt` and
`intOfFloat64`. -/
inductive JVal where
  | null
  | bool (b : Bool)
  | num (n : Int)
  | str (s : String)
  | arr (l : List JVal)
  | obj (m : List (String × JVal))
  deriving Repr

/-- A `map[string]any` of settings. A nil map is the empty list: the source
reads from such a map and deletes from it, and writes to it only after it has
read a key from it. -/
abbrev JObj := List (String × JVal)

/-- The assertion `x.(string)` on the result of a map read. -/
def asStr : Option JVal → Option String
  | some (.str s) => some s
  | _ => none

/-- The assertion `x.(bool)` on the result of a map read. -/
def asBool : Option JVal → Option Bool
  | some (.bool b) => some b
  | _ => none

/-- The assertion `x.(float64)` on the result of a map read: the integer that
the `float64` denotes. -/
def asNum : Option JVal → Option Int
  | some (.num n) => some n
  | _ => none

/-- The assertion `x.([]any)` on the result of a map read. -/
def asArr : Option JVal → Option (List JVal)
  | some (.arr l) => some l
  | _ => none

/-- The assertion `x.(map[string]any)` on the result of a map read. -/
def asObj : Option JVal → Option JObj
  | some (.obj m) => some m
  | _ => none

/-- The value of `m[k]` as an `any`: `nil` when the key is absent. -/
def anyGet (m : JObj) (k : String) : JVal :=
  (mapGet m k).getD .null

/-! ## Listeners, clients and collaborators -/

/-- Modelled from the spec: the record type `model.Client` is declared outside
the shown sources. The fields read by the shown code are kept. -/
structure Client where
  ID : String
  Security : String
  Password : String
  Flow : String
  Email : String
  Enable : Bool
  SubID : String
  deriving DecidableEq, Repr

/-- Modelled from the spec: the record type `model.Inbound` is declared
outside the shown sources. The fields read or written by the shown code are
kept, with the remark that the display-name collaborator reads. -/
structure Inbound where
  Listen : String
  Port : Int
  Protocol : String
  Settings : String
  StreamSettings : String
  Remark : String
  ClientStats : List (String × ClientTraffic)
  deriving DecidableEq, Repr

/-- The collaborators of `SubClashService` that are declared outside the shown
sources (`SubService`, `InboundService`, the `random` package, `encoding/json`,
the embedded template) and the two choices the Go run time makes (random draws
and map iteration order), all taken as parameters of the embedding.

* `getInboundsBySubId` returns the listeners and the error.
* `GetClients` returns `none` for a nil client list.
* `getFallbackMaster` returns `none` when the lookup fails.
* `jsonUnmarshal` returns the decoded object, empty when decoding leaves the
  map nil.
* `randomSeq k n` and `randomNum k n` are the results of the `k`-th random
  draw, `random.Seq(n)` and `random.Num(n)`.
* `mapRange k` is the order in which the range loop of the `k`-th call of
  `formatProxy` visits the entries of its map. -/
structure Env where
  getInboundsBySubId : String → List Inbound × Option String
  GetClients : Inbound → Option (List Client)
  getFallbackMaster : String → String → Option (String × Int × String)
  getClientTraffics : List (String × ClientTraffic) → String → ClientTraffic
  genRemark : Inbound → String → String → String
  jsonUnmarshal : String → JObj
  randomSeq : Nat → Nat → String
  randomNum : Nat → Nat → Nat
  mapRange : Nat → Proxy → Proxy
  acl4ssrFullTpl : String

/-! ## Stream-settings normalizer -/

/-- The function `removeAcceptProxy` (lines 249-255). A value that is not a map
gives the nil map. -/
def removeAcceptProxy (setting : Option JVal) : JObj :=
  match asObj setting with
  | some netSettings => mapDelete netSettings "acceptProxyProtocol"
  | none => []

/-- The function `tlsData` (lines 257-270). -/
def tlsData (tData : JObj) : JObj :=
  let tlsClientSettings := (asObj (mapGet tData "settings")).getD []
  let tlsData : JObj := []
  let tlsData := mapSet tlsData "serverName" (anyGet tData "serverName")
  let tlsData := mapSet tlsData "alpn" (anyGet tData "alpn")
  let tlsData :=
    match asBool (mapGet tlsClientSettings "allowInsecure") with
    | some allowInsecure => mapSet tlsData "allowInsecure" (.bool allowInsecure)
    | none => tlsData
  let tlsData :=
    match asStr (mapGet tlsClientSettings "fingerprint") with
    | some fingerprint => mapSet tlsData "fingerprint" (.str fingerprint)
    | none => tlsData
  tlsData

/-- A random pick `list[random.Num(len(list))].(string)` (lines 283-294), `g`
counting the draws made so far: the empty string without a draw when the value
is not a non-empty list, `none` when the index is out of range or the picked
entry is not a string. -/
def pickString (env : Env) (g : Nat) (v : Option JVal) : Option (String × Nat) :=
  match asArr v with
  | some (x :: xs) =>
    match asStr ((x :: xs).get? (env.randomNum g (x :: xs).length)) with
    | some s => some (s, g + 1)
    | none => none
  | _ => some ("", g)

/-- The function `realityData` (lines 272-297), `g` counting the random draws
made so far. -/
def realityData (env : Env) (g : Nat) (rData : JObj) : Option (JObj × Nat) :=
  let rltyClientSettings := (asObj (mapGet rData "settings")).getD []
  let rltyData : JObj := []
  let rltyData := mapSet rltyData "show" (.bool false)
  let rltyData := mapSet rltyData "publicKey" (anyGet rltyClientSettings "publicKey")
  let rltyData := mapSet rltyData "fingerprint" (anyGet rltyClientSettings "fingerprint")
  let rltyData := mapSet rltyData "mldsa65Verify" (anyGet rltyClientSettings "mldsa65Verify")
  let rltyData := mapSet rltyData "spiderX" (.str ("/" ++ env.randomSeq g 15))
  match pickString env (g + 1) (mapGet rData "shortIds") with
  | none => none
  | some (shortId, g1) =>
    let rltyData := mapSet rltyData "short-id" (.str shortId)
    match pickString env g1 (mapGet rData "serverNames") with
    | none => none
    | some (serverName, g2) =>
      let rltyData := mapSet rltyData "serverName" (.str serverName)
      some (rltyData, g2)

/-- The function `streamData` (lines 224-247), `g` counting the random draws
made so far. The result is `none` when an assertion of lines 230-232 fails. -/
def streamData (env : Env) (g : Nat) (stream : String) : Option (JObj × Nat) :=
  let streamSettings := env.jsonUnmarshal stream
  let security := (asStr (mapGet streamSettings "security")).getD ""
  let secured : Option (JObj × Nat) :=
    if security = "tls" then
      match asObj (mapGet streamSettings "tlsSettings") with
      | some tData => some (mapSet streamSettings "tlsSettings" (.obj (tlsData tData)), g)
      | none => none
    else if security = "reality" then
      match asObj (mapGet streamSettings "realitySettings") with
      | some rData =>
        match realityData env g rData with
        | some (rltyData, g1) =>
          some (mapSet streamSettings "realitySettings" (.obj rltyData), g1)
        | none => none
      | none => none
    else some (streamSettings, g)
  match secured with
  | none => none
  | some (streamSettings, g1) =>
    let streamSettings := mapDelete streamSettings "sockopt"
    let network := (asStr (mapGet streamSettings "network")).getD ""
    let streamSettings :=
      if network = "tcp" then
        mapSet streamSettings "tcpSettings"
          (.obj (removeAcceptProxy (mapGet streamSettings "tcpSettings")))
      else if network = "ws" then
        mapSet streamSettings "wsSettings"
          (.obj (removeAcceptProxy (mapGet streamSettings "wsSettings")))
      else if network = "httpupgrade" then
        mapSet streamSettings "httpupgradeSettings"
          (.obj (removeAcceptProxy (mapGet streamSettings "httpupgradeSettings")))
      else streamSettings
    some (streamSettings, g1)


/-! ## Descriptor generators -/

/-- The `case "tcp"` block on the header type (lines 319-327, 427-435,
555-563). -/
def tcpFields (proxy : Proxy) (stream : JObj) : Proxy :=
  match asObj (mapGet stream "tcpSettings") with
  | some tcpSettings =>
    match asObj (mapGet tcpSettings "header") with
    | some header =>
      match asStr (mapGet header "type") with
      | some headerType =>
        if headerType ≠ "" ∧ headerType ≠ "none" then
          mapSet proxy "headers" (.map [("type", .str headerType)])
        else proxy
      | none => proxy
    | none => proxy
  | none => proxy

/-- The `case "ws"` block (lines 330-351, 442-463, 566-587). -/
def wsFields (proxy : Proxy) (stream : JObj) : Proxy :=
  match asObj (mapGet stream "wsSettings") with
  | some wsSettings =>
    let proxy :=
      match asStr (mapGet wsSettings "path") with
      | some path =>
        if path ≠ "" then mapSet proxy "ws-opts" (.map [("path", .str path)]) else proxy
      | none => proxy
    match asObj (mapGet wsSettings "headers") with
    | some headers =>
      match asStr (mapGet headers "Host") with
      | some host =>
        if host ≠ "" then
          match (mapGet proxy "ws-opts" : Option PVal) with
          | some (PVal.map wsOpts) =>
            mapSet proxy "ws-opts" (.map (mapSet wsOpts "headers" (.map [("Host", .str host)])))
          | _ =>
            mapSet proxy "ws-opts" (.map [("headers", .map [("Host", .str host)])])
        else proxy
      | none => proxy
    | none => proxy
  | none => proxy

/-- The `case "httpupgrade"` block (lines 354-369, 466-481, 590-605). -/
def httpupgradeFields (proxy : Proxy) (stream : JObj) : Proxy :=
  match asObj (mapGet stream "httpupgradeSettings") with
  | some httpupgradeSettings =>
    let proxy :=
      match asStr (mapGet httpupgradeSettings "path") with
      | some path =>
        if path ≠ "" then mapSet proxy "httpupgrade-opts" (.map [("path", .str path)])
        else proxy
      | none => proxy
    match asStr (mapGet httpupgradeSettings "host") with
    | some host =>
      if host ≠ "" then
        match (mapGet proxy "httpupgrade-opts" : Option PVal) with
        | some (PVal.map httpupgradeOpts) =>
          mapSet proxy "httpupgrade-opts" (.map (mapSet httpupgradeOpts "host" (.str host)))
        | _ => mapSet proxy "httpupgrade-opts" (.map [("host", .str host)])
      else proxy
    | none => proxy
  | none => proxy

/-- The string-typed entries of an ALPN list (lines 380-385). -/
def alpnStrings : List JVal → List String
  | [] => []
  | .str s :: rest => s :: alpnStrings rest
  | _ :: rest => alpnStrings rest

/-- The "TLS settings" block (lines 373-397, 485-509, 609-633). -/
def tlsFields (proxy : Proxy) (stream : JObj) : Proxy :=
  if asStr (mapGet stream "security") = some "tls" then
    let proxy := mapSet proxy "tls" (.bool true)
    match asObj (mapGet stream "tlsSettings") with
    | some tlsSettings =>
      let proxy :=
        match asStr (mapGet tlsSettings "serverName") with
        | some serverName =>
          if serverName ≠ "" then mapSet proxy "servername" (.str serverName) else proxy
        | none => proxy
      let proxy :=
        match asArr (mapGet tlsSettings "alpn") with
        | some alpn =>
          if alpn.length > 0 then mapSet proxy "alpn" (.strs (alpnStrings alpn)) else proxy
        | none => proxy
      match asObj (mapGet tlsSettings "settings") with
      | some tlsClientSettings =>
        let proxy :=
          match asBool (mapGet tlsClientSettings "allowInsecure") with
          | some allowInsecure => mapSet proxy "skip-cert-verify" (.bool allowInsecure)
          | none => proxy
        match asStr (mapGet tlsClientSettings "fingerprint") with
        | some fingerprint =>
          if fingerprint ≠ "" then mapSet proxy "fingerprint" (.str fingerprint) else proxy
        | none => proxy
      | none => proxy
    | none => proxy
  else proxy

/-- One optional string field of the "Reality settings" block: set when the
setting is a non-empty string. -/
def setNonEmpty (proxy : Proxy) (key : String) (v : Option JVal) : Proxy :=
  match asStr v with
  | some s => if s ≠ "" then mapSet proxy key (.str s) else proxy
  | none => proxy

/-- The "Reality settings" block (lines 512-532, 636-656). -/
def realityFields (proxy : Proxy) (stream : JObj) (client : Client) : Proxy :=
  if asStr (mapGet stream "security") = some "reality" then
    let proxy := mapSet proxy "tls" (.bool true)
    let proxy := mapSet proxy "reality" (.bool true)
    let proxy :=
      match asObj (mapGet stream "realitySettings") with
      | some realitySettings =>
        let proxy := setNonEmpty proxy "servername" (mapGet realitySettings "serverName")
        let proxy := setNonEmpty proxy "public-key" (mapGet realitySettings "publicKey")
        let proxy := setNonEmpty proxy "short-id" (mapGet realitySettings "shortId")
        setNonEmpty proxy "spiderX" (mapGet realitySettings "spiderX")
      | none => proxy
    if client.Flow ≠ "" then mapSet proxy "flow" (.str client.Flow) else proxy
  else proxy

/-- The function `genVmess` (lines 299-400). -/
def genVmess (env : Env) (inbound : Inbound) (stream : JObj) (client : Client)
    (remark : String) : Proxy :=
  let proxy : Proxy :=
    [ ("name", .str (env.genRemark inbound client.Email remark)),
      ("type", .str "vmess"),
      ("server", .str inbound.Listen),
      ("port", .int inbound.Port),
      ("uuid", .str client.ID),
      ("alterId", .int 0),
      ("cipher", .str client.Security),
      ("udp", .bool true),
      ("skip-cert-verify", .bool false) ]
  let network := (asStr (mapGet stream "network")).getD ""
  let proxy := mapSet proxy "network" (.str network)
  let proxy :=
    if network = "tcp" then tcpFields proxy stream
    else if network = "ws" then wsFields proxy stream
    else if network = "httpupgrade" then httpupgradeFields proxy stream
    else proxy
  tlsFields proxy stream

/-- The function `genVless` (lines 402-535). -/
def genVless (env : Env) (inbound : Inbound) (stream : JObj) (client : Client)
    (remark : String) : Proxy :=
  let proxy : Proxy :=
    [ ("name", .str (env.genRemark inbound client.Email remark)),
      ("type", .str "vless"),
      ("server", .str inbound.Listen),
      ("port", .int inbound.Port),
      ("uuid", .str client.ID),
      ("udp", .bool true),
      ("skip-cert-verify", .bool false) ]
  let network := (asStr (mapGet stream "network")).getD ""
  let proxy := mapSet proxy "network" (.str network)
  let inboundSettings := env.jsonUnmarshal inbound.Settings
  let proxy :=
    match asStr (mapGet inboundSettings "encryption") with
    | some encryption => mapSet proxy "encryption" (.str encryption)
    | none => proxy
  let proxy :=
    if network = "tcp" then
      let proxy := tcpFields proxy stream
      if client.Flow ≠ "" then mapSet proxy "flow" (.str client.Flow) else proxy
    else if network = "ws" then wsFields proxy stream
    else if network = "httpupgrade" then httpupgradeFields proxy stream
    else proxy
  let proxy := tlsFields proxy stream
  realityFields proxy stream client

/-- The function `genTrojan` (lines 537-659). -/
def genTrojan (env : Env) (inbound : Inbound) (stream : JObj) (client : Client)
    (remark : String) : Proxy :=
  let proxy : Proxy :=
    [ ("name", .str (env.genRemark inbound client.Email remark)),
      ("type", .str "trojan"),
      ("server", .str inbound.Listen),
      ("port", .int inbound.Port),
      ("password", .str client.Password),
      ("udp", .bool true),
      ("skip-cert-verify", .bool false) ]
  let network := (asStr (mapGet stream "network")).getD ""
  let proxy := mapSet proxy "network" (.str network)
  let proxy :=
    if network = "tcp" then tcpFields proxy stream
    else if network = "ws" then wsFields proxy stream
    else if network = "httpupgrade" then httpupgradeFields proxy stream
    else proxy
  let proxy := tlsFields proxy stream
  realityFields proxy stream client

/-- The text `;path=...;host=...` of the plugin options (lines 690-711). -/
def pluginTransportOpts (network : String) (stream : JObj) (pluginOpts : String) : String :=
  if network = "ws" then
    match asObj (mapGet stream "wsSettings") with
    | some wsSettings =>
      let pluginOpts :=
        match asStr (mapGet wsSettings "path") with
        | some path =>
          if path ≠ "" then pluginOpts ++ Sprintf ";path=%s" [.str path] else pluginOpts
        | none => pluginOpts
      match asObj (mapGet wsSettings "headers") with
      | some headers =>
        match asStr (mapGet headers "Host") with
        | some host =>
          if host ≠ "" then pluginOpts ++ Sprintf ";host=%s" [.str host] else pluginOpts
        | none => pluginOpts
      | none => pluginOpts
    | none => pluginOpts
  else if network = "httpupgrade" then
    match asObj (mapGet stream "httpupgradeSettings") with
    | some httpupgradeSettings =>
      let pluginOpts :=
        match asStr (mapGet httpupgradeSettings "path") with
        | some path =>
          if path ≠ "" then pluginOpts ++ Sprintf ";path=%s" [.str path] else pluginOpts
        | none => pluginOpts
      match asStr (mapGet httpupgradeSettings "host") with
      | some host =>
        if host ≠ "" then pluginOpts ++ Sprintf ";host=%s" [.str host] else pluginOpts
      | none => pluginOpts
    | none => pluginOpts
  else pluginOpts

/-- The text `;tls;servername=...;allowInsecure=true` of the plugin options
(lines 714-726). -/
def pluginTlsOpts (stream : JObj) (pluginOpts : String) : String :=
  if asStr (mapGet stream "security") = some "tls" then
    let pluginOpts := pluginOpts ++ ";tls"
    match asObj (mapGet stream "tlsSettings") with
    | some tlsSettings =>
      let pluginOpts :=
        match asStr (mapGet tlsSettings "serverName") with
        | some serverName =>
          if serverName ≠ "" then pluginOpts ++ Sprintf ";servername=%s" [.str serverName]
          else pluginOpts
        | none => pluginOpts
      match asObj (mapGet tlsSettings "settings") with
      | some tlsClientSettings =>
        if asBool (mapGet tlsClientSettings "allowInsecure") = some true then
          pluginOpts ++ ";allowInsecure=true"
        else pluginOpts
      | none => pluginOpts
    | none => pluginOpts
  else pluginOpts

/-- The function `genShadowsocks` (lines 661-732). -/
def genShadowsocks (env : Env) (inbound : Inbound) (stream : JObj) (client : Client)
    (remark : String) : Proxy :=
  let inboundSettings := env.jsonUnmarshal inbound.Settings
  let method := (asStr (mapGet inboundSettings "method")).getD ""
  let proxy : Proxy :=
    [ ("name", .str (env.genRemark inbound client.Email remark)),
      ("type", .str "ss"),
      ("server", .str inbound.Listen),
      ("port", .int inbound.Port),
      ("cipher", .str method),
      ("password", .str client.Password),
      ("udp", .bool true) ]
  let proxy :=
    if HasPrefix method "2022" then
      match asStr (mapGet inboundSettings "password") with
      | some serverPassword =>
        mapSet proxy "password"
          (.str (Sprintf "%s:%s" [.str serverPassword, .str client.Password]))
      | none => proxy
    else proxy
  let network := (asStr (mapGet stream "network")).getD ""
  if network ≠ "tcp" then
    let proxy := mapSet proxy "plugin" (.str "v2ray-plugin")
    let pluginOpts := Sprintf "mode=%s" [.str network]
    let pluginOpts := pluginTransportOpts network stream pluginOpts
    let pluginOpts := pluginTlsOpts stream pluginOpts
    mapSet proxy "plugin-opts" (.str pluginOpts)
  else proxy


/-! ## Endpoint expansion -/

/-- The comparison `m[k] == s` of an `any` with a string constant. -/
def isStr (v : Option JVal) (s : String) : Bool :=
  match v with
  | some (.str t) => t = s
  | _ => false

/-- The forced security mode of one endpoint (lines 190-202). The stream map
is shared by all endpoints of the call (`newStream := stream` copies the
reference), so the result is also the stream map of the next endpoint. -/
def forceTls (stream : JObj) (mode : String) : JObj :=
  if mode = "tls" then
    if !isStr (mapGet stream "security") "tls" then
      mapSet (mapSet stream "security" (.str "tls")) "tlsSettings" (.obj [])
    else stream
  else if mode = "none" then
    if !isStr (mapGet stream "security") "none" then
      mapDelete (mapSet stream "security" (.str "none")) "tlsSettings"
    else stream
  else stream

/-- The protocol switch of `getProxies` (lines 204-214): `some none` for a
protocol without generator, `none` when the assertion on the remark fails. -/
def genProxy (env : Env) (inbound : Inbound) (newStream : JObj) (client : Client)
    (extPrxy : JObj) : Option (Option Proxy) :=
  if inbound.Protocol = "vmess" then
    (asStr (mapGet extPrxy "remark")).map fun remark =>
      some (genVmess env inbound newStream client remark)
  else if inbound.Protocol = "vless" then
    (asStr (mapGet extPrxy "remark")).map fun remark =>
      some (genVless env inbound newStream client remark)
  else if inbound.Protocol = "trojan" then
    (asStr (mapGet extPrxy "remark")).map fun remark =>
      some (genTrojan env inbound newStream client remark)
  else if inbound.Protocol = "shadowsocks" then
    (asStr (mapGet extPrxy "remark")).map fun remark =>
      some (genShadowsocks env inbound newStream client remark)
  else some none

/-- The state of the endpoint loop of `getProxies`: the listener (written
through its pointer), the shared stream map and the descriptors so far. -/
structure EndpointState where
  inbound : Inbound
  stream : JObj
  proxies : List Proxy

/-- One iteration of `for _, ep := range externalProxies` (lines 186-219);
`none` when a type assertion fails. The port of the endpoint is a `float64`
and goes through `int(...)` (line 189). -/
def endpointStep (env : Env) (client : Client) (st : EndpointState) (ep : JVal) :
    Option EndpointState :=
  match asObj (some ep) with
  | none => none
  | some extPrxy =>
    match asStr (mapGet extPrxy "dest") with
    | none => none
    | some dest =>
      match asNum (mapGet extPrxy "port") with
      | none => none
      | some port =>
        let inbound := { st.inbound with Listen := dest, Port := intOfFloat64 port }
        match asStr (mapGet extPrxy "forceTls") with
        | none => none
        | some mode =>
          let newStream := forceTls st.stream mode
          match genProxy env inbound newStream client extPrxy with
          | none => none
          | some none => some { inbound := inbound, stream := newStream, proxies := st.proxies }
          | some (some proxy) =>
            some { inbound := inbound, stream := newStream, proxies := st.proxies ++ [proxy] }

/-- The endpoint loop of `getProxies`. -/
def endpointLoop (env : Env) (client : Client) :
    List JVal → EndpointState → Option EndpointState
  | [], st => some st
  | ep :: rest, st =>
    match endpointStep env client st ep with
    | none => none
    | some st1 => endpointLoop env client rest st1

/-- The function `getProxies` (lines 168-222), `g` counting the random draws
made so far. It returns the listener as left by the writes through the
pointer, the descriptors and the new draw count; `none` when a type assertion
fails. The implicit endpoint carries the listener's port as a `float64`
(line 178). -/
def getProxies (env : Env) (g : Nat) (inbound : Inbound) (client : Client) (host : String) :
    Option (Inbound × List Proxy × Nat) :=
  match streamData env g inbound.StreamSettings with
  | none => none
  | some (stream, g1) =>
    let externalProxies :=
      match asArr (mapGet stream "externalProxy") with
      | some (ep :: eps) => ep :: eps
      | _ =>
        [ JVal.obj
            [ ("forceTls", .str "same"),
              ("dest", .str host),
              ("port", .num (float64OfInt inbound.Port)),
              ("remark", .str "") ] ]
    let stream := mapDelete stream "externalProxy"
    match endpointLoop env client externalProxies
        { inbound := inbound, stream := stream, proxies := [] } with
    | none => none
    | some st => some (st.inbound, st.proxies, g1)

/-! ## The subscription pipeline -/

/-- The state of the listener loop of `GetClash`: the traffic records and the
descriptors collected so far, and the number of random draws made. -/
structure CollectState where
  clientTraffics : List ClientTraffic
  proxies : List Proxy
  draws : Nat

/-- The loop `for _, client := range clients` (lines 65-71) on one listener. -/
def clientLoop (env : Env) (subId host : String) :
    List Client → Inbound → CollectState → Option (Inbound × CollectState)
  | [], inbound, st => some (inbound, st)
  | client :: rest, inbound, st =>
    if client.Enable ∧ client.SubID = subId then
      let clientTraffics :=
        st.clientTraffics ++ [env.getClientTraffics inbound.ClientStats client.Email]
      match getProxies env st.draws inbound client host with
      | none => none
      | some (inbound1, newProxies, g1) =>
        clientLoop env subId host rest inbound1
          { clientTraffics := clientTraffics, proxies := st.proxies ++ newProxies, draws := g1 }
    else clientLoop env subId host rest inbound st

/-- The fallback resolution of lines 56-63: a listen address that starts with
`@` is replaced by the fallback master when the lookup succeeds. -/
def resolveFallback (env : Env) (inbound : Inbound) : Inbound :=
  if inbound.Listen.data.head? = some '@' then
    match env.getFallbackMaster inbound.Listen inbound.StreamSettings with
    | some (listen, port, streamSettings) =>
      { inbound with Listen := listen, Port := port, StreamSettings := streamSettings }
    | none => inbound
  else inbound

/-- The loop `for _, inbound := range inbounds` (lines 48-72). -/
def inboundLoop (env : Env) (subId host : String) :
    List Inbound → CollectState → Option CollectState
  | [], st => some st
  | inbound :: rest, st =>
    match env.GetClients inbound with
    | none => inboundLoop env subId host rest st
    | some clients =>
      match clientLoop env subId host clients (resolveFallback env inbound) st with
      | none => none
      | some (_, st1) => inboundLoop env subId host rest st1

/-- The loop of lines 102-105 from the `k`-th descriptor on: each descriptor
formatted and followed by a line feed. -/
def formatSection (env : Env) : Nat → List Proxy → String → Option String
  | _, [], proxiesSection => some proxiesSection
  | k, proxy :: rest, proxiesSection =>
    match formatProxy (env.mapRange k) proxy with
    | none => none
    | some entry => formatSection env (k + 1) rest (proxiesSection ++ entry ++ "\n")

/-- The result of `GetClash`: document, header and error. -/
structure ClashResult where
  doc : String
  header : String
  err : Option String
  deriving DecidableEq, Repr

/-- The function `GetClash` (lines 36-132); `none` when the call panics on a
failed type assertion. -/
def GetClash (env : Env) (subId host : String) : Option ClashResult :=
  match env.getInboundsBySubId subId with
  | (inbounds, err) =>
    if err.isSome ∨ inbounds.length = 0 then
      some { doc := "", header := "", err := err }
    else
      match inboundLoop env subId host inbounds
          { clientTraffics := [], proxies := [], draws := 0 } with
      | none => none
      | some st =>
        if st.proxies.length = 0 then
          some { doc := "", header := "", err := none }
        else
          let traffic := aggregate st.clientTraffics
          match formatSection env 0 st.proxies "proxies:\n" with
          | none => none
          | some proxiesSection =>
            some { doc := spliceTemplate env.acl4ssrFullTpl proxiesSection
                   header := clashHeader traffic
                   err := none }

/-- The answer of the controller: status code, body and the
`Subscription-Userinfo` header when one is set. -/
structure Response where
  status : Nat
  body : String
  userinfo : Option String
  deriving DecidableEq, Repr

/-- The handler `SUBController.subClashes` (lines 173-186) on the result of
`GetClash`. -/
def subClashes (r : ClashResult) : Response :=
  if r.err.isSome ∨ r.doc.length = 0 then
    { status := 400, body := "Error!", userinfo := none }
  else
    { status := 200, body := r.doc, userinfo := some r.header }


/-- The entries that the loop of lines 102-105 renders, one per descriptor,
the first of them by the `k`-th call of `formatProxy`; `none` when a call
panics. -/
def renderedEntries (env : Env) : Nat → List Proxy → Option (List String)
  | _, [] => some []
  | k, proxy :: rest =>
    match formatProxy (env.mapRange k) proxy, renderedEntries env (k + 1) rest with
    | some entry, some entries => some (entry :: entries)
    | _, _ => none


/-- The descriptor has a string under `name`. -/
def HasName (proxy : Proxy) : Prop :=
  ∃ name, mapGet proxy "name" = some (.str name)

/-! ## A sample environment -/

/-- A sample listener: VLESS on port 443, its settings documents named by the
strings `vless-settings` and `ws-tls-stream`. -/
def demoInbound : Inbound :=
  { Listen := "0.0.0.0", Port := 443, Protocol := "vless", Settings := "vless-settings",
    StreamSettings := "ws-tls-stream", Remark := "in", ClientStats := [] }

/-- A sample client, enabled, of the subscription group `sub1`. -/
def demoClient : Client :=
  { ID := "u1", Security := "", Password := "", Flow := "", Email := "a@b", Enable := true,
    SubID := "sub1" }

/-- A sample environment with one listener, the given template and the given
clients. The stream settings `ws-tls-stream` decode to a WebSocket transport
(path `/ws`, Host `example.com`) under TLS (server name `example.com`). -/
def demoEnv (tpl : String) (clients : List Client) : Env where
  getInboundsBySubId := fun _ => ([demoInbound], none)
  GetClients := fun _ => some clients
  getFallbackMaster := fun _ _ => none
  getClientTraffics := fun _ _ => ⟨100, 200, 0, 0⟩
  genRemark := fun inbound email remark => inbound.Remark ++ "-" ++ email ++ remark
  jsonUnmarshal := fun s =>
    if s = "ws-tls-stream" then
      [ ("network", .str "ws"),
        ("security", .str "tls"),
        ("wsSettings",
          .obj [("path", .str "/ws"), ("headers", .obj [("Host", .str "example.com")])]),
        ("tlsSettings", .obj [("serverName", .str "example.com")]) ]
    else []
  randomSeq := fun _ _ => "abcdefghijklmno"
  randomNum := fun _ _ => 0
  mapRange := fun _ proxy => proxy
  acl4ssrFullTpl := tpl

/-- The descriptor that the sample environment yields for `demoClient` and the
request host `h.example`. -/
def demoProxy : Proxy :=
  [ ("name", .str "in-a@b"),
    ("type", .str "vless"),
    ("server", .str "h.example"),
    ("port", .int 443),
    ("uuid", .str "u1"),
    ("udp", .bool true),
    ("skip-cert-verify", .bool false),
    ("network", .str "ws"),
    ("ws-opts",
      .map [("path", .str "/ws"), ("headers", .map [("Host", .str "example.com")])]),
    ("tls", .bool true),
    ("servername", .str "example.com") ]

/-- The entry that `formatProxy` renders for `demoProxy` when the range loop
visits the fields in the order written above. -/
def demoEntry : String :=
  "  - \x7bname: in-a@b, type: vless, server: h.example, port: 443, uuid: u1, udp: true, " ++
  "skip-cert-verify: false, network: ws, " ++
  "ws-opts: map[headers:map[Host:example.com] path:/ws], tls: true, " ++
  "servername: example.com\x7d"

/-! ## Plugin options as the specification words them -/

/-- The path part of the plugin options in the words of the specification:
`;path=` and the path of the WebSocket or HTTP-Upgrade settings when that path
is a non-empty string, nothing otherwise. -/
def pluginPathSpec (network : String) (stream : JObj) : String :=
  let settings :=
    if network = "ws" then (asObj (mapGet stream "wsSettings")).getD []
    else if network = "httpupgrade" then (asObj (mapGet stream "httpupgradeSettings")).getD []
    else []
  match asStr (mapGet settings "path") with
  | some path => if path ≠ "" then ";path=" ++ path else ""
  | none => ""

/-- The host part of the plugin options in the words of the specification:
`;host=` and the Host header of the WebSocket settings or the host of the
HTTP-Upgrade settings when it is a non-empty string, nothing otherwise. -/
def pluginHostSpec (network : String) (stream : JObj) : String :=
  let host :=
    if network = "ws" then
      asStr (mapGet ((asObj (mapGet ((asObj (mapGet stream "wsSettings")).getD []) "headers")).getD [])
        "Host")
    else if network = "httpupgrade" then
      asStr (mapGet ((asObj (mapGet stream "httpupgradeSettings")).getD []) "host")
    else none
  match host with
  | some host => if host ≠ "" then ";host=" ++ host else ""
  | none => ""

/-- The TLS part of the plugin options in the words of the specification:
under security `tls` the text `;tls`, then `;servername=` and the server name
when it is a non-empty string, then `;allowInsecure=true` when the nested
client settings say so; nothing under another security mode. -/
def pluginTlsSpec (stream : JObj) : String :=
  if asStr (mapGet stream "security") = some "tls" then
    let tlsSettings := (asObj (mapGet stream "tlsSettings")).getD []
    let servername :=
      match asStr (mapGet tlsSettings "serverName") with
      | some serverName => if serverName ≠ "" then ";servername=" ++ serverName else ""
      | none => ""
    let insecure :=
      if asBool (mapGet ((asObj (mapGet tlsSettings "settings")).getD []) "allowInsecure") =
          some true then ";allowInsecure=true"
      else ""
    ";tls" ++ servername ++ insecure
  else ""

/-- The plugin options in the words of the specification: `mode=` and the
transport, then the path, host and TLS parts in that order. -/
def pluginOptsSpec (network : String) (stream : JObj) : String :=
  "mode=" ++ network ++ pluginPathSpec network stream ++ pluginHostSpec network stream ++
    pluginTlsSpec stream

/-! ## Further samples -/

/-- A sample environment whose settings documents decode by `decode`. -/
def sampleEnv (decode : String → JObj) : Env :=
  { demoEnv "" [] with jsonUnmarshal := decode }

/-- A sample Shadowsocks listener. -/
def ssInbound : Inbound :=
  { demoInbound with Protocol := "shadowsocks", Settings := "ss-settings",
                     StreamSettings := "ss-stream" }

/-- A sample client with the password `cpw`. -/
def ssClient : Client :=
  { demoClient with Password := "cpw" }

/-! ## The generators before their security blocks -/

/-- The descriptor of `genVmess` before its "TLS settings" block (lines
300-370). -/
def vmessTransport (env : Env) (inbound : Inbound) (stream : JObj) (client : Client)
    (remark : String) : Proxy :=
  let proxy : Proxy :=
    [ ("name", .str (env.genRemark inbound client.Email remark)),
      ("type", .str "vmess"),
      ("server", .str inbound.Listen),
      ("port", .int inbound.Port),
      ("uuid", .str client.ID),
      ("alterId", .int 0),
      ("cipher", .str client.Security),
      ("udp", .bool true),
      ("skip-cert-verify", .bool false) ]
  let network := (asStr (mapGet stream "network")).getD ""
  let proxy := mapSet proxy "network" (.str network)
  if network = "tcp" then tcpFields proxy stream
  else if network = "ws" then wsFields proxy stream
  else if network = "httpupgrade" then httpupgradeFields proxy stream
  else proxy

/-- The descriptor of `genVless` before its "TLS settings" block (lines
403-482). -/
def vlessTransport (env : Env) (inbound : Inbound) (stream : JObj) (client : Client)
    (remark : String) : Proxy :=
  let proxy : Proxy :=
    [ ("name", .str (env.genRemark inbound client.Email remark)),
      ("type", .str "vless"),
      ("server", .str inbound.Listen),
      ("port", .int inbound.Port),
      ("uuid", .str client.ID),
      ("udp", .bool true),
      ("skip-cert-verify", .bool false) ]
  let network := (asStr (mapGet stream "network")).getD ""
  let proxy := mapSet proxy "network" (.str network)
  let inboundSettings := env.jsonUnmarshal inbound.Settings
  let proxy :=
    match asStr (mapGet inboundSettings "encryption") with
    | some encryption => mapSet proxy "encryption" (.str encryption)
    | none => proxy
  if network = "tcp" then
    let proxy := tcpFields proxy stream
    if client.Flow ≠ "" then mapSet proxy "flow" (.str client.Flow) else proxy
  else if network = "ws" then wsFields proxy stream
  else if network = "httpupgrade" then httpupgradeFields proxy stream
  else proxy

/-- The descriptor of `genTrojan` before its "TLS settings" block (lines
538-606). -/
def trojanTransport (env : Env) (inbound : Inbound) (stream : JObj) (client : Client)
    (remark : String) : Proxy :=
  let proxy : Proxy :=
    [ ("name", .str (env.genRemark inbound client.Email remark)),
      ("type", .str "trojan"),
      ("server", .str inbound.Listen),
      ("port", .int inbound.Port),
      ("password", .str client.Password),
      ("udp", .bool true),
      ("skip-cert-verify", .bool false) ]
  let network := (asStr (mapGet stream "network")).getD ""
  let proxy := mapSet proxy "network" (.str network)
  if network = "tcp" then tcpFields proxy stream
  else if network = "ws" then wsFields proxy stream
  else if network = "httpupgrade" then httpupgradeFields proxy stream
  else proxy

/-! ## What normalization leaves in the stream settings -/

/-- Under security `tls`, the TLS settings of the stream have no nested
`settings` object. -/
def TlsFlat (stream : JObj) : Prop :=
  asStr (mapGet stream "security") = some "tls" →
    ∀ t, asObj (mapGet stream "tlsSettings") = some t → asObj (mapGet t "settings") = none

/-- Under security `reality`, the Reality settings of the stream have no
string under the key `shortId`. -/
def NoShortId (stream : JObj) : Prop :=
  asStr (mapGet stream "security") = some "reality" →
    ∀ r, asObj (mapGet stream "realitySettings") = some r → asStr (mapGet r "shortId") = none

/-! ## The two halves of `streamData` -/

/-- The security dispatch of `streamData` (lines 227-233) on the decoded
document, `g` counting the random draws made so far; `none` when an assertion
fails. -/
def normalizeSecurity (env : Env) (g : Nat) (streamSettings : JObj) : Option (JObj × Nat) :=
  let security := (asStr (mapGet streamSettings "security")).getD ""
  if security = "tls" then
    match asObj (mapGet streamSettings "tlsSettings") with
    | some tData => some (mapSet streamSettings "tlsSettings" (.obj (tlsData tData)), g)
    | none => none
  else if security = "reality" then
    match asObj (mapGet streamSettings "realitySettings") with
    | some rData =>
      match realityData env g rData with
      | some (rltyData, g1) =>
        some (mapSet streamSettings "realitySettings" (.obj rltyData), g1)
      | none => none
    | none => none
  else some (streamSettings, g)

/-- The removal of internal fields by `streamData` (lines 234-245). -/
def stripInternal (streamSettings : JObj) : JObj :=
  let streamSettings := mapDelete streamSettings "sockopt"
  let network := (asStr (mapGet streamSettings "network")).getD ""
  if network = "tcp" then
    mapSet streamSettings "tcpSettings"
      (.obj (removeAcceptProxy (mapGet streamSettings "tcpSettings")))
  else if network = "ws" then
    mapSet streamSettings "wsSettings"
      (.obj (removeAcceptProxy (mapGet streamSettings "wsSettings")))
  else if network = "httpupgrade" then
    mapSet streamSettings "httpupgradeSettings"
      (.obj (removeAcceptProxy (mapGet streamSettings "httpupgradeSettings")))
  else streamSettings

/-! ## Sample listeners and stream settings -/

/-- A sample listener of the given protocol whose settings documents are named
`settings` and `stream`. -/
def sampleInbound (protocol : String) : Inbound :=
  { demoInbound with Protocol := protocol, Settings := "settings", StreamSettings := "stream" }

/-- A sample environment in which the document named `stream` decodes to the
given stream settings and every other document to the empty object. -/
def streamEnv (doc : JObj) : Env :=
  sampleEnv fun s => if s = "stream" then doc else []

/-- Stream settings under TLS whose client-tunable settings carry
`allowInsecure = true` and the fingerprint `chrome`. -/
def tlsOverrideStream : JObj :=
  [ ("network", .str "tcp"),
    ("security", .str "tls"),
    ("tlsSettings",
      .obj [ ("serverName", .str "example.com"),
             ("settings", .obj [("allowInsecure", .bool true), ("fingerprint", .str "chrome")]) ]) ]

/-- Stream settings in Reality mode with one short-id candidate and one
server-name candidate. -/
def realityStream : JObj :=
  [ ("network", .str "tcp"),
    ("security", .str "reality"),
    ("realitySettings",
      .obj [ ("shortIds", .arr [.str "ab12"]),
             ("serverNames", .arr [.str "a.example"]),
             ("settings", .obj [("publicKey", .str "PK")]) ]) ]

/-- Stream settings without security and with two external endpoints, the
first forcing TLS, the second inheriting the listener's mode. -/
def twoEndpointStream : JObj :=
  [ ("network", .str "tcp"),
    ("security", .str "none"),
    ("externalProxy",
      .arr [ .obj [ ("forceTls", .str "tls"), ("dest", .str "cdn.example"), ("port", .num 443),
                    ("remark", .str "-cdn") ],
             .obj [ ("forceTls", .str "same"), ("dest", .str "direct.example"),
                    ("port", .num 8080), ("remark", .str "-direct") ] ]) ]

/-- Stream settings in Reality mode with one external endpoint that forces
TLS. -/
def realityForcedStream : JObj :=
  [ ("network", .str "tcp"),
    ("security", .str "reality"),
    ("realitySettings",
      .obj [ ("shortIds", .arr [.str "ab12"]),
             ("serverNames", .arr [.str "a.example"]),
             ("settings", .obj [("publicKey", .str "PK")]) ]),
    ("externalProxy",
      .arr [ .obj [ ("forceTls", .str "tls"), ("dest", .str "cdn.example"), ("port", .num 443),
                    ("remark", .str "-cdn") ] ]) ]

/-! ## Well-formed endpoints -/

/-- An endpoint that passes the type assertions of `getProxies` (lines
187-213): an object with a string `dest`, a numeric `port`, a string
`forceTls` and a string `remark`. -/
def wellFormedEndpoint (ep : JVal) : Bool :=
  match asObj (some ep) with
  | none => false
  | some extPrxy =>
    (asStr (mapGet extPrxy "dest")).isSome && (asNum (mapGet extPrxy "port")).isSome &&
      (asStr (mapGet extPrxy "forceTls")).isSome && (asStr (mapGet extPrxy "remark")).isSome

/-- The explicit external endpoints of normalized stream settings; none when
the entry is absent or not a list. -/
def explicitEndpoints (stream : JObj) : List JVal :=
  (asArr (mapGet stream "externalProxy")).getD []

/-- The protocol tags for which `getProxies` has a generator. -/
def supportedProtocols : List String :=
  ["vmess", "vless", "trojan", "shadowsocks"]

/-! ## The descriptors of a subscription as the specification words them -/

/-- The clients of a listener that a subscription selects: those that are
enabled and whose subscription-group identifier is the requested one. -/
def selectedClients (subId : String) (clients : List Client) : List Client :=
  clients.filter fun client => client.Enable && decide (client.SubID = subId)

/-- The concatenation, in client order, of the descriptors of `getProxies` on
one listener over the given clients, `g` counting the random draws made so
far; `none` when a call panics. -/
def proxiesOfClients (env : Env) (host : String) (inbound : Inbound) :
    List Client → Nat → Option (List Proxy × Nat)
  | [], g => some ([], g)
  | client :: rest, g =>
    match getProxies env g inbound client host with
    | none => none
    | some (_, newProxies, g1) =>
      match proxiesOfClients env host inbound rest g1 with
      | none => none
      | some (proxies, g2) => some (newProxies ++ proxies, g2)

/-- The concatenation, in listener order, of `proxiesOfClients` over the
selected clients of each listener that has a client list, the listener taken
after fallback resolution. -/
def proxiesOfListeners (env : Env) (subId host : String) :
    List Inbound → Nat → Option (List Proxy × Nat)
  | [], g => some ([], g)
  | inbound :: rest, g =>
    match env.GetClients inbound with
    | none => proxiesOfListeners env subId host rest g
    | some clients =>
      match proxiesOfClients env host (resolveFallback env inbound)
          (selectedClients subId clients) g with
      | none => none
      | some (proxies, g1) =>
        match proxiesOfListeners env subId host rest g1 with
        | none => none
        | some (more, g2) => some (proxies ++ more, g2)

/-- The descriptors of a subscription: the concatenation of
`proxiesOfListeners` over the listeners that the lookup yields, none of them
when the lookup fails; `none` when a call of `getProxies` panics. -/
def subscriptionProxies (env : Env) (subId host : String) : Option (List Proxy) :=
  match env.getInboundsBySubId subId with
  | (inbounds, err) =>
    if err.isSome then some []
    else (proxiesOfListeners env subId host inbounds 0).map fun r => r.1

/-- The listener differs from the given one at most in address and port, and
in the port only by what the conversion to `float64` and back removes, unless
the stream settings list explicit external endpoints (which then overwrite the
port). -/
def Relisten (env : Env) (inbound inbound1 : Inbound) : Prop :=
  ∃ listen port,
    inbound1 = { inbound with Listen := listen, Port := port } ∧
    (intOfFloat64 (float64OfInt port) = intOfFloat64 (float64OfInt inbound.Port) ∨
      ∃ ep eps,
        asArr (mapGet (env.jsonUnmarshal inbound.StreamSettings) "externalProxy") =
          some (ep :: eps))

/-! # Theorems -/

theorem wrap64_wrap64_add (a b : Int) : wrap64 (wrap64 a + b) = wrap64 (a + b) := by
  unfold wrap64; omega

theorem wrap64_of_isInt64 {a : Int} (h : isInt64 a) : wrap64 a = a := by
  unfold isInt64 at h; unfold wrap64; omega

theorem isInt64_wrap64 (a : Int) : isInt64 (wrap64 a) := by
  unfold isInt64 wrap64; omega

/-! ## Conversions between `int` and `float64` -/

theorem roundEven_of_dvd (y m : Nat) (h : y % m = 0) : roundEven y m = y := by
  unfold roundEven
  simp only [h, Nat.mul_zero]
  rcases Nat.eq_zero_or_pos m with hm | hm
  · subst hm
    simp at h
    subst h
    simp
  · have h1 : ¬ (m < 0 ∨ (0 = m ∧ y / m % 2 = 1)) := by
      rintro (h1 | ⟨h1, _⟩)
      · omega
      · omega
    rw [if_neg h1]
    exact Nat.div_mul_cancel (Nat.dvd_of_mod_eq_zero h)

theorem roundEven_small (a : Nat) (h : a < 9007199254740992) :
    roundEven a (float64Ulp a) = a := by
  have : float64Ulp a = 1 := by simp [float64Ulp, h]
  rw [this]
  exact roundEven_of_dvd a 1 (Nat.mod_one a)

theorem float64Ulp_cases (y : Nat) :
    (y < 9007199254740992 ∧ float64Ulp y = 1) ∨
    (9007199254740992 ≤ y ∧ y < 18014398509481984 ∧ float64Ulp y = 2) ∨
    (18014398509481984 ≤ y ∧ y < 36028797018963968 ∧ float64Ulp y = 4) ∨
    (36028797018963968 ≤ y ∧ y < 72057594037927936 ∧ float64Ulp y = 8) ∨
    (72057594037927936 ≤ y ∧ y < 144115188075855872 ∧ float64Ulp y = 16) ∨
    (144115188075855872 ≤ y ∧ y < 288230376151711744 ∧ float64Ulp y = 32) ∨
    (288230376151711744 ≤ y ∧ y < 576460752303423488 ∧ float64Ulp y = 64) ∨
    (576460752303423488 ≤ y ∧ y < 1152921504606846976 ∧ float64Ulp y = 128) ∨
    (1152921504606846976 ≤ y ∧ y < 2305843009213693952 ∧ float64Ulp y = 256) ∨
    (2305843009213693952 ≤ y ∧ y < 4611686018427387904 ∧ float64Ulp y = 512) ∨
    (4611686018427387904 ≤ y ∧ y < 9223372036854775808 ∧ float64Ulp y = 1024) ∨
    (9223372036854775808 ≤ y ∧ float64Ulp y = 2048) := by
  unfold float64Ulp
  by_cases h1 : y < 9007199254740992
  · exact Or.inl ⟨h1, by rw [if_pos h1]⟩
  · rw [if_neg h1]
    refine Or.inr ?_
    by_cases h2 : y < 18014398509481984
    · exact Or.inl ⟨Nat.le_of_not_lt h1, h2, by rw [if_pos h2]⟩
    · rw [if_neg h2]
      refine Or.inr ?_
      by_cases h3 : y < 36028797018963968
      · exact Or.inl ⟨Nat.le_of_not_lt h2, h3, by rw [if_pos h3]⟩
      · rw [if_neg h3]
        refine Or.inr ?_
        by_cases h4 : y < 72057594037927936
        · exact Or.inl ⟨Nat.le_of_not_lt h3, h4, by rw [if_pos h4]⟩
        · rw [if_neg h4]
          refine Or.inr ?_
          by_cases h5 : y < 144115188075855872
          · exact Or.inl ⟨Nat.le_of_not_lt h4, h5, by rw [if_pos h5]⟩
          · rw [if_neg h5]
            refine Or.inr ?_
            by_cases h6 : y < 288230376151711744
            · exact Or.inl ⟨Nat.le_of_not_lt h5, h6, by rw [if_pos h6]⟩
            · rw [if_neg h6]
              refine Or.inr ?_
              by_cases h7 : y < 576460752303423488
              · exact Or.inl ⟨Nat.le_of_not_lt h6, h7, by rw [if_pos h7]⟩
              · rw [if_neg h7]
                refine Or.inr ?_
                by_cases h8 : y < 1152921504606846976
                · exact Or.inl ⟨Nat.le_of_not_lt h7, h8, by rw [if_pos h8]⟩
                · rw [if_neg h8]
                  refine Or.inr ?_
                  by_cases h9 : y < 2305843009213693952
                  · exact Or.inl ⟨Nat.le_of_not_lt h8, h9, by rw [if_pos h9]⟩
                  · rw [if_neg h9]
                    refine Or.inr ?_
                    by_cases h10 : y < 4611686018427387904
                    · exact Or.inl ⟨Nat.le_of_not_lt h9, h10, by rw [if_pos h10]⟩
                    · rw [if_neg h10]
                      refine Or.inr ?_
                      by_cases h11 : y < 9223372036854775808
                      · exact Or.inl ⟨Nat.le_of_not_lt h10, h11, by rw [if_pos h11]⟩
                      · rw [if_neg h11]
                        refine Or.inr ?_
                        exact ⟨Nat.le_of_not_lt h11, rfl⟩

set_option maxHeartbeats 4000000 in
theorem roundEven_ulp_dvd (a : Nat) :
    roundEven a (float64Ulp a) % float64Ulp (roundEven a (float64Ulp a)) = 0 := by
  have ha := float64Ulp_cases a
  generalize float64Ulp a = m at ha ⊢
  have hyd : roundEven a m =
      if m < 2 * (a % m) ∨ (2 * (a % m) = m ∧ a / m % 2 = 1) then (a / m + 1) * m
      else a / m * m := rfl
  generalize roundEven a m = y at hyd ⊢
  have hy := float64Ulp_cases y
  generalize float64Ulp y = u at hy ⊢
  rcases ha with
    ⟨h1, rfl⟩ | ⟨h1, h2, rfl⟩ | ⟨h1, h2, rfl⟩ | ⟨h1, h2, rfl⟩ | ⟨h1, h2, rfl⟩ |
    ⟨h1, h2, rfl⟩ | ⟨h1, h2, rfl⟩ | ⟨h1, h2, rfl⟩ | ⟨h1, h2, rfl⟩ | ⟨h1, h2, rfl⟩ |
    ⟨h1, h2, rfl⟩ | ⟨h1, rfl⟩
  all_goals
    split at hyd
    all_goals
      rcases hy with
        ⟨k1, rfl⟩ | ⟨k1, k2, rfl⟩ | ⟨k1, k2, rfl⟩ | ⟨k1, k2, rfl⟩ | ⟨k1, k2, rfl⟩ |
        ⟨k1, k2, rfl⟩ | ⟨k1, k2, rfl⟩ | ⟨k1, k2, rfl⟩ | ⟨k1, k2, rfl⟩ | ⟨k1, k2, rfl⟩ |
        ⟨k1, k2, rfl⟩ | ⟨k1, rfl⟩
      all_goals omega

theorem roundEven_float64 (a : Nat) :
    roundEven (roundEven a (float64Ulp a)) (float64Ulp (roundEven a (float64Ulp a))) =
      roundEven a (float64Ulp a) :=
  roundEven_of_dvd _ _ (roundEven_ulp_dvd a)

/-- Up to 2^53 in magnitude the conversion to `float64` is exact. -/
theorem float64OfInt_small (n : Int) (h : n.natAbs ≤ 9007199254740992) :
    float64OfInt n = n := by
  have hr : roundEven n.natAbs (float64Ulp n.natAbs) = n.natAbs := by
    rcases Nat.lt_or_ge n.natAbs 9007199254740992 with h1 | h1
    · exact roundEven_small _ h1
    · have he : n.natAbs = 9007199254740992 := Nat.le_antisymm h h1
      rw [he]
      decide
  unfold float64OfInt
  rw [hr]
  split <;> omega

/-- A value of `float64` converts to itself. -/
theorem float64OfInt_idem (n : Int) : float64OfInt (float64OfInt n) = float64OfInt n := by
  have key : ∀ y : Nat, roundEven y (float64Ulp y) = y →
      float64OfInt (y : Int) = y ∧ float64OfInt (-(y : Int)) = -(y : Int) := by
    intro y hy
    constructor
    · unfold float64OfInt
      rw [if_neg (by omega), Int.natAbs_ofNat, hy]
    · unfold float64OfInt
      rw [Int.natAbs_neg, Int.natAbs_ofNat, hy]
      split
      · rfl
      · omega
  have h := key _ (roundEven_float64 n.natAbs)
  unfold float64OfInt
  split
  · exact h.2
  · exact h.1

theorem intOfFloat64_small (x : Int) (h : x.natAbs ≤ 9007199254740992) :
    intOfFloat64 x = x := by
  unfold intOfFloat64
  rw [if_pos (by omega)]

/-- The conversion of a port to `float64` and back leaves a port that itself
came out of this conversion unchanged. -/
theorem intOfFloat64_float64OfInt_idem (n : Int) :
    intOfFloat64 (float64OfInt (intOfFloat64 (float64OfInt n))) =
      intOfFloat64 (float64OfInt n) := by
  by_cases hr : -9223372036854775808 ≤ float64OfInt n ∧ float64OfInt n < 9223372036854775808
  · have h1 : intOfFloat64 (float64OfInt n) = float64OfInt n := by
      unfold intOfFloat64; rw [if_pos hr]
    rw [h1, float64OfInt_idem, h1]
  · have h1 : intOfFloat64 (float64OfInt n) = -9223372036854775808 := by
      unfold intOfFloat64; rw [if_neg hr]
    rw [h1]
    decide

theorem intOfFloat64_float64OfInt_small (n : Int) (h : n.natAbs ≤ 9007199254740992) :
    intOfFloat64 (float64OfInt n) = n := by
  rw [float64OfInt_small n h, intOfFloat64_small n h]

/-! ## The summary of the traffic records -/

theorem aggLoop_succ_Up (cts : List ClientTraffic) (n : Nat) (t : ClientTraffic)
    (hu : isInt64 t.Up) :
    (aggLoop (n + 1) t cts).Up = wrap64 (t.Up + (cts.map (·.Up)).sum) := by
  induction cts generalizing n t with
  | nil => simp [aggLoop, wrap64_of_isInt64 hu]
  | cons c rest ih =>
    have h1 := ih (n + 1) (aggStep (n + 1) t c)
      (by simp only [aggStep, Nat.add_one_ne_zero, if_false]; exact isInt64_wrap64 _)
    simp only [aggLoop, List.map_cons, List.sum_cons]
    rw [h1]
    simp only [aggStep, Nat.add_one_ne_zero, if_false]
    rw [wrap64_wrap64_add, add_assoc]

theorem aggLoop_succ_Down (cts : List ClientTraffic) (n : Nat) (t : ClientTraffic)
    (hu : isInt64 t.Down) :
    (aggLoop (n + 1) t cts).Down = wrap64 (t.Down + (cts.map (·.Down)).sum) := by
  induction cts generalizing n t with
  | nil => simp [aggLoop, wrap64_of_isInt64 hu]
  | cons c rest ih =>
    have h1 := ih (n + 1) (aggStep (n + 1) t c)
      (by simp only [aggStep, Nat.add_one_ne_zero, if_false]; exact isInt64_wrap64 _)
    simp only [aggLoop, List.map_cons, List.sum_cons]
    rw [h1]
    simp only [aggStep, Nat.add_one_ne_zero, if_false]
    rw [wrap64_wrap64_add, add_assoc]

theorem aggregate_Up (cts : List ClientTraffic) (h : ∀ c ∈ cts, c.valid) :
    (aggregate cts).Up = wrap64 ((cts.map (·.Up)).sum) := by
  cases cts with
  | nil => simp [aggregate, aggLoop, zeroTraffic, wrap64]
  | cons c rest =>
    have hc : c.valid := h c (List.mem_cons_self _ _)
    simp only [aggregate, aggLoop, List.map_cons, List.sum_cons]
    rw [aggLoop_succ_Up]
    · simp [aggStep]
    · simpa [aggStep] using hc.1

theorem aggregate_Down (cts : List ClientTraffic) (h : ∀ c ∈ cts, c.valid) :
    (aggregate cts).Down = wrap64 ((cts.map (·.Down)).sum) := by
  cases cts with
  | nil => simp [aggregate, aggLoop, zeroTraffic, wrap64]
  | cons c rest =>
    have hc : c.valid := h c (List.mem_cons_self _ _)
    simp only [aggregate, aggLoop, List.map_cons, List.sum_cons]
    rw [aggLoop_succ_Down]
    · simp [aggStep]
    · simpa [aggStep] using hc.2.1

/-- Once the running quota is zero it stays zero, and a zero-quota record makes it zero. -/
theorem aggLoop_succ_Total_zero (cts : List ClientTraffic) (n : Nat) (t : ClientTraffic)
    (h : t.Total = 0 ∨ ∃ c ∈ cts, c.Total = 0) :
    (aggLoop (n + 1) t cts).Total = 0 := by
  induction cts generalizing n t with
  | nil =>
    rcases h with h | ⟨c, hc, _⟩
    · simpa [aggLoop] using h
    · cases hc
  | cons c rest ih =>
    simp only [aggLoop]
    apply ih
    by_cases h0 : t.Total = 0 ∨ c.Total = 0
    · left; simp [aggStep, h0]
    · right
      rcases h with h | ⟨d, hd, hd0⟩
      · exact absurd (Or.inl h) h0
      · rcases List.mem_cons.1 hd with rfl | hd
        · exact absurd (Or.inr hd0) h0
        · exact ⟨d, hd, hd0⟩

theorem aggregate_Total_zero (cts : List ClientTraffic) (h : ∃ c ∈ cts, c.Total = 0) :
    (aggregate cts).Total = 0 := by
  cases cts with
  | nil => rfl
  | cons c rest =>
    simp only [aggregate, aggLoop]
    apply aggLoop_succ_Total_zero
    obtain ⟨d, hd, hd0⟩ := h
    rcases List.mem_cons.1 hd with rfl | hd
    · left; simpa [aggStep] using hd0
    · exact Or.inr ⟨d, hd, hd0⟩

/-- The running quota under non-negative quotas whose sum does not overflow. -/
theorem aggLoop_succ_Total (cts : List ClientTraffic) (n : Nat) (t : ClientTraffic)
    (ht : 0 ≤ t.Total) (hc : ∀ c ∈ cts, 0 ≤ c.Total)
    (hs : t.Total + (cts.map (·.Total)).sum < 9223372036854775808) :
    (aggLoop (n + 1) t cts).Total =
      if t.Total = 0 ∨ ∃ c ∈ cts, c.Total = 0 then 0
      else t.Total + (cts.map (·.Total)).sum := by
  induction cts generalizing n t with
  | nil =>
    simp only [aggLoop, List.not_mem_nil, false_and, exists_false, or_false, List.map_nil,
      List.sum_nil, add_zero]
    split
    · assumption
    · rfl
  | cons c rest ih =>
    have hc0 : 0 ≤ c.Total := hc c (List.mem_cons_self _ _)
    have hrest : ∀ d ∈ rest, 0 ≤ d.Total := fun d hd => hc d (List.mem_cons_of_mem _ hd)
    have hsum : 0 ≤ (rest.map (·.Total)).sum :=
      List.sum_nonneg (by simpa using hrest)
    simp only [List.map_cons, List.sum_cons] at hs
    by_cases h0 : t.Total = 0 ∨ c.Total = 0
    · have hz : (aggLoop (n + 1) t (c :: rest)).Total = 0 := by
        apply aggLoop_succ_Total_zero
        rcases h0 with h0 | h0
        · exact Or.inl h0
        · exact Or.inr ⟨c, List.mem_cons_self _ _, h0⟩
      rw [hz, if_pos]
      rcases h0 with h0 | h0
      · exact Or.inl h0
      · exact Or.inr ⟨c, List.mem_cons_self _ _, h0⟩
    · have hne : t.Total ≠ 0 ∧ c.Total ≠ 0 := by
        constructor
        · exact fun h => h0 (Or.inl h)
        · exact fun h => h0 (Or.inr h)
      have hstep : (aggStep (n + 1) t c).Total = t.Total + c.Total := by
        simp only [aggStep, Nat.add_one_ne_zero, if_false, h0]
        apply wrap64_of_isInt64
        unfold isInt64; omega
      simp only [aggLoop]
      rw [ih (n + 1) (aggStep (n + 1) t c) (by rw [hstep]; omega) hrest
        (by rw [hstep]; omega), hstep]
      have hpos : t.Total + c.Total ≠ 0 := by omega
      simp only [hpos, false_or, List.mem_cons, exists_eq_or_imp, hne.1, hne.2,
        List.map_cons, List.sum_cons, add_assoc]

/-- The running expiry after the first record: kept while every later record
agrees with it, zero otherwise. -/
theorem aggLoop_succ_Expiry (cts : List ClientTraffic) (n : Nat) (t : ClientTraffic) :
    (aggLoop (n + 1) t cts).ExpiryTime =
      if ∀ c ∈ cts, c.ExpiryTime = t.ExpiryTime then t.ExpiryTime else 0 := by
  induction cts generalizing n t with
  | nil => simp [aggLoop]
  | cons c rest ih =>
    simp only [aggLoop]
    rw [ih]
    by_cases hc : c.ExpiryTime = t.ExpiryTime
    · have hstep : (aggStep (n + 1) t c).ExpiryTime = t.ExpiryTime := by
        simp [aggStep, hc]
      simp only [hstep, List.mem_cons, forall_eq_or_imp, hc, true_and]
    · have hstep : (aggStep (n + 1) t c).ExpiryTime = 0 := by
        simp [aggStep, hc]
      simp only [hstep, List.mem_cons, forall_eq_or_imp, hc, false_and, if_false]
      split <;> rfl

/-- Closed form of the summary expiry. -/
theorem aggregate_Expiry (c : ClientTraffic) (rest : List ClientTraffic) :
    (aggregate (c :: rest)).ExpiryTime =
      if 0 < c.ExpiryTime ∧ ∀ d ∈ rest, d.ExpiryTime = c.ExpiryTime then c.ExpiryTime
      else 0 := by
  simp only [aggregate, aggLoop]
  rw [aggLoop_succ_Expiry]
  by_cases hpos : 0 < c.ExpiryTime
  · have hseed : (aggStep 0 zeroTraffic c).ExpiryTime = c.ExpiryTime := by
      simp [aggStep, hpos]
    simp only [hseed, hpos, true_and]
  · have hseed : (aggStep 0 zeroTraffic c).ExpiryTime = 0 := by
      simp [aggStep, hpos, zeroTraffic]
    simp only [hseed, hpos, false_and, if_false]
    split <;> rfl


theorem ClientTraffic.eq_of_fields {a b : ClientTraffic} (h1 : a.Up = b.Up)
    (h2 : a.Down = b.Down) (h3 : a.Total = b.Total) (h4 : a.ExpiryTime = b.ExpiryTime) :
    a = b := by
  cases a; cases b; simp_all

/-- Closed form of the summary when all quotas are positive, their sum fits in
`int64` and every record carries the expiry of the first one. -/
theorem aggregate_cons_closed (c : ClientTraffic) (rest : List ClientTraffic)
    (hv : ∀ d ∈ c :: rest, d.valid) (hpos : ∀ d ∈ c :: rest, 0 < d.Total)
    (hs : ((c :: rest).map (·.Total)).sum < 9223372036854775808)
    (he : ∀ d ∈ rest, d.ExpiryTime = c.ExpiryTime) :
    aggregate (c :: rest) =
      { Up := wrap64 (((c :: rest).map (·.Up)).sum)
        Down := wrap64 (((c :: rest).map (·.Down)).sum)
        Total := ((c :: rest).map (·.Total)).sum
        ExpiryTime := if 0 < c.ExpiryTime then c.ExpiryTime else 0 } := by
  apply ClientTraffic.eq_of_fields
  · exact aggregate_Up _ hv
  · exact aggregate_Down _ hv
  · have hc : 0 < c.Total := hpos c (List.mem_cons_self _ _)
    have hrest : ∀ d ∈ rest, 0 < d.Total := fun d hd => hpos d (List.mem_cons_of_mem _ hd)
    simp only [List.map_cons, List.sum_cons] at hs
    simp only [aggregate, aggLoop]
    have hseed : (aggStep 0 zeroTraffic c).Total = c.Total := by simp [aggStep]
    rw [aggLoop_succ_Total rest 0 _ (by rw [hseed]; omega)
      (fun d hd => le_of_lt (hrest d hd)) (by rw [hseed]; exact hs), hseed]
    have hno : ¬ (c.Total = 0 ∨ ∃ d ∈ rest, d.Total = 0) := by
      rintro (h | ⟨d, hd, h0⟩)
      · omega
      · have := hrest d hd; omega
    simp only [hno, if_false, List.map_cons, List.sum_cons]
  · rw [aggregate_Expiry]
    by_cases h0 : 0 < c.ExpiryTime
    · simp only [h0, true_and]
      rw [if_pos he]; simp
    · simp [h0]

/-- C1 (as amended). For every sequence of records with `int64` counters the
summary upload is the sum of all uploads reduced to `int64` by wraparound, hence
the exact sum whenever that sum is an `int64`; likewise for download; and the
records (100,200,0,0), (50,50,1000,0) aggregate to (150,250,0,0). -/
theorem aggregate_up_down_sum (cts : List ClientTraffic) (h : ∀ c ∈ cts, c.valid) :
    (aggregate cts).Up = wrap64 ((cts.map (·.Up)).sum) ∧
    (aggregate cts).Down = wrap64 ((cts.map (·.Down)).sum) ∧
    (isInt64 ((cts.map (·.Up)).sum) → (aggregate cts).Up = (cts.map (·.Up)).sum) ∧
    (isInt64 ((cts.map (·.Down)).sum) → (aggregate cts).Down = (cts.map (·.Down)).sum) ∧
    aggregate [⟨100, 200, 0, 0⟩, ⟨50, 50, 1000, 0⟩] = ⟨150, 250, 0, 0⟩ := by
  refine ⟨aggregate_Up cts h, aggregate_Down cts h, ?_, ?_, by decide⟩
  · intro hs; rw [aggregate_Up cts h, wrap64_of_isInt64 hs]
  · intro hs; rw [aggregate_Down cts h, wrap64_of_isInt64 hs]

theorem aggregate_up_down_sum_witness :
    (∀ c ∈ [(⟨100, 200, 0, 0⟩ : ClientTraffic), ⟨50, 50, 1000, 0⟩], c.valid) ∧
    (aggregate [⟨100, 200, 0, 0⟩, ⟨50, 50, 1000, 0⟩]).Up = 150 ∧
    (aggregate [⟨100, 200, 0, 0⟩, ⟨50, 50, 1000, 0⟩]).Down = 250 :=
  have hv : ∀ c ∈ [(⟨100, 200, 0, 0⟩ : ClientTraffic), ⟨50, 50, 1000, 0⟩], c.valid := by
    decide
  ⟨hv,
   (aggregate_up_down_sum _ hv).2.2.1 (by decide),
   (aggregate_up_down_sum _ hv).2.2.2.1 (by decide)⟩

/-- C1 (counterexample). Two valid records with uploads 2^63-1 and 1: the
summary upload is -2^63, not the sum 2^63. -/
theorem aggregate_up_overflow_counterexample :
    (⟨9223372036854775807, 0, 0, 0⟩ : ClientTraffic).valid ∧
    (⟨1, 0, 0, 0⟩ : ClientTraffic).valid ∧
    (aggregate [⟨9223372036854775807, 0, 0, 0⟩, ⟨1, 0, 0, 0⟩]).Up = -9223372036854775808 ∧
    (aggregate [⟨9223372036854775807, 0, 0, 0⟩, ⟨1, 0, 0, 0⟩]).Up ≠
      ([(⟨9223372036854775807, 0, 0, 0⟩ : ClientTraffic), ⟨1, 0, 0, 0⟩].map (·.Up)).sum := by
  decide

/-- C2. If at least one record of the sequence has total 0, the summary total
is 0, wherever that record stands and whatever the other totals are. -/
theorem zero_total_forces_zero_summary (cts : List ClientTraffic)
    (h : ∃ c ∈ cts, c.Total = 0) : (aggregate cts).Total = 0 :=
  aggregate_Total_zero cts h

theorem zero_total_forces_zero_summary_witness :
    (∃ c ∈ [(⟨1, 2, 1000, 0⟩ : ClientTraffic), ⟨3, 4, 0, 0⟩, ⟨5, 6, 2000, 0⟩], c.Total = 0) ∧
    (aggregate [⟨1, 2, 1000, 0⟩, ⟨3, 4, 0, 0⟩, ⟨5, 6, 2000, 0⟩]).Total = 0 :=
  ⟨⟨⟨3, 4, 0, 0⟩, by decide, rfl⟩,
   zero_total_forces_zero_summary _ ⟨⟨3, 4, 0, 0⟩, by decide, rfl⟩⟩

/-- C3. If two records of the sequence carry different expiry timestamps, the
summary expiry is 0, wherever the two records stand. -/
theorem expiry_mismatch_forces_zero (cts : List ClientTraffic)
    (h : ∃ a ∈ cts, ∃ b ∈ cts, a.ExpiryTime ≠ b.ExpiryTime) :
    (aggregate cts).ExpiryTime = 0 := by
  cases cts with
  | nil => rfl
  | cons c rest =>
    rw [aggregate_Expiry]
    split
    · rename_i hall
      exfalso
      obtain ⟨a, ha, b, hb, hab⟩ := h
      have key : ∀ d ∈ c :: rest, d.ExpiryTime = c.ExpiryTime := by
        intro d hd
        rcases List.mem_cons.1 hd with rfl | hd
        · rfl
        · exact hall.2 d hd
      exact hab ((key a ha).trans (key b hb).symm)
    · rfl

theorem expiry_mismatch_forces_zero_witness :
    (∃ a ∈ [(⟨1, 2, 3, 7000⟩ : ClientTraffic), ⟨1, 2, 3, 7000⟩, ⟨1, 2, 3, 9000⟩],
      ∃ b ∈ [(⟨1, 2, 3, 7000⟩ : ClientTraffic), ⟨1, 2, 3, 7000⟩, ⟨1, 2, 3, 9000⟩],
        a.ExpiryTime ≠ b.ExpiryTime) ∧
    (aggregate [⟨1, 2, 3, 7000⟩, ⟨1, 2, 3, 7000⟩, ⟨1, 2, 3, 9000⟩]).ExpiryTime = 0 :=
  ⟨⟨⟨1, 2, 3, 7000⟩, by decide, ⟨1, 2, 3, 9000⟩, by decide, by decide⟩,
   expiry_mismatch_forces_zero _
     ⟨⟨1, 2, 3, 7000⟩, by decide, ⟨1, 2, 3, 9000⟩, by decide, by decide⟩⟩


/-- C4 (as amended). For every non-empty sequence of records that all carry the
same positive expiry timestamp e, the summary expiry is e; the first record
seeds the running expiry whenever its expiry is positive, and leaves it at zero
otherwise. -/
theorem consistent_positive_expiry_preserved (cts : List ClientTraffic) (e : Int)
    (hne : cts ≠ []) (he : 0 < e) (hall : ∀ c ∈ cts, c.ExpiryTime = e) :
    (aggregate cts).ExpiryTime = e ∧
    (∀ c : ClientTraffic, 0 < c.ExpiryTime →
      (aggStep 0 zeroTraffic c).ExpiryTime = c.ExpiryTime) ∧
    (∀ c : ClientTraffic, ¬ 0 < c.ExpiryTime →
      (aggStep 0 zeroTraffic c).ExpiryTime = 0) := by
  refine ⟨?_, ?_, ?_⟩
  · cases cts with
    | nil => exact absurd rfl hne
    | cons c rest =>
      have hc : c.ExpiryTime = e := hall c (List.mem_cons_self _ _)
      rw [aggregate_Expiry, if_pos, hc]
      refine ⟨by rw [hc]; exact he, ?_⟩
      intro d hd
      rw [hall d (List.mem_cons_of_mem _ hd), hc]
  · intro c hc; simp [aggStep, hc]
  · intro c hc; simp [aggStep, hc, zeroTraffic]

theorem consistent_positive_expiry_preserved_witness :
    (aggregate [⟨1, 2, 3, 1700000000000⟩, ⟨4, 5, 6, 1700000000000⟩]).ExpiryTime
      = 1700000000000 :=
  (consistent_positive_expiry_preserved
    [⟨1, 2, 3, 1700000000000⟩, ⟨4, 5, 6, 1700000000000⟩] 1700000000000
    (by decide) (by decide) (by decide)).1

/-- C4 (counterexample). Records that all carry the same negative expiry -5:
the first record does not seed the running expiry and the summary expiry is 0,
not -5. -/
theorem negative_expiry_counterexample :
    (⟨10, 20, 30, -5⟩ : ClientTraffic).valid ∧
    (aggStep 0 zeroTraffic ⟨10, 20, 30, -5⟩).ExpiryTime = 0 ∧
    (aggregate [⟨10, 20, 30, -5⟩]).ExpiryTime = 0 ∧
    (aggregate [⟨10, 20, 30, -5⟩]).ExpiryTime ≠ -5 ∧
    (aggregate [⟨10, 20, 30, -5⟩, ⟨1, 2, 3, -5⟩]).ExpiryTime ≠ -5 := by
  decide

/-- C5 (as amended). For every sequence of `int64` records whose totals are all
positive, whose totals sum to an `int64` value and whose expiries all agree, and
for every permutation of that sequence, the aggregation yields the same summary
(upload, download, total, expiry) for the permuted sequence as for the
original one. -/
theorem aggregate_perm_invariant (cts cts' : List ClientTraffic) (hp : cts.Perm cts')
    (hv : ∀ c ∈ cts, c.valid) (hpos : ∀ c ∈ cts, 0 < c.Total)
    (hs : (cts.map (·.Total)).sum < 9223372036854775808)
    (he : ∀ a ∈ cts, ∀ b ∈ cts, a.ExpiryTime = b.ExpiryTime) :
    aggregate cts' = aggregate cts := by
  have hv' : ∀ c ∈ cts', c.valid := fun c hc => hv c (hp.mem_iff.2 hc)
  have hpos' : ∀ c ∈ cts', 0 < c.Total := fun c hc => hpos c (hp.mem_iff.2 hc)
  have hT : (cts'.map (·.Total)).sum = (cts.map (·.Total)).sum := ((hp.map _).sum_eq).symm
  have hU : (cts'.map (·.Up)).sum = (cts.map (·.Up)).sum := ((hp.map _).sum_eq).symm
  have hD : (cts'.map (·.Down)).sum = (cts.map (·.Down)).sum := ((hp.map _).sum_eq).symm
  cases cts with
  | nil => rw [List.nil_perm.1 hp]
  | cons c rest =>
    cases cts' with
    | nil => exact absurd (List.perm_nil.1 hp) (List.cons_ne_nil _ _)
    | cons c' rest' =>
      have hc' : c' ∈ c :: rest := hp.mem_iff.2 (List.mem_cons_self _ _)
      have hcc : c'.ExpiryTime = c.ExpiryTime := he c' hc' c (List.mem_cons_self _ _)
      rw [aggregate_cons_closed c rest hv hpos hs
            (fun d hd => he d (List.mem_cons_of_mem _ hd) c (List.mem_cons_self _ _)),
          aggregate_cons_closed c' rest' hv' hpos' (by rw [hT]; exact hs)
            (fun d hd => he d (hp.mem_iff.2 (List.mem_cons_of_mem _ hd)) c' hc'),
          hT, hU, hD, hcc]

theorem aggregate_perm_invariant_witness :
    aggregate [⟨50, 50, 1000, 7000⟩, ⟨100, 200, 500, 7000⟩, ⟨1, 1, 20, 7000⟩] =
      aggregate [(⟨100, 200, 500, 7000⟩ : ClientTraffic), ⟨50, 50, 1000, 7000⟩,
        ⟨1, 1, 20, 7000⟩] :=
  aggregate_perm_invariant
    [⟨100, 200, 500, 7000⟩, ⟨50, 50, 1000, 7000⟩, ⟨1, 1, 20, 7000⟩]
    [⟨50, 50, 1000, 7000⟩, ⟨100, 200, 500, 7000⟩, ⟨1, 1, 20, 7000⟩]
    (List.Perm.swap _ _ _) (by decide) (by decide) (by decide) (by decide)

/-- C5 (counterexample). Non-zero totals and agreeing expiries do not make the
summary independent of the order: with totals 5, -5, 3 the running total meets
zero and stays there (summary total 0), while the permutation 5, 3, -5 gives 3;
and with the positive totals 2^63-1, 2^63-1, 2, 7 the wrapped running total
meets zero (summary total 0), while the permutation 2^63-1, 2^63-1, 7, 2
gives 7. -/
theorem aggregate_perm_counterexample :
    List.Perm [(⟨0, 0, 5, 0⟩ : ClientTraffic), ⟨0, 0, -5, 0⟩, ⟨0, 0, 3, 0⟩]
      [⟨0, 0, 5, 0⟩, ⟨0, 0, 3, 0⟩, ⟨0, 0, -5, 0⟩] ∧
    (∀ c ∈ [(⟨0, 0, 5, 0⟩ : ClientTraffic), ⟨0, 0, -5, 0⟩, ⟨0, 0, 3, 0⟩],
      c.valid ∧ c.Total ≠ 0 ∧ c.ExpiryTime = 0) ∧
    (aggregate [⟨0, 0, 5, 0⟩, ⟨0, 0, -5, 0⟩, ⟨0, 0, 3, 0⟩]).Total = 0 ∧
    (aggregate [⟨0, 0, 5, 0⟩, ⟨0, 0, 3, 0⟩, ⟨0, 0, -5, 0⟩]).Total = 3 ∧
    aggregate [⟨0, 0, 5, 0⟩, ⟨0, 0, 3, 0⟩, ⟨0, 0, -5, 0⟩] ≠
      aggregate [⟨0, 0, 5, 0⟩, ⟨0, 0, -5, 0⟩, ⟨0, 0, 3, 0⟩] ∧
    List.Perm
      [(⟨0, 0, 9223372036854775807, 0⟩ : ClientTraffic), ⟨0, 0, 9223372036854775807, 0⟩,
        ⟨0, 0, 2, 0⟩, ⟨0, 0, 7, 0⟩]
      [⟨0, 0, 9223372036854775807, 0⟩, ⟨0, 0, 9223372036854775807, 0⟩,
        ⟨0, 0, 7, 0⟩, ⟨0, 0, 2, 0⟩] ∧
    (∀ c ∈ [(⟨0, 0, 9223372036854775807, 0⟩ : ClientTraffic),
        ⟨0, 0, 9223372036854775807, 0⟩, ⟨0, 0, 2, 0⟩, ⟨0, 0, 7, 0⟩],
      c.valid ∧ c.Total ≠ 0 ∧ c.ExpiryTime = 0) ∧
    (aggregate [⟨0, 0, 9223372036854775807, 0⟩, ⟨0, 0, 9223372036854775807, 0⟩,
      ⟨0, 0, 2, 0⟩, ⟨0, 0, 7, 0⟩]).Total = 0 ∧
    (aggregate [⟨0, 0, 9223372036854775807, 0⟩, ⟨0, 0, 9223372036854775807, 0⟩,
      ⟨0, 0, 7, 0⟩, ⟨0, 0, 2, 0⟩]).Total = 7 :=
  ⟨List.Perm.cons _ (List.Perm.swap _ _ _), by decide, by decide, by decide, by decide,
   List.Perm.cons _ (List.Perm.cons _ (List.Perm.swap _ _ _)), by decide, by decide,
   by decide⟩


/-! ## Header, pipeline and renderer -/

theorem clashHeader_eq (t : ClientTraffic) :
    clashHeader t = "upload=" ++ fmtD t.Up ++ "; download=" ++ fmtD t.Down ++
      "; total=" ++ fmtD t.Total ++ "; expire=" ++ fmtD (Int.tdiv t.ExpiryTime 1000) := by
  apply String.ext
  simp [clashHeader, Sprintf, sprintfAux, fmtV, String.data_append]

/-- Go's quotient by 1000 drops the fraction: it is the floor of a non-negative
dividend and the negated floor of the opposite of a negative one. -/
theorem tdiv_1000_truncates (e : Int) :
    (0 ≤ e → Int.tdiv e 1000 = e / 1000) ∧
    (e < 0 → Int.tdiv e 1000 = -((-e) / 1000)) := by
  constructor
  · intro h
    exact Int.tdiv_eq_ediv h (by decide)
  · intro h
    have h1 : Int.tdiv (-e) 1000 = (-e) / 1000 := Int.tdiv_eq_ediv (by omega) (by decide)
    rw [← h1, Int.neg_tdiv, neg_neg]

/-- If no client of a listener is enabled with the requested group, the client
loop leaves the listener and the collected state as they are. -/
theorem clientLoop_no_match (env : Env) (subId host : String) (clients : List Client)
    (inbound : Inbound) (st : CollectState)
    (h : ∀ c ∈ clients, ¬ (c.Enable = true ∧ c.SubID = subId)) :
    clientLoop env subId host clients inbound st = some (inbound, st) := by
  induction clients with
  | nil => rfl
  | cons c rest ih =>
    have hc := h c (List.mem_cons_self _ _)
    simp only [clientLoop, hc, if_false]
    exact ih (fun d hd => h d (List.mem_cons_of_mem _ hd))

/-- If no client of any listener is enabled with the requested group, the
listener loop collects nothing. -/
theorem inboundLoop_no_match (env : Env) (subId host : String) (inbounds : List Inbound)
    (st : CollectState)
    (h : ∀ inbound ∈ inbounds, ∀ clients, env.GetClients inbound = some clients →
      ∀ c ∈ clients, ¬ (c.Enable = true ∧ c.SubID = subId)) :
    inboundLoop env subId host inbounds st = some st := by
  induction inbounds with
  | nil => rfl
  | cons i rest ih =>
    have hrest := ih (fun j hj => h j (List.mem_cons_of_mem _ hj))
    simp only [inboundLoop]
    cases hg : env.GetClients i with
    | none => simpa using hrest
    | some clients =>
      simp only []
      rw [clientLoop_no_match env subId host clients _ st
        (h i (List.mem_cons_self _ _) clients hg)]
      simpa using hrest

/-- C6. For every summary the header of `GetClash` is the text `upload=` Up
`; download=` Down `; total=` Total `; expire=` E with each number in decimal,
E being ExpiryTime divided by 1000 with the fraction dropped; the header of
the controller's line-oriented answer is the same text; and the header that
`GetClash` returns with a non-empty document is this text for the aggregated
traffic. -/
theorem usage_header_format (t : ClientTraffic) :
    clashHeader t = "upload=" ++ fmtD t.Up ++ "; download=" ++ fmtD t.Down ++
      "; total=" ++ fmtD t.Total ++ "; expire=" ++ fmtD (Int.tdiv t.ExpiryTime 1000) ∧
    subsHeader t = clashHeader t ∧
    (0 ≤ t.ExpiryTime → Int.tdiv t.ExpiryTime 1000 = t.ExpiryTime / 1000) ∧
    (t.ExpiryTime < 0 → Int.tdiv t.ExpiryTime 1000 = -((-t.ExpiryTime) / 1000)) ∧
    clashHeader ⟨150, 250, 0, 1700000000999⟩ =
      "upload=150; download=250; total=0; expire=1700000000" ∧
    clashHeader ⟨150, 250, 0, -1999⟩ = "upload=150; download=250; total=0; expire=-1" ∧
    (∀ (env : Env) (subId host : String) (r : ClashResult),
      GetClash env subId host = some r → r.doc ≠ "" →
      ∃ cts, r.header = clashHeader (aggregate cts)) := by
  refine ⟨clashHeader_eq t, rfl, (tdiv_1000_truncates _).1, (tdiv_1000_truncates _).2,
    by decide, by decide, ?_⟩
  intro env subId host r h hdoc
  unfold GetClash at h
  rcases hl : env.getInboundsBySubId subId with ⟨inbounds, err⟩
  rw [hl] at h
  simp only [] at h
  split at h
  · cases h; exact absurd rfl hdoc
  · split at h
    · cases h
    · rename_i st _
      split at h
      · cases h; exact absurd rfl hdoc
      · split at h
        · cases h
        · cases h; exact ⟨st.clientTraffics, rfl⟩

/-- C7. If the listener lookup succeeds and no client of any returned listener
is both enabled and in the requested subscription group, `GetClash` returns the
empty document, the empty header and no error (and the controller answers 400
`Error!`). -/
theorem getClash_empty_when_no_match (env : Env) (subId host : String)
    (hlookup : (env.getInboundsBySubId subId).2 = none)
    (hno : ∀ inbound ∈ (env.getInboundsBySubId subId).1, ∀ clients,
      env.GetClients inbound = some clients →
      ∀ c ∈ clients, ¬ (c.Enable = true ∧ c.SubID = subId)) :
    GetClash env subId host = some { doc := "", header := "", err := none } ∧
    (GetClash env subId host).map subClashes =
      some { status := 400, body := "Error!", userinfo := none } := by
  have key : GetClash env subId host = some { doc := "", header := "", err := none } := by
    unfold GetClash
    rcases hl : env.getInboundsBySubId subId with ⟨inbounds, err⟩
    rw [hl] at hlookup hno
    simp only [] at hlookup hno
    subst hlookup
    simp only []
    split
    · rfl
    · rw [inboundLoop_no_match env subId host inbounds _ hno]
      simp
  rw [key]
  exact ⟨rfl, by decide⟩


/-! ## Template splice -/

theorem dropLastByte_append_newline (x : String) : dropLastByte (x ++ "\n") = x := by
  apply String.ext
  simp [dropLastByte, String.data_append]

theorem formatSection_eq (env : Env) (ps : List Proxy) (k : Nat) (acc : String) :
    formatSection env k ps (acc ++ "\n") =
      (renderedEntries env k ps).map fun es => String.intercalate.go acc "\n" es ++ "\n" := by
  induction ps generalizing k acc with
  | nil => simp [formatSection, renderedEntries, String.intercalate.go]
  | cons p rest ih =>
    simp only [formatSection, renderedEntries]
    cases hp : formatProxy (env.mapRange k) p with
    | none => simp
    | some entry =>
      simp only []
      have h := ih (k + 1) (acc ++ "\n" ++ entry)
      rw [String.append_assoc] at h
      rw [String.append_assoc, h]
      cases hr : renderedEntries env (k + 1) rest with
      | none => simp
      | some es => simp [String.intercalate.go, String.append_assoc]

theorem renderedEntries_length (env : Env) (ps : List Proxy) (k : Nat) (es : List String)
    (h : renderedEntries env k ps = some es) : es.length = ps.length := by
  induction ps generalizing k es with
  | nil => simp [renderedEntries] at h; subst h; rfl
  | cons p rest ih =>
    simp only [renderedEntries] at h
    cases hp : formatProxy (env.mapRange k) p with
    | none => simp [hp] at h
    | some entry =>
      cases hr : renderedEntries env (k + 1) rest with
      | none => simp [hp, hr] at h
      | some es1 =>
        simp [hp, hr] at h
        subst h
        simp [ih (k + 1) es1 hr]

/-- The section text built by lines 102-105 is the `proxies:` line and the
rendered entries joined by line feeds, followed by one line feed. -/
theorem formatSection_proxies (env : Env) (ps : List Proxy) (es : List String)
    (h : renderedEntries env 0 ps = some es) :
    formatSection env 0 ps "proxies:\n" = some (Join ("proxies:" :: es) "\n" ++ "\n") := by
  have h1 := formatSection_eq env ps 0 "proxies:"
  rw [h] at h1
  have h2 : ("proxies:" ++ "\n" : String) = "proxies:\n" := by decide
  rw [h2] at h1
  rw [h1]
  simp [Join, String.intercalate]

theorem spliceStep_outside (ps : String) (acc : List String) (line : String)
    (h : TrimSpace line ≠ "proxies:") :
    spliceStep ps ⟨acc, false⟩ line = ⟨acc ++ [line], false⟩ := by
  simp [spliceStep, h]

theorem spliceStep_anchor (ps : String) (acc : List String) (b : Bool) (line : String)
    (h : TrimSpace line = "proxies:") :
    spliceStep ps ⟨acc, b⟩ line = ⟨acc ++ [dropLastByte ps], true⟩ := by
  simp [spliceStep, h]

theorem spliceStep_inside (ps : String) (acc : List String) (line : String)
    (h : TrimSpace line ≠ "proxies:")
    (ht : (HasPrefix (TrimSpace line) "proxy-groups:" || HasPrefix (TrimSpace line) "rules:")
      = false) :
    spliceStep ps ⟨acc, true⟩ line = ⟨acc, true⟩ := by
  simp only [spliceStep, h, if_false, ht, Bool.and_false]
  simp

theorem spliceStep_token (ps : String) (acc : List String) (line : String)
    (ht : (HasPrefix (TrimSpace line) "proxy-groups:" || HasPrefix (TrimSpace line) "rules:")
      = true) :
    spliceStep ps ⟨acc, true⟩ line = ⟨acc ++ [line], false⟩ := by
  have h : TrimSpace line ≠ "proxies:" := by
    intro h
    rw [h] at ht
    exact absurd ht (by decide)
  simp only [spliceStep, h, if_false, ht, Bool.and_true]
  simp

theorem foldl_spliceStep_outside (ps : String) (lines : List String) (acc : List String)
    (h : ∀ l ∈ lines, TrimSpace l ≠ "proxies:") :
    lines.foldl (spliceStep ps) ⟨acc, false⟩ = ⟨acc ++ lines, false⟩ := by
  induction lines generalizing acc with
  | nil => simp
  | cons l rest ih =>
    rw [List.foldl_cons, spliceStep_outside ps acc l (h l (List.mem_cons_self _ _)),
      ih _ (fun m hm => h m (List.mem_cons_of_mem _ hm))]
    simp

theorem foldl_spliceStep_inside (ps : String) (lines : List String) (acc : List String)
    (h : ∀ l ∈ lines, TrimSpace l ≠ "proxies:" ∧
      (HasPrefix (TrimSpace l) "proxy-groups:" || HasPrefix (TrimSpace l) "rules:") = false) :
    lines.foldl (spliceStep ps) ⟨acc, true⟩ = ⟨acc, true⟩ := by
  induction lines generalizing acc with
  | nil => simp
  | cons l rest ih =>
    have hl := h l (List.mem_cons_self _ _)
    rw [List.foldl_cons, spliceStep_inside ps acc l hl.1 hl.2,
      ih _ (fun m hm => h m (List.mem_cons_of_mem _ hm))]

/-- Without an anchor line the document is the template lines followed by the
block. -/
theorem spliceTemplate_no_anchor (tpl ps : String)
    (h : ∀ l ∈ Split tpl, TrimSpace l ≠ "proxies:") :
    spliceTemplate tpl ps = Join (Split tpl ++ [dropLastByte ps]) "\n" := by
  simp only [spliceTemplate]
  rw [foldl_spliceStep_outside ps (Split tpl) [] h]
  simp

/-- With an anchor line and a later section token the block is placed at the
anchor and once more after the last line: the flag that lines 126-128 test has
been cleared at the section token. -/
theorem spliceTemplate_anchor_then_token (tpl ps : String)
    (before mid rest : List String) (anchor tok : String)
    (hs : Split tpl = before ++ anchor :: mid ++ tok :: rest)
    (hb : ∀ l ∈ before, TrimSpace l ≠ "proxies:")
    (ha : TrimSpace anchor = "proxies:")
    (hm : ∀ l ∈ mid, TrimSpace l ≠ "proxies:" ∧
      (HasPrefix (TrimSpace l) "proxy-groups:" || HasPrefix (TrimSpace l) "rules:") = false)
    (ht : (HasPrefix (TrimSpace tok) "proxy-groups:" || HasPrefix (TrimSpace tok) "rules:")
      = true)
    (hr : ∀ l ∈ rest, TrimSpace l ≠ "proxies:") :
    spliceTemplate tpl ps =
      Join (before ++ [dropLastByte ps] ++ tok :: rest ++ [dropLastByte ps]) "\n" := by
  simp only [spliceTemplate]
  rw [hs]
  simp only [List.foldl_append, List.foldl_cons]
  rw [foldl_spliceStep_outside ps before [] hb, spliceStep_anchor ps _ false anchor ha,
    foldl_spliceStep_inside ps mid _ hm, spliceStep_token ps _ tok ht,
    foldl_spliceStep_outside ps rest _ hr]
  simp

/-- When the lookup succeeds and the listener loop collects at least one
descriptor, `GetClash` returns the spliced template and the usage header. -/
theorem GetClash_render (env : Env) (subId host : String) (inbounds : List Inbound)
    (st : CollectState) (entries : List String)
    (hl : env.getInboundsBySubId subId = (inbounds, none)) (hin : inbounds ≠ [])
    (hc : inboundLoop env subId host inbounds
      { clientTraffics := [], proxies := [], draws := 0 } = some st)
    (hne : st.proxies ≠ [])
    (he : renderedEntries env 0 st.proxies = some entries) :
    GetClash env subId host =
      some { doc := spliceTemplate env.acl4ssrFullTpl (Join ("proxies:" :: entries) "\n" ++ "\n")
             header := clashHeader (aggregate st.clientTraffics)
             err := none } := by
  unfold GetClash
  rw [hl]
  have hin' : ¬ inbounds.length = 0 := by
    intro h; exact hin (List.length_eq_zero.1 h)
  have hne' : ¬ st.proxies.length = 0 := by
    intro h; exact hne (List.length_eq_zero.1 h)
  simp only [Option.isSome_none, Bool.false_eq_true, false_or, hin', if_false, hc, hne',
    formatSection_proxies env st.proxies entries he]




/-! ## Every generated descriptor has a string name -/

theorem mapGet_mapSet_ne {α : Type} (m : List (String × α)) (k k' : String) (v : α)
    (h : k' ≠ k) : mapGet (mapSet m k' v) k = mapGet m k := by
  induction m with
  | nil => simp [mapSet, mapGet, h]
  | cons kv rest ih =>
    obtain ⟨k0, v0⟩ := kv
    by_cases h0 : k0 = k'
    · subst h0; simp [mapSet, mapGet, h]
    · by_cases h1 : k0 = k
      · subst h1; simp [mapSet, mapGet, h0]
      · simp [mapSet, mapGet, h0, h1, ih]

theorem tcpFields_name (proxy : Proxy) (stream : JObj) :
    mapGet (tcpFields proxy stream) "name" = mapGet proxy "name" := by
  unfold tcpFields
  repeat' (first | split | dsimp only)
  all_goals simp [mapGet_mapSet_ne]

theorem wsFields_name (proxy : Proxy) (stream : JObj) :
    mapGet (wsFields proxy stream) "name" = mapGet proxy "name" := by
  unfold wsFields
  repeat' (first | split | dsimp only)
  all_goals simp [mapGet_mapSet_ne]

theorem httpupgradeFields_name (proxy : Proxy) (stream : JObj) :
    mapGet (httpupgradeFields proxy stream) "name" = mapGet proxy "name" := by
  unfold httpupgradeFields
  repeat' (first | split | dsimp only)
  all_goals simp [mapGet_mapSet_ne]

theorem tlsFields_name (proxy : Proxy) (stream : JObj) :
    mapGet (tlsFields proxy stream) "name" = mapGet proxy "name" := by
  unfold tlsFields
  repeat' (first | split | dsimp only)
  all_goals simp [mapGet_mapSet_ne]

theorem setNonEmpty_name (proxy : Proxy) (key : String) (v : Option JVal)
    (h : key ≠ "name") :
    mapGet (setNonEmpty proxy key v) "name" = mapGet proxy "name" := by
  unfold setNonEmpty
  repeat' (first | split | dsimp only)
  all_goals simp [mapGet_mapSet_ne, h]

theorem realityFields_name (proxy : Proxy) (stream : JObj) (client : Client) :
    mapGet (realityFields proxy stream client) "name" = mapGet proxy "name" := by
  unfold realityFields
  repeat' (first | split | dsimp only)
  all_goals simp [mapGet_mapSet_ne, setNonEmpty_name]


theorem genVmess_name (env : Env) (inbound : Inbound) (stream : JObj) (client : Client)
    (remark : String) :
    mapGet (genVmess env inbound stream client remark) "name" =
      some (.str (env.genRemark inbound client.Email remark)) := by
  unfold genVmess
  simp only [tlsFields_name]
  repeat' (first | split | dsimp only)
  all_goals
    simp [tcpFields_name, wsFields_name, httpupgradeFields_name, mapGet_mapSet_ne, mapGet]

theorem genVless_name (env : Env) (inbound : Inbound) (stream : JObj) (client : Client)
    (remark : String) :
    mapGet (genVless env inbound stream client remark) "name" =
      some (.str (env.genRemark inbound client.Email remark)) := by
  unfold genVless
  simp only [tlsFields_name, realityFields_name]
  repeat' (first | split | dsimp only)
  all_goals
    simp [tcpFields_name, wsFields_name, httpupgradeFields_name, mapGet_mapSet_ne, mapGet]

theorem genTrojan_name (env : Env) (inbound : Inbound) (stream : JObj) (client : Client)
    (remark : String) :
    mapGet (genTrojan env inbound stream client remark) "name" =
      some (.str (env.genRemark inbound client.Email remark)) := by
  unfold genTrojan
  simp only [tlsFields_name, realityFields_name]
  repeat' (first | split | dsimp only)
  all_goals
    simp [tcpFields_name, wsFields_name, httpupgradeFields_name, mapGet_mapSet_ne, mapGet]

theorem genShadowsocks_name (env : Env) (inbound : Inbound) (stream : JObj) (client : Client)
    (remark : String) :
    mapGet (genShadowsocks env inbound stream client remark) "name" =
      some (.str (env.genRemark inbound client.Email remark)) := by
  unfold genShadowsocks
  repeat' (first | split | dsimp only)
  all_goals simp [mapGet_mapSet_ne, mapGet]

theorem genProxy_name (env : Env) (inbound : Inbound) (stream : JObj) (client : Client)
    (extPrxy : JObj) (proxy : Proxy)
    (h : genProxy env inbound stream client extPrxy = some (some proxy)) : HasName proxy := by
  unfold genProxy at h
  split at h
  · cases hr : asStr (mapGet extPrxy "remark") with
    | none => simp [hr] at h
    | some remark => simp [hr] at h; subst h; exact ⟨_, genVmess_name _ _ _ _ _⟩
  · split at h
    · cases hr : asStr (mapGet extPrxy "remark") with
      | none => simp [hr] at h
      | some remark => simp [hr] at h; subst h; exact ⟨_, genVless_name _ _ _ _ _⟩
    · split at h
      · cases hr : asStr (mapGet extPrxy "remark") with
        | none => simp [hr] at h
        | some remark => simp [hr] at h; subst h; exact ⟨_, genTrojan_name _ _ _ _ _⟩
      · split at h
        · cases hr : asStr (mapGet extPrxy "remark") with
          | none => simp [hr] at h
          | some remark => simp [hr] at h; subst h; exact ⟨_, genShadowsocks_name _ _ _ _ _⟩
        · simp at h

theorem endpointStep_names (env : Env) (client : Client) (st st1 : EndpointState) (ep : JVal)
    (h : endpointStep env client st ep = some st1) (hst : ∀ p ∈ st.proxies, HasName p) :
    ∀ p ∈ st1.proxies, HasName p := by
  unfold endpointStep at h
  split at h
  · cases h
  · split at h
    · cases h
    · split at h
      · cases h
      · try dsimp only at h
        split at h
        · cases h
        · try dsimp only at h
          split at h
          · cases h
          · cases h; exact hst
          · rename_i proxy hg
            cases h
            intro p hp
            rcases List.mem_append.1 hp with hp | hp
            · exact hst p hp
            · rw [List.mem_singleton.1 hp]
              exact genProxy_name _ _ _ _ _ _ hg

theorem endpointLoop_names (env : Env) (client : Client) (eps : List JVal)
    (st st1 : EndpointState)
    (h : endpointLoop env client eps st = some st1) (hst : ∀ p ∈ st.proxies, HasName p) :
    ∀ p ∈ st1.proxies, HasName p := by
  induction eps generalizing st with
  | nil => simp [endpointLoop] at h; subst h; exact hst
  | cons ep rest ih =>
    simp only [endpointLoop] at h
    cases hs : endpointStep env client st ep with
    | none => simp [hs] at h
    | some st2 =>
      simp only [hs] at h
      exact ih st2 h (endpointStep_names env client st st2 ep hs hst)

theorem getProxies_names (env : Env) (g : Nat) (inbound : Inbound) (client : Client)
    (host : String) (r : Inbound × List Proxy × Nat)
    (h : getProxies env g inbound client host = some r) : ∀ p ∈ r.2.1, HasName p := by
  unfold getProxies at h
  split at h
  · cases h
  · dsimp only at h
    split at h
    · cases h
    · rename_i st hl
      cases h
      exact endpointLoop_names env client _ _ st hl (by simp)

theorem clientLoop_names (env : Env) (subId host : String) (clients : List Client)
    (inbound : Inbound) (st : CollectState) (r : Inbound × CollectState)
    (h : clientLoop env subId host clients inbound st = some r)
    (hst : ∀ p ∈ st.proxies, HasName p) : ∀ p ∈ r.2.proxies, HasName p := by
  induction clients generalizing inbound st with
  | nil => simp [clientLoop] at h; subst h; exact hst
  | cons c rest ih =>
    simp only [clientLoop] at h
    split at h
    · split at h
      · cases h
      · rename_i inbound1 newProxies g1 hg
        apply ih _ _ h
        intro p hp
        rcases List.mem_append.1 hp with hp | hp
        · exact hst p hp
        · exact getProxies_names env _ _ _ _ _ hg p hp
    · exact ih _ _ h hst

theorem inboundLoop_names (env : Env) (subId host : String) (inbounds : List Inbound)
    (st st1 : CollectState)
    (h : inboundLoop env subId host inbounds st = some st1)
    (hst : ∀ p ∈ st.proxies, HasName p) : ∀ p ∈ st1.proxies, HasName p := by
  induction inbounds generalizing st with
  | nil => simp [inboundLoop] at h; subst h; exact hst
  | cons i rest ih =>
    simp only [inboundLoop] at h
    split at h
    · exact ih _ h hst
    · split at h
      · cases h
      · rename_i inb st2 hc
        exact ih _ h (clientLoop_names env subId host _ _ st _ hc hst)

theorem renderedEntries_of_names (env : Env) (ps : List Proxy) (k : Nat)
    (h : ∀ p ∈ ps, HasName p) : ∃ es, renderedEntries env k ps = some es := by
  induction ps generalizing k with
  | nil => exact ⟨[], rfl⟩
  | cons p rest ih =>
    obtain ⟨es, hes⟩ := ih (k + 1) (fun q hq => h q (List.mem_cons_of_mem _ hq))
    obtain ⟨name, hn⟩ := h p (List.mem_cons_self _ _)
    have hf : ∃ e, formatProxy (env.mapRange k) p = some e := by
      simp [formatProxy, hn]
    obtain ⟨e, he⟩ := hf
    exact ⟨e :: es, by simp [renderedEntries, he, hes]⟩

theorem getClash_empty_when_no_match_witness :
    GetClash
      (demoEnv "port: 7890\nproxies:\nrules:"
        [{ demoClient with Enable := false }, { demoClient with SubID := "other" },
         { demoClient with SubID := "" }])
      "sub1" "h.example" = some { doc := "", header := "", err := none } :=
  (getClash_empty_when_no_match
    (demoEnv "port: 7890\nproxies:\nrules:"
      [{ demoClient with Enable := false }, { demoClient with SubID := "other" },
       { demoClient with SubID := "" }])
    "sub1" "h.example" rfl
    (by
      intro inbound _ clients hg c hc
      cases hg
      revert c
      decide)).1

/-- C8 (behaviour of the code). When the template has an anchor line
`proxies:` followed later by a line that starts with `proxy-groups:` or
`rules:`, and the listener loop has collected a non-empty descriptor list,
`GetClash` returns the lines before the anchor, the generated block (the
`proxies:` line and one rendered entry per descriptor), the lines from the
section token to the end, and then the generated block a second time: the flag
tested after the scan was cleared at the section token. -/
theorem getClash_block_at_anchor_and_at_end (env : Env) (subId host : String)
    (inbounds : List Inbound) (st : CollectState)
    (before mid rest : List String) (anchor tok : String)
    (hl : env.getInboundsBySubId subId = (inbounds, none)) (hin : inbounds ≠ [])
    (hc : inboundLoop env subId host inbounds
      { clientTraffics := [], proxies := [], draws := 0 } = some st)
    (hne : st.proxies ≠ [])
    (hs : Split env.acl4ssrFullTpl = before ++ anchor :: mid ++ tok :: rest)
    (hb : ∀ l ∈ before, TrimSpace l ≠ "proxies:")
    (ha : TrimSpace anchor = "proxies:")
    (hm : ∀ l ∈ mid, TrimSpace l ≠ "proxies:" ∧
      (HasPrefix (TrimSpace l) "proxy-groups:" || HasPrefix (TrimSpace l) "rules:") = false)
    (ht : (HasPrefix (TrimSpace tok) "proxy-groups:" || HasPrefix (TrimSpace tok) "rules:")
      = true)
    (hr : ∀ l ∈ rest, TrimSpace l ≠ "proxies:") :
    ∃ entries, renderedEntries env 0 st.proxies = some entries ∧
      entries.length = st.proxies.length ∧
      GetClash env subId host =
        some { doc := Join (before ++ [Join ("proxies:" :: entries) "\n"] ++ tok :: rest ++
                        [Join ("proxies:" :: entries) "\n"]) "\n"
               header := clashHeader (aggregate st.clientTraffics)
               err := none } := by
  obtain ⟨entries, he⟩ := renderedEntries_of_names env st.proxies 0
    (inboundLoop_names env subId host inbounds _ st hc (by simp))
  refine ⟨entries, he, renderedEntries_length env st.proxies 0 entries he, ?_⟩
  rw [GetClash_render env subId host inbounds st entries hl hin hc hne he,
    spliceTemplate_anchor_then_token _ _ before mid rest anchor tok hs hb ha hm ht hr,
    dropLastByte_append_newline]

set_option maxRecDepth 100000 in
theorem getClash_block_at_anchor_and_at_end_witness :
    GetClash
      (demoEnv "port: 7890\nproxies:\n  - old\nproxy-groups:\n  - name: x\nrules:\n  - MATCH"
        [demoClient])
      "sub1" "h.example" =
      some { doc := "port: 7890\nproxies:\n" ++ demoEntry ++
                    "\nproxy-groups:\n  - name: x\nrules:\n  - MATCH\nproxies:\n" ++ demoEntry
             header := "upload=100; download=200; total=0; expire=0"
             err := none } := by
  obtain ⟨entries, he, _, hg⟩ := getClash_block_at_anchor_and_at_end
    (demoEnv "port: 7890\nproxies:\n  - old\nproxy-groups:\n  - name: x\nrules:\n  - MATCH"
      [demoClient])
    "sub1" "h.example" [demoInbound]
    { clientTraffics := [⟨100, 200, 0, 0⟩], proxies := [demoProxy], draws := 0 }
    ["port: 7890"] ["  - old"] ["  - name: x", "rules:", "  - MATCH"] "proxies:" "proxy-groups:"
    rfl (by decide) rfl (List.cons_ne_nil _ _) (by decide) (by decide) (by decide) (by decide)
    (by decide) (by decide)
  have h2 : renderedEntries
      (demoEnv "port: 7890\nproxies:\n  - old\nproxy-groups:\n  - name: x\nrules:\n  - MATCH"
        [demoClient]) 0 [demoProxy] = some [demoEntry] := by decide
  rw [h2] at he
  cases he
  exact hg.trans (by decide)

/-- C9. When no line of the template has the trimmed content `proxies:` and
the listener loop has collected a non-empty descriptor list, `GetClash` returns
a document: every template line verbatim and in order, followed by the
generated block (the `proxies:` line and one rendered entry per descriptor)
once, at the end. -/
theorem getClash_block_appended_without_anchor (env : Env) (subId host : String)
    (inbounds : List Inbound) (st : CollectState)
    (hl : env.getInboundsBySubId subId = (inbounds, none)) (hin : inbounds ≠ [])
    (hc : inboundLoop env subId host inbounds
      { clientTraffics := [], proxies := [], draws := 0 } = some st)
    (hne : st.proxies ≠ [])
    (hno : ∀ l ∈ Split env.acl4ssrFullTpl, TrimSpace l ≠ "proxies:") :
    ∃ entries, renderedEntries env 0 st.proxies = some entries ∧
      entries.length = st.proxies.length ∧
      GetClash env subId host =
        some { doc := Join (Split env.acl4ssrFullTpl ++ [Join ("proxies:" :: entries) "\n"]) "\n"
               header := clashHeader (aggregate st.clientTraffics)
               err := none } := by
  obtain ⟨entries, he⟩ := renderedEntries_of_names env st.proxies 0
    (inboundLoop_names env subId host inbounds _ st hc (by simp))
  refine ⟨entries, he, renderedEntries_length env st.proxies 0 entries he, ?_⟩
  rw [GetClash_render env subId host inbounds st entries hl hin hc hne he,
    spliceTemplate_no_anchor _ _ hno, dropLastByte_append_newline]

set_option maxRecDepth 100000 in
theorem getClash_block_appended_without_anchor_witness :
    GetClash (demoEnv "port: 7890\nmode: rule" [demoClient]) "sub1" "h.example" =
      some { doc := "port: 7890\nmode: rule\nproxies:\n" ++ demoEntry
             header := "upload=100; download=200; total=0; expire=0"
             err := none } := by
  obtain ⟨entries, he, _, hg⟩ := getClash_block_appended_without_anchor
    (demoEnv "port: 7890\nmode: rule" [demoClient]) "sub1" "h.example" [demoInbound]
    { clientTraffics := [⟨100, 200, 0, 0⟩], proxies := [demoProxy], draws := 0 }
    rfl (by decide) rfl (List.cons_ne_nil _ _) (by decide)
  have h2 : renderedEntries (demoEnv "port: 7890\nmode: rule" [demoClient]) 0 [demoProxy] =
      some [demoEntry] := by decide
  rw [h2] at he
  cases he
  exact hg.trans (by decide)

/-! ## Descriptor formatting -/

theorem foldl_append_init (l : List String) (acc : String) :
    l.foldl (fun r s => r ++ s) acc = acc ++ l.foldl (fun r s => r ++ s) "" := by
  induction l generalizing acc with
  | nil => simp
  | cons a rest ih =>
    rw [List.foldl_cons, ih (acc ++ a), List.foldl_cons, ih ("" ++ a)]
    simp [String.append_assoc]

theorem join_cons_eq (a : String) (l : List String) :
    String.join (a :: l) = a ++ String.join l := by
  simp only [String.join, List.foldl_cons]
  rw [foldl_append_init]
  simp

/-- The value text chosen by the type switch of `formatProxy` is the `%v` text
of the value. -/
theorem formattedValue_eq (v : PVal) :
    (match v with
      | .str v => v
      | .int v => Sprintf "%d" [.int v]
      | .bool v => Sprintf "%t" [.bool v]
      | v => Sprintf "%v" [v]) = fmtV v := by
  have hv : ∀ a : PVal, Sprintf "%v" [a] = fmtV a := fun a => by simp [Sprintf, sprintfAux]
  have hd : ∀ a : PVal, Sprintf "%d" [a] = fmtV a := fun a => by simp [Sprintf, sprintfAux]
  have ht : ∀ a : PVal, Sprintf "%t" [a] = fmtV a := fun a => by simp [Sprintf, sprintfAux]
  cases v with
  | str s => simp [fmtV]
  | int i => exact hd _
  | bool b => exact ht _
  | strs l => exact hv _
  | map m => exact hv _

/-- The range loop of `formatProxy` appends one `, key: value` text for each
visited field other than `name`, in the order of the visit. -/
theorem formatProxy_fold (l : Proxy) (init : String) :
    l.foldl
      (fun result kv =>
        if kv.1 = "name" then result
        else
          let formattedValue :=
            match kv.2 with
            | .str v => v
            | .int v => Sprintf "%d" [.int v]
            | .bool v => Sprintf "%t" [.bool v]
            | v => Sprintf "%v" [v]
          result ++ ", " ++ kv.1 ++ ": " ++ formattedValue) init =
    init ++ String.join
      ((l.filter fun kv => kv.1 ≠ "name").map fun kv => ", " ++ kv.1 ++ ": " ++ fmtV kv.2) := by
  induction l generalizing init with
  | nil => simp [String.join]
  | cons kv rest ih =>
    rw [List.foldl_cons, ih]
    by_cases h : kv.1 = "name"
    · simp [h]
    · simp only [h, if_false, formattedValue_eq, List.filter_cons, ne_eq, not_false_eq_true,
        decide_True, if_true, List.map_cons, join_cons_eq, String.append_assoc]

/-- C10 (as amended). For every descriptor whose name field is a string and
every order in which the range loop visits the fields of the map (an
enumeration of its entries; Go leaves it unspecified), `formatProxy` returns
the text `  - {name: <name>` followed by `, <key>: <value>` for the other
fields in the order of the visit, closed by a brace; the other fields occur
exactly once each and the name field is not repeated; a string value is
rendered verbatim, an integer in decimal, a boolean as `true` or `false`. -/
theorem formatProxy_entry (order : Proxy → Proxy) (proxy : Proxy) (name : String)
    (hname : mapGet proxy "name" = some (.str name))
    (hperm : (order proxy).Perm proxy) :
    formatProxy order proxy =
      some ("  - \x7bname: " ++ name ++
        String.join (((order proxy).filter fun kv => kv.1 ≠ "name").map
          fun kv => ", " ++ kv.1 ++ ": " ++ fmtV kv.2) ++ "\x7d") ∧
    ((order proxy).filter fun kv => kv.1 ≠ "name").Perm
      (proxy.filter fun kv => kv.1 ≠ "name") ∧
    (∀ kv ∈ (order proxy).filter fun kv => kv.1 ≠ "name", kv.1 ≠ "name") ∧
    (∀ s : String, fmtV (.str s) = s) ∧
    (∀ i : Int, fmtV (.int i) = fmtD i) ∧
    fmtV (.bool true) = "true" ∧ fmtV (.bool false) = "false" := by
  refine ⟨?_, hperm.filter _, ?_, fun s => by simp [fmtV], fun i => by simp [fmtV],
    by decide, by decide⟩
  · simp only [formatProxy, hname]
    rw [formatProxy_fold]
  · intro kv hkv
    simpa using (List.mem_filter.1 hkv).2

set_option maxRecDepth 100000 in
theorem formatProxy_entry_witness :
    formatProxy List.reverse
      [("name", .str "n"), ("type", .str "ss"), ("port", .int 443), ("udp", .bool true)] =
      some "  - \x7bname: n, udp: true, port: 443, type: ss\x7d" :=
  (formatProxy_entry List.reverse
    [("name", .str "n"), ("type", .str "ss"), ("port", .int 443), ("udp", .bool true)] "n"
    rfl (List.reverse_perm _)).1.trans (by decide)

/-- C10 (counterexample). The descriptor with the fields name, type, port and
udp is rendered as two different texts by two traversals of the same map: the
fields have no order of their own. -/
theorem formatProxy_order_counterexample :
    formatProxy id
      [("name", .str "n"), ("type", .str "ss"), ("port", .int 443), ("udp", .bool true)] =
      some "  - \x7bname: n, type: ss, port: 443, udp: true\x7d" ∧
    formatProxy List.reverse
      [("name", .str "n"), ("type", .str "ss"), ("port", .int 443), ("udp", .bool true)] =
      some "  - \x7bname: n, udp: true, port: 443, type: ss\x7d" ∧
    formatProxy id
      [("name", .str "n"), ("type", .str "ss"), ("port", .int 443), ("udp", .bool true)] ≠
    formatProxy List.reverse
      [("name", .str "n"), ("type", .str "ss"), ("port", .int 443), ("udp", .bool true)] := by
  decide

/-! ## Reading a map after a write or a delete -/

theorem mapGet_mapSet_eq {α : Type} (m : List (String × α)) (k : String) (v : α) :
    mapGet (mapSet m k v) k = some v := by
  induction m with
  | nil => simp [mapSet, mapGet]
  | cons kv rest ih =>
    obtain ⟨k0, v0⟩ := kv
    by_cases h0 : k0 = k
    · simp [mapSet, mapGet, h0]
    · simp [mapSet, mapGet, h0, ih]

theorem mapGet_mapDelete_ne {α : Type} (m : List (String × α)) (k k' : String)
    (h : k' ≠ k) : mapGet (mapDelete m k') k = mapGet m k := by
  induction m with
  | nil => simp [mapDelete, mapGet]
  | cons kv rest ih =>
    obtain ⟨k0, v0⟩ := kv
    by_cases h0 : k0 = k'
    · subst h0; simpa [mapDelete, mapGet, h] using ih
    · by_cases h1 : k0 = k
      · subst h1; simp [mapDelete, mapGet, h0]
      · simpa [mapDelete, mapGet, h0, h1] using ih

theorem mapGet_mapDelete_eq {α : Type} (m : List (String × α)) (k : String) :
    mapGet (mapDelete m k) k = none := by
  induction m with
  | nil => simp [mapDelete, mapGet]
  | cons kv rest ih =>
    obtain ⟨k0, v0⟩ := kv
    by_cases h0 : k0 = k
    · simpa [mapDelete, h0] using ih
    · simpa [mapDelete, mapGet, h0] using ih

/-! ## Fields that the blocks of a generator leave alone -/

theorem tcpFields_get (proxy : Proxy) (stream : JObj) (k : String) (h : k ≠ "headers") :
    mapGet (tcpFields proxy stream) k = mapGet proxy k := by
  unfold tcpFields
  repeat' (first | split | dsimp only)
  all_goals simp [mapGet_mapSet_ne, Ne.symm h]

theorem wsFields_get (proxy : Proxy) (stream : JObj) (k : String) (h : k ≠ "ws-opts") :
    mapGet (wsFields proxy stream) k = mapGet proxy k := by
  unfold wsFields
  repeat' (first | split | dsimp only)
  all_goals simp [mapGet_mapSet_ne, Ne.symm h]

theorem httpupgradeFields_get (proxy : Proxy) (stream : JObj) (k : String)
    (h : k ≠ "httpupgrade-opts") :
    mapGet (httpupgradeFields proxy stream) k = mapGet proxy k := by
  unfold httpupgradeFields
  repeat' (first | split | dsimp only)
  all_goals simp [mapGet_mapSet_ne, Ne.symm h]

theorem tlsFields_get (proxy : Proxy) (stream : JObj) (k : String)
    (h : k ∉ ["tls", "servername", "alpn", "skip-cert-verify", "fingerprint"]) :
    mapGet (tlsFields proxy stream) k = mapGet proxy k := by
  simp only [List.mem_cons, List.mem_singleton, List.not_mem_nil, or_false, not_or] at h
  obtain ⟨h1, h2, h3, h4, h5⟩ := h
  unfold tlsFields
  repeat' (first | split | dsimp only)
  all_goals simp [mapGet_mapSet_ne, Ne.symm h1, Ne.symm h2, Ne.symm h3, Ne.symm h4, Ne.symm h5]

theorem setNonEmpty_get (proxy : Proxy) (key : String) (v : Option JVal) (k : String)
    (h : key ≠ k) : mapGet (setNonEmpty proxy key v) k = mapGet proxy k := by
  unfold setNonEmpty
  repeat' (first | split | dsimp only)
  all_goals simp [mapGet_mapSet_ne, h]

theorem realityFields_get (proxy : Proxy) (stream : JObj) (client : Client) (k : String)
    (h : k ∉ ["tls", "reality", "servername", "public-key", "short-id", "spiderX", "flow"]) :
    mapGet (realityFields proxy stream client) k = mapGet proxy k := by
  simp only [List.mem_cons, List.mem_singleton, List.not_mem_nil, or_false, not_or] at h
  obtain ⟨h1, h2, h3, h4, h5, h6, h7⟩ := h
  unfold realityFields
  repeat' (first | split | dsimp only)
  all_goals
    simp [mapGet_mapSet_ne, setNonEmpty_get, Ne.symm h1, Ne.symm h2, Ne.symm h3, Ne.symm h4,
      Ne.symm h5, Ne.symm h6, Ne.symm h7]

theorem realityFields_of_not_reality (proxy : Proxy) (stream : JObj) (client : Client)
    (h : asStr (mapGet stream "security") ≠ some "reality") :
    realityFields proxy stream client = proxy := by
  simp [realityFields, h]

theorem tlsFields_of_not_tls (proxy : Proxy) (stream : JObj)
    (h : asStr (mapGet stream "security") ≠ some "tls") :
    tlsFields proxy stream = proxy := by
  simp [tlsFields, h]

/-! ## Shadowsocks descriptors -/

theorem Sprintf_path (s : String) : Sprintf ";path=%s" [.str s] = ";path=" ++ s := by
  apply String.ext; simp [Sprintf, sprintfAux, fmtV, String.data_append]

theorem Sprintf_host (s : String) : Sprintf ";host=%s" [.str s] = ";host=" ++ s := by
  apply String.ext; simp [Sprintf, sprintfAux, fmtV, String.data_append]

theorem Sprintf_servername (s : String) :
    Sprintf ";servername=%s" [.str s] = ";servername=" ++ s := by
  apply String.ext; simp [Sprintf, sprintfAux, fmtV, String.data_append]

theorem Sprintf_mode (s : String) : Sprintf "mode=%s" [.str s] = "mode=" ++ s := by
  apply String.ext; simp [Sprintf, sprintfAux, fmtV, String.data_append]

theorem Sprintf_colon (a b : String) : Sprintf "%s:%s" [.str a, .str b] = a ++ ":" ++ b := by
  apply String.ext; simp [Sprintf, sprintfAux, fmtV, String.data_append]

theorem pluginTransportOpts_eq (network : String) (stream : JObj) (acc : String) :
    pluginTransportOpts network stream acc =
      acc ++ pluginPathSpec network stream ++ pluginHostSpec network stream := by
  unfold pluginTransportOpts pluginPathSpec pluginHostSpec
  by_cases hws : network = "ws"
  · subst hws
    simp only [if_true]
    cases hw : asObj (mapGet stream "wsSettings") with
    | none => simp [mapGet, asStr, asObj]
    | some ws =>
      simp only [Option.getD_some]
      cases hh : asObj (mapGet ws "headers") with
      | none =>
        simp only [Option.getD_none, mapGet, asStr]
        repeat' split
        all_goals simp_all [Sprintf_path]
      | some hd =>
        simp only [Option.getD_some]
        repeat' split
        all_goals simp_all [Sprintf_host, Sprintf_path, String.append_assoc]
  · by_cases hhu : network = "httpupgrade"
    · subst hhu
      simp only [hws, if_false, if_true]
      cases hw : asObj (mapGet stream "httpupgradeSettings") with
      | none => simp [mapGet, asStr]
      | some hs =>
        simp only [Option.getD_some]
        repeat' split
        all_goals simp_all [Sprintf_host, Sprintf_path, String.append_assoc]
    · simp [hws, hhu, mapGet, asStr]

theorem pluginTlsOpts_eq (stream : JObj) (acc : String) :
    pluginTlsOpts stream acc = acc ++ pluginTlsSpec stream := by
  unfold pluginTlsOpts pluginTlsSpec
  by_cases hs : asStr (mapGet stream "security") = some "tls"
  · simp only [hs, if_true]
    cases ht : asObj (mapGet stream "tlsSettings") with
    | none => simp [mapGet, asStr, asBool, asObj]
    | some t =>
      simp only [Option.getD_some]
      rcases Option.eq_none_or_eq_some (asObj (mapGet t "settings")) with hc | ⟨cs, hc⟩
      · simp only [hc, Option.getD_none, mapGet, asBool]
        repeat' split
        all_goals simp_all [Sprintf_servername, String.append_assoc]
      · simp only [hc, Option.getD_some]
        repeat' split
        all_goals simp_all [Sprintf_servername, String.append_assoc]
  · simp [hs]

/-- The Shadowsocks descriptor written out: the seven fields of the literal,
with the password chosen by lines 678-682, and the two plugin fields when the
transport is not `tcp`. -/
theorem genShadowsocks_eq (env : Env) (inbound : Inbound) (stream : JObj) (client : Client)
    (remark : String) :
    genShadowsocks env inbound stream client remark =
      [ ("name", .str (env.genRemark inbound client.Email remark)),
        ("type", .str "ss"),
        ("server", .str inbound.Listen),
        ("port", .int inbound.Port),
        ("cipher", .str ((asStr (mapGet (env.jsonUnmarshal inbound.Settings) "method")).getD "")),
        ("password", .str
          (match
            (if HasPrefix ((asStr (mapGet (env.jsonUnmarshal inbound.Settings) "method")).getD "")
                "2022" = true
              then asStr (mapGet (env.jsonUnmarshal inbound.Settings) "password") else none) with
          | some sp => sp ++ ":" ++ client.Password
          | none => client.Password)),
        ("udp", .bool true) ] ++
      (if (asStr (mapGet stream "network")).getD "" ≠ "tcp" then
        [ ("plugin", .str "v2ray-plugin"),
          ("plugin-opts",
            .str (pluginOptsSpec ((asStr (mapGet stream "network")).getD "") stream)) ]
      else []) := by
  unfold genShadowsocks
  simp only [pluginTransportOpts_eq, pluginTlsOpts_eq, Sprintf_mode, Sprintf_colon]
  by_cases h22 : HasPrefix ((asStr (mapGet (env.jsonUnmarshal inbound.Settings) "method")).getD "")
      "2022" = true
  · rcases Option.eq_none_or_eq_some
        (asStr (mapGet (env.jsonUnmarshal inbound.Settings) "password")) with hp | ⟨sp, hp⟩
    · by_cases hn : (asStr (mapGet stream "network")).getD "" = "tcp" <;>
        simp [h22, hp, hn, mapSet, pluginOptsSpec, String.append_assoc]
    · by_cases hn : (asStr (mapGet stream "network")).getD "" = "tcp" <;>
        simp [h22, hp, hn, mapSet, pluginOptsSpec, String.append_assoc]
  · by_cases hn : (asStr (mapGet stream "network")).getD "" = "tcp" <;>
      simp [h22, hn, mapSet, pluginOptsSpec, String.append_assoc]

/-- C11 (as amended). The password field of the descriptor built by
`genShadowsocks` is the listener secret and the client password joined by a
colon when the cipher method begins with `2022` and the listener's settings
carry a string `password`; it is exactly the client password when the method
begins with `2022` but the settings carry no string password, and for every
other cipher method. -/
theorem genShadowsocks_password (env : Env) (inbound : Inbound) (stream : JObj)
    (client : Client) (remark : String) :
    (∀ sp,
      HasPrefix ((asStr (mapGet (env.jsonUnmarshal inbound.Settings) "method")).getD "") "2022"
        = true →
      asStr (mapGet (env.jsonUnmarshal inbound.Settings) "password") = some sp →
      mapGet (genShadowsocks env inbound stream client remark) "password" =
        some (.str (sp ++ ":" ++ client.Password))) ∧
    (HasPrefix ((asStr (mapGet (env.jsonUnmarshal inbound.Settings) "method")).getD "") "2022"
        = true →
      asStr (mapGet (env.jsonUnmarshal inbound.Settings) "password") = none →
      mapGet (genShadowsocks env inbound stream client remark) "password" =
        some (.str client.Password)) ∧
    (HasPrefix ((asStr (mapGet (env.jsonUnmarshal inbound.Settings) "method")).getD "") "2022"
        = false →
      mapGet (genShadowsocks env inbound stream client remark) "password" =
        some (.str client.Password)) := by
  rw [genShadowsocks_eq]
  refine ⟨?_, ?_, ?_⟩
  · intro sp h22 hp; simp [mapGet, h22, hp]
  · intro h22 hp; simp [mapGet, h22, hp]
  · intro h22; simp [mapGet, h22]

/-- C11 (counterexample). A listener whose method is
`2022-blake3-aes-128-gcm` and whose settings carry no password: the password
field is the client password `cpw` alone, without secret and without colon. -/
theorem genShadowsocks_password_counterexample :
    HasPrefix "2022-blake3-aes-128-gcm" "2022" = true ∧
    (mapGet
      (genShadowsocks
        (sampleEnv fun s =>
          if s = "ss-settings" then [("method", .str "2022-blake3-aes-128-gcm")] else [])
        ssInbound [("network", .str "tcp")] ssClient "")
      "password").map fmtV = some "cpw" := by
  decide

/-- C12. The descriptor built by `genShadowsocks` carries the fields `plugin`
and `plugin-opts` if and only if the transport of the stream settings is not
`tcp`; when present, `plugin` is `v2ray-plugin` and `plugin-opts` is `mode=`
and the transport followed by the path, host and TLS parts in that order; and
in every case the descriptor has none of the fields `network`, `ws-opts`,
`httpupgrade-opts`, `tls`, `servername`, `alpn`. -/
theorem genShadowsocks_plugin (env : Env) (inbound : Inbound) (stream : JObj)
    (client : Client) (remark : String) :
    ((mapGet (genShadowsocks env inbound stream client remark) "plugin").isSome = true ↔
      (asStr (mapGet stream "network")).getD "" ≠ "tcp") ∧
    ((mapGet (genShadowsocks env inbound stream client remark) "plugin-opts").isSome = true ↔
      (asStr (mapGet stream "network")).getD "" ≠ "tcp") ∧
    ((asStr (mapGet stream "network")).getD "" ≠ "tcp" →
      mapGet (genShadowsocks env inbound stream client remark) "plugin" =
        some (.str "v2ray-plugin") ∧
      mapGet (genShadowsocks env inbound stream client remark) "plugin-opts" =
        some (.str
          ("mode=" ++ (asStr (mapGet stream "network")).getD "" ++
            pluginPathSpec ((asStr (mapGet stream "network")).getD "") stream ++
            pluginHostSpec ((asStr (mapGet stream "network")).getD "") stream ++
            pluginTlsSpec stream))) ∧
    (∀ k ∈ ["network", "ws-opts", "httpupgrade-opts", "tls", "servername", "alpn"],
      mapGet (genShadowsocks env inbound stream client remark) k = none) := by
  rw [genShadowsocks_eq]
  by_cases hn : (asStr (mapGet stream "network")).getD "" = "tcp"
  · simp [hn, mapGet]
  · simp [hn, mapGet, pluginOptsSpec]

theorem genShadowsocks_password_witness :
    (mapGet
      (genShadowsocks
        (sampleEnv fun s =>
          if s = "ss-settings" then
            [("method", .str "2022-blake3-aes-128-gcm"), ("password", .str "spw")]
          else [])
        ssInbound [("network", .str "tcp")] ssClient "")
      "password").map fmtV = some "spw:cpw" := by
  rw [(genShadowsocks_password
    (sampleEnv fun s =>
      if s = "ss-settings" then
        [("method", .str "2022-blake3-aes-128-gcm"), ("password", .str "spw")]
      else [])
    ssInbound [("network", .str "tcp")] ssClient "").1 "spw" (by decide) (by rfl)]
  decide

theorem genShadowsocks_plugin_witness :
    (mapGet
      (genShadowsocks (sampleEnv fun _ => []) ssInbound
        [ ("network", .str "ws"),
          ("security", .str "tls"),
          ("wsSettings",
            .obj [("path", .str "/ws"), ("headers", .obj [("Host", .str "example.com")])]),
          ("tlsSettings", .obj [("serverName", .str "example.com")]) ]
        ssClient "")
      "plugin-opts").map fmtV =
      some "mode=ws;path=/ws;host=example.com;tls;servername=example.com" := by
  rw [((genShadowsocks_plugin (sampleEnv fun _ => []) ssInbound
        [ ("network", .str "ws"),
          ("security", .str "tls"),
          ("wsSettings",
            .obj [("path", .str "/ws"), ("headers", .obj [("Host", .str "example.com")])]),
          ("tlsSettings", .obj [("serverName", .str "example.com")]) ]
        ssClient "").2.2.1 (by decide)).2]
  decide

/-! ## Stream-settings normalizer -/

theorem asStr_eq_some {v : Option JVal} {s : String} (h : asStr v = some s) :
    v = some (.str s) := by
  unfold asStr at h
  split at h
  · cases h; rfl
  · cases h

theorem asObj_eq_some {v : Option JVal} {m : JObj} (h : asObj v = some m) :
    v = some (.obj m) := by
  unfold asObj at h
  split at h
  · cases h; rfl
  · cases h

/-- A random pick yields a member of a list of strings when the index source
stays below the length of the list, and the empty string when there is no
non-empty list. -/
theorem pickString_spec (env : Env) (g : Nat) (v : Option JVal)
    (hrand : ∀ k n, 0 < n → env.randomNum k n < n)
    (hstr : ∀ l, asArr v = some l → ∀ x ∈ l, ∃ s, x = JVal.str s) :
    ∃ s g1, pickString env g v = some (s, g1) ∧
      (match asArr v with
        | some (x :: xs) => JVal.str s ∈ x :: xs
        | _ => s = "") := by
  unfold pickString
  rcases Option.eq_none_or_eq_some (asArr v) with hv | ⟨l, hv⟩
  · simp [hv]
  · cases l with
    | nil => simp [hv]
    | cons x xs =>
      have hlt : env.randomNum g (x :: xs).length < (x :: xs).length :=
        hrand g _ (by simp)
      have hmem : (x :: xs)[env.randomNum g (x :: xs).length] ∈ x :: xs :=
        List.getElem_mem hlt
      obtain ⟨s, hs⟩ := hstr (x :: xs) hv _ hmem
      have hget : (x :: xs).get? (env.randomNum g (x :: xs).length) = some (JVal.str s) := by
        rw [List.get?_eq_getElem?, List.getElem?_eq_getElem hlt, hs]
      refine ⟨s, g + 1, ?_, ?_⟩
      · simp only [hv, hget, asStr]
      · simp only [hv]
        rw [← hs]; exact hmem

/-- C16. When the short-id and server-name candidate lists of a Reality
settings document hold only strings and the random index source returns an
index below the length of the list, `realityData` returns a result whose
short-id is a member of the configured short-id list (the empty string when
there is no non-empty list) and whose server name is a member of the
configured server-name list (the empty string when there is no non-empty
list). -/
theorem realityData_picks_configured (env : Env) (g : Nat) (rData : JObj)
    (hrand : ∀ k n, 0 < n → env.randomNum k n < n)
    (hids : ∀ l, asArr (mapGet rData "shortIds") = some l → ∀ x ∈ l, ∃ s, x = JVal.str s)
    (hnames : ∀ l, asArr (mapGet rData "serverNames") = some l →
      ∀ x ∈ l, ∃ s, x = JVal.str s) :
    ∃ r g1 shortId serverName,
      realityData env g rData = some (r, g1) ∧
      mapGet r "short-id" = some (.str shortId) ∧
      mapGet r "serverName" = some (.str serverName) ∧
      (match asArr (mapGet rData "shortIds") with
        | some (x :: xs) => JVal.str shortId ∈ x :: xs
        | _ => shortId = "") ∧
      (match asArr (mapGet rData "serverNames") with
        | some (x :: xs) => JVal.str serverName ∈ x :: xs
        | _ => serverName = "") := by
  obtain ⟨sid, g1, h1, hm1⟩ := pickString_spec env (g + 1) (mapGet rData "shortIds") hrand hids
  obtain ⟨sn, g2, h2, hm2⟩ := pickString_spec env g1 (mapGet rData "serverNames") hrand hnames
  have hr : realityData env g rData =
      some (mapSet (mapSet (mapSet (mapSet (mapSet (mapSet (mapSet ([] : JObj)
        "show" (.bool false))
        "publicKey" (anyGet ((asObj (mapGet rData "settings")).getD []) "publicKey"))
        "fingerprint" (anyGet ((asObj (mapGet rData "settings")).getD []) "fingerprint"))
        "mldsa65Verify" (anyGet ((asObj (mapGet rData "settings")).getD []) "mldsa65Verify"))
        "spiderX" (.str ("/" ++ env.randomSeq g 15)))
        "short-id" (.str sid))
        "serverName" (.str sn), g2) := by
    simp only [realityData, h1, h2]
  refine ⟨_, g2, sid, sn, hr, ?_, ?_, hm1, hm2⟩
  · simp [mapGet_mapSet_ne, mapGet_mapSet_eq]
  · simp [mapGet_mapSet_eq]

theorem realityData_picks_configured_witness :
    ∃ r g1,
      realityData (sampleEnv fun _ => []) 0
        [ ("shortIds", .arr [.str "ab12", .str "cd34"]),
          ("serverNames", .arr [.str "a.example", .str "b.example"]) ] = some (r, g1) ∧
      (mapGet r "short-id").bind (fun v => asStr (some v)) = some "ab12" ∧
      (mapGet r "serverName").bind (fun v => asStr (some v)) = some "a.example" := by
  obtain ⟨r, g1, sid, sn, h, h1, h2, _, _⟩ :=
    realityData_picks_configured (sampleEnv fun _ => []) 0
      [ ("shortIds", .arr [.str "ab12", .str "cd34"]),
        ("serverNames", .arr [.str "a.example", .str "b.example"]) ]
      (by intro k n hn; exact hn)
      (by
        intro l hl x hx
        cases hl
        simp only [List.mem_cons, List.mem_singleton, List.not_mem_nil, or_false] at hx
        rcases hx with rfl | rfl
        · exact ⟨_, rfl⟩
        · exact ⟨_, rfl⟩)
      (by
        intro l hl x hx
        cases hl
        simp only [List.mem_cons, List.mem_singleton, List.not_mem_nil, or_false] at hx
        rcases hx with rfl | rfl
        · exact ⟨_, rfl⟩
        · exact ⟨_, rfl⟩)
  have hr : realityData (sampleEnv fun _ => []) 0
      [ ("shortIds", .arr [.str "ab12", .str "cd34"]),
        ("serverNames", .arr [.str "a.example", .str "b.example"]) ] =
      some
        ([ ("show", .bool false), ("publicKey", .null), ("fingerprint", .null),
           ("mldsa65Verify", .null), ("spiderX", .str "/abcdefghijklmno"),
           ("short-id", .str "ab12"), ("serverName", .str "a.example") ], 3) := by rfl
  rw [hr] at h
  cases h
  exact ⟨_, _, hr, by rfl, by rfl⟩

/-- C20 (behaviour of the code). `streamData` does not tolerate every
document: it panics on a failed type assertion (the value `none`) when the
security mode is `tls` and `tlsSettings` is absent or not an object, when the
security mode is `reality` and `realitySettings` is absent or not an object,
and when the random pick in a Reality short-id list meets an entry that is not
a string. -/
theorem streamData_panics (env : Env) (g : Nat) (stream : String) :
    (asStr (mapGet (env.jsonUnmarshal stream) "security") = some "tls" →
      asObj (mapGet (env.jsonUnmarshal stream) "tlsSettings") = none →
      streamData env g stream = none) ∧
    (asStr (mapGet (env.jsonUnmarshal stream) "security") = some "reality" →
      asObj (mapGet (env.jsonUnmarshal stream) "realitySettings") = none →
      streamData env g stream = none) ∧
    (∀ rData x xs,
      asStr (mapGet (env.jsonUnmarshal stream) "security") = some "reality" →
      asObj (mapGet (env.jsonUnmarshal stream) "realitySettings") = some rData →
      asArr (mapGet rData "shortIds") = some (x :: xs) →
      asStr ((x :: xs).get? (env.randomNum (g + 1) (x :: xs).length)) = none →
      streamData env g stream = none) := by
  refine ⟨?_, ?_, ?_⟩
  · intro hs ht
    simp [streamData, hs, ht]
  · intro hs hr
    simp [streamData, hs, hr]
  · intro rData x xs hs hr hl hx
    have hp : pickString env (g + 1) (mapGet rData "shortIds") = none := by
      simp only [pickString, hl, hx]
    simp [streamData, hs, hr, realityData, hp]

theorem streamData_panics_witness :
    streamData (sampleEnv fun _ => [("network", .str "tcp"), ("security", .str "tls")]) 0 "s"
      = none ∧
    streamData
      (sampleEnv fun _ =>
        [("network", .str "tcp"), ("security", .str "reality"), ("realitySettings", .str "x")])
      0 "s" = none ∧
    streamData
      (sampleEnv fun _ =>
        [ ("network", .str "tcp"), ("security", .str "reality"),
          ("realitySettings", .obj [("shortIds", .arr [.num 1])]) ])
      0 "s" = none :=
  ⟨(streamData_panics
      (sampleEnv fun _ => [("network", .str "tcp"), ("security", .str "tls")]) 0 "s").1
      (by rfl) (by rfl),
   (streamData_panics
      (sampleEnv fun _ =>
        [("network", .str "tcp"), ("security", .str "reality"), ("realitySettings", .str "x")])
      0 "s").2.1 (by rfl) (by rfl),
   (streamData_panics
      (sampleEnv fun _ =>
        [ ("network", .str "tcp"), ("security", .str "reality"),
          ("realitySettings", .obj [("shortIds", .arr [.num 1])]) ])
      0 "s").2.2 [("shortIds", .arr [.num 1])] (.num 1) [] (by rfl) (by rfl) (by rfl) (by rfl)⟩

/-! ## The generators in stages -/

theorem genVmess_stages (env : Env) (inbound : Inbound) (stream : JObj) (client : Client)
    (remark : String) :
    genVmess env inbound stream client remark =
      tlsFields (vmessTransport env inbound stream client remark) stream := rfl

theorem genVless_stages (env : Env) (inbound : Inbound) (stream : JObj) (client : Client)
    (remark : String) :
    genVless env inbound stream client remark =
      realityFields (tlsFields (vlessTransport env inbound stream client remark) stream)
        stream client := rfl

theorem genTrojan_stages (env : Env) (inbound : Inbound) (stream : JObj) (client : Client)
    (remark : String) :
    genTrojan env inbound stream client remark =
      realityFields (tlsFields (trojanTransport env inbound stream client remark) stream)
        stream client := rfl

/-- The transport stage of `genVmess` writes no other field than `network`,
`headers`, `ws-opts` and `httpupgrade-opts`. -/
theorem vmessTransport_get (env : Env) (inbound : Inbound) (stream : JObj) (client : Client)
    (remark : String) (k : String)
    (h : k ∉ ["network", "headers", "ws-opts", "httpupgrade-opts"]) :
    mapGet (vmessTransport env inbound stream client remark) k =
      mapGet
        ([ ("name", .str (env.genRemark inbound client.Email remark)),
           ("type", .str "vmess"),
           ("server", .str inbound.Listen),
           ("port", .int inbound.Port),
           ("uuid", .str client.ID),
           ("alterId", .int 0),
           ("cipher", .str client.Security),
           ("udp", .bool true),
           ("skip-cert-verify", .bool false) ] : Proxy) k := by
  simp only [List.mem_cons, List.mem_singleton, List.not_mem_nil, or_false, not_or] at h
  obtain ⟨h1, h2, h3, h4⟩ := h
  unfold vmessTransport
  dsimp only
  repeat' split
  all_goals
    simp only [tcpFields_get _ _ k h2, wsFields_get _ _ k h3, httpupgradeFields_get _ _ k h4,
      mapGet_mapSet_ne _ _ _ _ (Ne.symm h1)]

/-- The transport stage of `genVless` writes no other field than `network`,
`encryption`, `headers`, `flow`, `ws-opts` and `httpupgrade-opts`. -/
theorem vlessTransport_get (env : Env) (inbound : Inbound) (stream : JObj) (client : Client)
    (remark : String) (k : String)
    (h : k ∉ ["network", "encryption", "headers", "flow", "ws-opts", "httpupgrade-opts"]) :
    mapGet (vlessTransport env inbound stream client remark) k =
      mapGet
        ([ ("name", .str (env.genRemark inbound client.Email remark)),
           ("type", .str "vless"),
           ("server", .str inbound.Listen),
           ("port", .int inbound.Port),
           ("uuid", .str client.ID),
           ("udp", .bool true),
           ("skip-cert-verify", .bool false) ] : Proxy) k := by
  simp only [List.mem_cons, List.mem_singleton, List.not_mem_nil, or_false, not_or] at h
  obtain ⟨h1, h2, h3, h4, h5, h6⟩ := h
  unfold vlessTransport
  dsimp only
  repeat' split
  all_goals
    simp only [tcpFields_get _ _ k h3, wsFields_get _ _ k h5, httpupgradeFields_get _ _ k h6,
      mapGet_mapSet_ne _ _ _ _ (Ne.symm h1), mapGet_mapSet_ne _ _ _ _ (Ne.symm h2),
      mapGet_mapSet_ne _ _ _ _ (Ne.symm h4)]

/-- The transport stage of `genTrojan` writes no other field than `network`,
`headers`, `ws-opts` and `httpupgrade-opts`. -/
theorem trojanTransport_get (env : Env) (inbound : Inbound) (stream : JObj) (client : Client)
    (remark : String) (k : String)
    (h : k ∉ ["network", "headers", "ws-opts", "httpupgrade-opts"]) :
    mapGet (trojanTransport env inbound stream client remark) k =
      mapGet
        ([ ("name", .str (env.genRemark inbound client.Email remark)),
           ("type", .str "trojan"),
           ("server", .str inbound.Listen),
           ("port", .int inbound.Port),
           ("password", .str client.Password),
           ("udp", .bool true),
           ("skip-cert-verify", .bool false) ] : Proxy) k := by
  simp only [List.mem_cons, List.mem_singleton, List.not_mem_nil, or_false, not_or] at h
  obtain ⟨h1, h2, h3, h4⟩ := h
  unfold trojanTransport
  dsimp only
  repeat' split
  all_goals
    simp only [tcpFields_get _ _ k h2, wsFields_get _ _ k h3, httpupgradeFields_get _ _ k h4,
      mapGet_mapSet_ne _ _ _ _ (Ne.symm h1)]

/-! ## The security blocks -/

theorem tlsFields_tls (proxy : Proxy) (stream : JObj)
    (h : asStr (mapGet stream "security") = some "tls") :
    mapGet (tlsFields proxy stream) "tls" = some (.bool true) := by
  unfold tlsFields
  simp only [h, if_true]
  repeat' (first | split | dsimp only)
  all_goals simp [mapGet_mapSet_ne, mapGet_mapSet_eq]

theorem tlsFields_servername (proxy : Proxy) (stream : JObj) (t : JObj) (n : String)
    (h : asStr (mapGet stream "security") = some "tls")
    (ht : asObj (mapGet stream "tlsSettings") = some t)
    (hn : asStr (mapGet t "serverName") = some n) (hne : n ≠ "") :
    mapGet (tlsFields proxy stream) "servername" = some (.str n) := by
  unfold tlsFields
  simp only [h, if_true, ht, hn, hne, ne_eq, not_false_eq_true]
  repeat' (first | split | dsimp only)
  all_goals simp [mapGet_mapSet_ne, mapGet_mapSet_eq]

theorem tlsFields_flat (proxy : Proxy) (stream : JObj) (h : TlsFlat stream) :
    mapGet (tlsFields proxy stream) "skip-cert-verify" = mapGet proxy "skip-cert-verify" ∧
    mapGet (tlsFields proxy stream) "fingerprint" = mapGet proxy "fingerprint" := by
  by_cases hs : asStr (mapGet stream "security") = some "tls"
  · unfold tlsFields
    simp only [hs, if_true]
    rcases Option.eq_none_or_eq_some (asObj (mapGet stream "tlsSettings")) with ht | ⟨t, ht⟩
    · simp [ht, mapGet_mapSet_ne]
    · have hflat := h hs t ht
      simp only [ht, hflat]
      constructor
      · repeat' (first | split | dsimp only)
        all_goals simp [mapGet_mapSet_ne]
      · repeat' (first | split | dsimp only)
        all_goals simp [mapGet_mapSet_ne]
  · rw [tlsFields_of_not_tls _ _ hs]
    exact ⟨rfl, rfl⟩

theorem realityFields_reality (proxy : Proxy) (stream : JObj) (client : Client)
    (h : asStr (mapGet stream "security") = some "reality") :
    mapGet (realityFields proxy stream client) "reality" = some (.bool true) ∧
    mapGet (realityFields proxy stream client) "tls" = some (.bool true) := by
  unfold realityFields
  simp only [h, if_true]
  constructor
  · repeat' (first | split | dsimp only)
    all_goals simp [mapGet_mapSet_ne, mapGet_mapSet_eq, setNonEmpty_get]
  · repeat' (first | split | dsimp only)
    all_goals simp [mapGet_mapSet_ne, mapGet_mapSet_eq, setNonEmpty_get]

theorem setNonEmpty_none (proxy : Proxy) (key : String) (v : Option JVal)
    (h : asStr v = none) : setNonEmpty proxy key v = proxy := by
  simp [setNonEmpty, h]

theorem realityFields_shortId (proxy : Proxy) (stream : JObj) (client : Client)
    (h : NoShortId stream) :
    mapGet (realityFields proxy stream client) "short-id" = mapGet proxy "short-id" := by
  by_cases hs : asStr (mapGet stream "security") = some "reality"
  · unfold realityFields
    simp only [hs, if_true]
    rcases Option.eq_none_or_eq_some (asObj (mapGet stream "realitySettings")) with hr | ⟨r, hr⟩
    · simp only [hr]
      repeat' (first | split | dsimp only)
      all_goals simp [mapGet_mapSet_ne]
    · have hno := h hs r hr
      simp only [hr, setNonEmpty_none _ "short-id" _ hno]
      repeat' (first | split | dsimp only)
      all_goals simp [mapGet_mapSet_ne, setNonEmpty_get]
  · rw [realityFields_of_not_reality _ _ _ hs]

/-! ## The normalized stream settings -/

theorem streamData_eq (env : Env) (g : Nat) (stream : String) :
    streamData env g stream =
      match normalizeSecurity env g (env.jsonUnmarshal stream) with
      | none => none
      | some (streamSettings, g1) => some (stripInternal streamSettings, g1) := rfl

/-- The removal of internal fields touches no other key than `sockopt` and the
settings of the three transports. -/
theorem stripInternal_get (s : JObj) (k : String)
    (h : k ∉ ["sockopt", "tcpSettings", "wsSettings", "httpupgradeSettings"]) :
    mapGet (stripInternal s) k = mapGet s k := by
  simp only [List.mem_cons, List.mem_singleton, List.not_mem_nil, or_false, not_or] at h
  obtain ⟨h1, h2, h3, h4⟩ := h
  unfold stripInternal
  dsimp only
  repeat' split
  all_goals
    simp only [mapGet_mapSet_ne _ _ _ _ (Ne.symm h2), mapGet_mapSet_ne _ _ _ _ (Ne.symm h3),
      mapGet_mapSet_ne _ _ _ _ (Ne.symm h4), mapGet_mapDelete_ne _ _ _ (Ne.symm h1)]

theorem tlsData_settings (tData : JObj) : mapGet (tlsData tData) "settings" = none := by
  unfold tlsData
  dsimp only
  repeat' split
  all_goals simp [mapGet_mapSet_ne, mapGet]

theorem tlsData_serverName (tData : JObj) :
    mapGet (tlsData tData) "serverName" = some (anyGet tData "serverName") := by
  unfold tlsData
  dsimp only
  repeat' split
  all_goals simp [mapGet_mapSet_ne, mapGet_mapSet_eq]

/-- The result of `realityData` has the key `short-id` and not the key
`shortId`. -/
theorem realityData_shortId (env : Env) (g : Nat) (rData r : JObj) (g1 : Nat)
    (h : realityData env g rData = some (r, g1)) : mapGet r "shortId" = none := by
  unfold realityData at h
  dsimp only at h
  split at h
  · cases h
  · split at h
    · cases h
    · cases h
      simp [mapGet_mapSet_ne, mapGet]

/-- What the security dispatch leaves: the security mode as decoded, under
`tls` the flattened TLS settings, under `reality` the result of
`realityData`. -/
theorem normalizeSecurity_spec (env : Env) (g : Nat) (s0 s : JObj) (g1 : Nat)
    (h : normalizeSecurity env g s0 = some (s, g1)) :
    mapGet s "security" = mapGet s0 "security" ∧
    (asStr (mapGet s0 "security") = some "tls" →
      ∃ t, asObj (mapGet s0 "tlsSettings") = some t ∧
        mapGet s "tlsSettings" = some (.obj (tlsData t))) ∧
    (asStr (mapGet s0 "security") = some "reality" →
      ∃ rData r, asObj (mapGet s0 "realitySettings") = some rData ∧
        realityData env g rData = some (r, g1) ∧
        mapGet s "realitySettings" = some (.obj r)) ∧
    (∀ k, k ≠ "tlsSettings" → k ≠ "realitySettings" → mapGet s k = mapGet s0 k) := by
  unfold normalizeSecurity at h
  dsimp only at h
  rcases Option.eq_none_or_eq_some (asStr (mapGet s0 "security")) with hs | ⟨sec, hs⟩
  · simp [hs] at h
    obtain ⟨rfl, rfl⟩ := h
    simp [hs]
  · simp only [hs, Option.getD_some] at h
    by_cases htls : sec = "tls"
    · subst htls
      simp only [if_true] at h
      split at h
      · rename_i t ht
        cases h
        refine ⟨mapGet_mapSet_ne _ _ _ _ (by decide), ?_, ?_, ?_⟩
        · intro _; exact ⟨t, ht, mapGet_mapSet_eq _ _ _⟩
        · intro h2; rw [hs] at h2; exact absurd h2 (by decide)
        · intro k hk _; exact mapGet_mapSet_ne _ _ _ _ (Ne.symm hk)
      · cases h
    · simp only [htls, if_false] at h
      by_cases hre : sec = "reality"
      · subst hre
        simp only [if_true] at h
        split at h
        · rename_i rData hr
          split at h
          · rename_i r g2 hrd
            cases h
            refine ⟨mapGet_mapSet_ne _ _ _ _ (by decide), ?_, ?_, ?_⟩
            · intro h2; rw [hs] at h2; exact absurd h2 (by decide)
            · intro _; exact ⟨rData, r, hr, hrd, mapGet_mapSet_eq _ _ _⟩
            · intro k _ hk; exact mapGet_mapSet_ne _ _ _ _ (Ne.symm hk)
          · cases h
        · cases h
      · simp only [hre, if_false] at h
        cases h
        refine ⟨rfl, ?_, ?_, fun _ _ _ => rfl⟩
        · intro h2; rw [hs] at h2; exact absurd (Option.some.inj h2) htls
        · intro h2; rw [hs] at h2; exact absurd (Option.some.inj h2) hre

/-- The stream settings that `streamData` returns, minus the endpoint list,
have flattened TLS settings and no `shortId`. -/
theorem streamData_normal (env : Env) (g : Nat) (stream : String) (s : JObj) (g1 : Nat)
    (h : streamData env g stream = some (s, g1)) :
    TlsFlat (mapDelete s "externalProxy") ∧ NoShortId (mapDelete s "externalProxy") := by
  rw [streamData_eq] at h
  rcases Option.eq_none_or_eq_some (normalizeSecurity env g (env.jsonUnmarshal stream)) with
    hn | ⟨⟨s1, g2⟩, hn⟩
  · simp [hn] at h
  · simp only [hn, Option.some.injEq, Prod.mk.injEq] at h
    obtain ⟨hs1, _⟩ := h
    subst hs1
    obtain ⟨hsec, htls, hre, _⟩ := normalizeSecurity_spec env g _ s1 g2 hn
    have hk : ∀ k, k ∉ ["sockopt", "tcpSettings", "wsSettings", "httpupgradeSettings"] →
        k ≠ "externalProxy" →
        mapGet (mapDelete (stripInternal s1) "externalProxy") k = mapGet s1 k := by
      intro k hk1 hk2
      rw [mapGet_mapDelete_ne _ _ _ (Ne.symm hk2), stripInternal_get _ _ hk1]
    constructor
    · intro hs t ht
      rw [hk "security" (by decide) (by decide), hsec] at hs
      rw [hk "tlsSettings" (by decide) (by decide)] at ht
      obtain ⟨t0, _, ht0⟩ := htls hs
      rw [ht0] at ht
      simp only [asObj, Option.some.injEq] at ht
      rw [← ht, tlsData_settings]; rfl
    · intro hs r hr
      rw [hk "security" (by decide) (by decide), hsec] at hs
      rw [hk "realitySettings" (by decide) (by decide)] at hr
      obtain ⟨rData, r0, _, hrd, hr0⟩ := hre hs
      rw [hr0] at hr
      simp only [asObj, Option.some.injEq] at hr
      rw [← hr, realityData_shortId env g rData r0 g2 hrd]; rfl

/-! ## The endpoint loop -/

theorem isStr_eq_true {v : Option JVal} {s : String} :
    isStr v s = true ↔ asStr v = some s := by
  unfold isStr asStr
  split <;> simp

theorem forceTls_TlsFlat (s : JObj) (mode : String) (h : TlsFlat s) :
    TlsFlat (forceTls s mode) := by
  unfold forceTls
  by_cases hm : mode = "tls"
  · simp only [hm, if_true]
    split
    · intro _ t ht
      rw [mapGet_mapSet_eq] at ht
      simp only [asObj, Option.some.injEq] at ht
      rw [← ht]; rfl
    · exact h
  · simp only [hm, if_false]
    by_cases hn : mode = "none"
    · simp only [hn, if_true]
      split
      · intro hs
        rw [mapGet_mapDelete_ne _ _ _ (by decide), mapGet_mapSet_eq] at hs
        exact absurd hs (by decide)
      · exact h
    · simp only [hn, if_false]
      exact h

theorem forceTls_NoShortId (s : JObj) (mode : String) (h : NoShortId s) :
    NoShortId (forceTls s mode) := by
  unfold forceTls
  by_cases hm : mode = "tls"
  · simp only [hm, if_true]
    split
    · intro hs
      rw [mapGet_mapSet_ne _ _ _ _ (by decide), mapGet_mapSet_eq] at hs
      exact absurd hs (by decide)
    · exact h
  · simp only [hm, if_false]
    by_cases hn : mode = "none"
    · simp only [hn, if_true]
      split
      · intro hs
        rw [mapGet_mapDelete_ne _ _ _ (by decide), mapGet_mapSet_eq] at hs
        exact absurd hs (by decide)
      · exact h
    · simp only [hn, if_false]
      exact h

/-- One iteration of the endpoint loop, read backwards: the endpoint is an
object with a string `dest`, a number `port` and a string `forceTls`; the
listener takes address and port of the endpoint, the shared stream map takes
the forced mode, and the descriptor of the protocol switch, when there is one,
is appended. -/
theorem endpointStep_inv (env : Env) (client : Client) (st st1 : EndpointState) (ep : JVal)
    (h : endpointStep env client st ep = some st1) :
    ∃ ext dest port mode,
      ep = .obj ext ∧
      asStr (mapGet ext "dest") = some dest ∧
      asNum (mapGet ext "port") = some port ∧
      asStr (mapGet ext "forceTls") = some mode ∧
      st1.inbound = { st.inbound with Listen := dest, Port := intOfFloat64 port } ∧
      st1.stream = forceTls st.stream mode ∧
      ((genProxy env st1.inbound st1.stream client ext = some none ∧
          st1.proxies = st.proxies) ∨
       ∃ p, genProxy env st1.inbound st1.stream client ext = some (some p) ∧
          st1.proxies = st.proxies ++ [p]) := by
  unfold endpointStep at h
  rcases Option.eq_none_or_eq_some (asObj (some ep)) with he | ⟨ext, he⟩
  · simp [he] at h
  · simp only [he] at h
    rcases Option.eq_none_or_eq_some (asStr (mapGet ext "dest")) with hd | ⟨dest, hd⟩
    · simp [hd] at h
    · simp only [hd] at h
      rcases Option.eq_none_or_eq_some (asNum (mapGet ext "port")) with hp | ⟨port, hp⟩
      · simp [hp] at h
      · simp only [hp] at h
        rcases Option.eq_none_or_eq_some (asStr (mapGet ext "forceTls")) with hm | ⟨mode, hm⟩
        · simp [hm] at h
        · simp only [hm] at h
          have hep : ep = .obj ext := Option.some.inj (asObj_eq_some he)
          rcases hg : genProxy env { st.inbound with Listen := dest, Port := intOfFloat64 port }
              (forceTls st.stream mode) client ext with _ | (_ | p)
          · simp [hg] at h
          · simp only [hg, Option.some.injEq] at h
            subst h
            exact ⟨ext, dest, port, mode, hep, hd, hp, hm, rfl, rfl, Or.inl ⟨hg, rfl⟩⟩
          · simp only [hg, Option.some.injEq] at h
            subst h
            exact ⟨ext, dest, port, mode, hep, hd, hp, hm, rfl, rfl, Or.inr ⟨p, hg, rfl⟩⟩

/-- An invariant of the stream map that `forceTls` keeps, and a property of
the descriptors that the protocol switch yields under it, hold along the
endpoint loop. -/
theorem endpointLoop_inv (env : Env) (client : Client) (I : JObj → Prop) (Q : Proxy → Prop)
    (proto : String)
    (hI : ∀ s mode, I s → I (forceTls s mode))
    (hQ : ∀ inb s ext p, inb.Protocol = proto → I s →
      genProxy env inb s client ext = some (some p) → Q p)
    (eps : List JVal) (st st1 : EndpointState)
    (h : endpointLoop env client eps st = some st1)
    (hst : I st.stream) (hproto : st.inbound.Protocol = proto)
    (hps : ∀ p ∈ st.proxies, Q p) : ∀ p ∈ st1.proxies, Q p := by
  induction eps generalizing st with
  | nil => simp [endpointLoop] at h; subst h; exact hps
  | cons ep rest ih =>
    simp only [endpointLoop] at h
    rcases Option.eq_none_or_eq_some (endpointStep env client st ep) with hs | ⟨st2, hs⟩
    · simp [hs] at h
    · simp only [hs] at h
      obtain ⟨ext, dest, port, mode, _, _, _, _, hinb, hstream, hgen⟩ :=
        endpointStep_inv env client st st2 ep hs
      have hI2 : I st2.stream := by rw [hstream]; exact hI _ _ hst
      have hp2 : st2.inbound.Protocol = proto := by rw [hinb]; exact hproto
      refine ih st2 h hI2 hp2 ?_
      rcases hgen with ⟨_, hpr⟩ | ⟨p, hg, hpr⟩
      · rw [hpr]; exact hps
      · rw [hpr]
        intro q hq
        rcases List.mem_append.1 hq with hq | hq
        · exact hps q hq
        · rw [List.mem_singleton.1 hq]
          exact hQ _ _ _ _ hp2 hI2 hg

/-- The same along `getProxies`, for an invariant that holds of the stream
settings returned by `streamData` once the endpoint list is removed. -/
theorem getProxies_inv (env : Env) (g : Nat) (inbound : Inbound) (client : Client)
    (host : String) (I : JObj → Prop) (Q : Proxy → Prop)
    (hI0 : ∀ s g1, streamData env g inbound.StreamSettings = some (s, g1) →
      I (mapDelete s "externalProxy"))
    (hI : ∀ s mode, I s → I (forceTls s mode))
    (hQ : ∀ inb s ext p, inb.Protocol = inbound.Protocol → I s →
      genProxy env inb s client ext = some (some p) → Q p)
    (r : Inbound × List Proxy × Nat)
    (h : getProxies env g inbound client host = some r) : ∀ p ∈ r.2.1, Q p := by
  unfold getProxies at h
  rcases Option.eq_none_or_eq_some (streamData env g inbound.StreamSettings) with
    hs | ⟨⟨s, g1⟩, hs⟩
  · simp [hs] at h
  · simp only [hs] at h
    split at h
    · cases h
    · rename_i st hl
      cases h
      exact endpointLoop_inv env client I Q inbound.Protocol hI hQ _ _ st hl
        (hI0 s g1 hs) rfl (by simp)

/-! ## The protocol switch -/

/-- A descriptor of the protocol switch is the descriptor of one of the four
generators, built with the string remark of the endpoint. -/
theorem genProxy_cases (env : Env) (inb : Inbound) (s : JObj) (client : Client)
    (ext : JObj) (p : Proxy) (h : genProxy env inb s client ext = some (some p)) :
    ∃ remark, asStr (mapGet ext "remark") = some remark ∧
      ((inb.Protocol = "vmess" ∧ p = genVmess env inb s client remark) ∨
       (inb.Protocol = "vless" ∧ p = genVless env inb s client remark) ∨
       (inb.Protocol = "trojan" ∧ p = genTrojan env inb s client remark) ∨
       (inb.Protocol = "shadowsocks" ∧ p = genShadowsocks env inb s client remark)) := by
  unfold genProxy at h
  rcases Option.eq_none_or_eq_some (asStr (mapGet ext "remark")) with hr | ⟨remark, hr⟩
  · simp only [hr, Option.map_none'] at h
    repeat' split at h
    all_goals simp at h
  · refine ⟨remark, hr, ?_⟩
    simp only [hr, Option.map_some'] at h
    by_cases h1 : inb.Protocol = "vmess"
    · rw [if_pos h1] at h
      exact Or.inl ⟨h1, (Option.some.inj (Option.some.inj h)).symm⟩
    · rw [if_neg h1] at h
      by_cases h2 : inb.Protocol = "vless"
      · rw [if_pos h2] at h
        exact Or.inr (Or.inl ⟨h2, (Option.some.inj (Option.some.inj h)).symm⟩)
      · rw [if_neg h2] at h
        by_cases h3 : inb.Protocol = "trojan"
        · rw [if_pos h3] at h
          exact Or.inr (Or.inr (Or.inl ⟨h3, (Option.some.inj (Option.some.inj h)).symm⟩))
        · rw [if_neg h3] at h
          by_cases h4 : inb.Protocol = "shadowsocks"
          · rw [if_pos h4] at h
            exact Or.inr (Or.inr (Or.inr ⟨h4, (Option.some.inj (Option.some.inj h)).symm⟩))
          · rw [if_neg h4] at h
            cases h

/-- For a supported protocol and an endpoint with a string remark the protocol
switch yields a descriptor. -/
theorem genProxy_supported (env : Env) (inb : Inbound) (s : JObj) (client : Client)
    (ext : JObj) (remark : String)
    (hproto : inb.Protocol ∈ ["vmess", "vless", "trojan", "shadowsocks"])
    (hr : asStr (mapGet ext "remark") = some remark) :
    ∃ p, genProxy env inb s client ext = some (some p) := by
  simp only [List.mem_cons, List.mem_singleton, List.not_mem_nil, or_false] at hproto
  unfold genProxy
  rcases hproto with h | h | h | h <;> simp [h, hr]

/-- Every generator puts the listener's address and port under `server` and
`port`. -/
theorem genProxy_server_port (env : Env) (inb : Inbound) (s : JObj) (client : Client)
    (ext : JObj) (p : Proxy) (h : genProxy env inb s client ext = some (some p)) :
    mapGet p "server" = some (.str inb.Listen) ∧ mapGet p "port" = some (.int inb.Port) := by
  obtain ⟨remark, _, hc⟩ := genProxy_cases env inb s client ext p h
  rcases hc with ⟨_, rfl⟩ | ⟨_, rfl⟩ | ⟨_, rfl⟩ | ⟨_, rfl⟩
  · rw [genVmess_stages, tlsFields_get _ _ _ (by decide), tlsFields_get _ _ _ (by decide),
      vmessTransport_get _ _ _ _ _ _ (by decide), vmessTransport_get _ _ _ _ _ _ (by decide)]
    simp [mapGet]
  · rw [genVless_stages, realityFields_get _ _ _ _ (by decide),
      realityFields_get _ _ _ _ (by decide), tlsFields_get _ _ _ (by decide),
      tlsFields_get _ _ _ (by decide), vlessTransport_get _ _ _ _ _ _ (by decide),
      vlessTransport_get _ _ _ _ _ _ (by decide)]
    simp [mapGet]
  · rw [genTrojan_stages, realityFields_get _ _ _ _ (by decide),
      realityFields_get _ _ _ _ (by decide), tlsFields_get _ _ _ (by decide),
      tlsFields_get _ _ _ (by decide), trojanTransport_get _ _ _ _ _ _ (by decide),
      trojanTransport_get _ _ _ _ _ _ (by decide)]
    simp [mapGet]
  · rw [genShadowsocks_eq]
    by_cases hn : (asStr (mapGet s "network")).getD "" = "tcp" <;> simp [hn, mapGet]

/-- Under flattened TLS settings the descriptors of the three generators with
a TLS block keep the skip-verify flag of their literal, `false`, and get no
fingerprint. -/
theorem genProxy_flat (env : Env) (inb : Inbound) (s : JObj) (client : Client)
    (ext : JObj) (p : Proxy)
    (hproto : inb.Protocol ∈ ["vmess", "vless", "trojan"]) (hs : TlsFlat s)
    (h : genProxy env inb s client ext = some (some p)) :
    mapGet p "skip-cert-verify" = some (.bool false) ∧ mapGet p "fingerprint" = none := by
  obtain ⟨remark, _, hc⟩ := genProxy_cases env inb s client ext p h
  rcases hc with ⟨_, rfl⟩ | ⟨_, rfl⟩ | ⟨_, rfl⟩ | ⟨h4, _⟩
  · rw [genVmess_stages, (tlsFields_flat _ _ hs).1, (tlsFields_flat _ _ hs).2,
      vmessTransport_get _ _ _ _ _ _ (by decide), vmessTransport_get _ _ _ _ _ _ (by decide)]
    simp [mapGet]
  · rw [genVless_stages, realityFields_get _ _ _ _ (by decide),
      realityFields_get _ _ _ _ (by decide), (tlsFields_flat _ _ hs).1,
      (tlsFields_flat _ _ hs).2, vlessTransport_get _ _ _ _ _ _ (by decide),
      vlessTransport_get _ _ _ _ _ _ (by decide)]
    simp [mapGet]
  · rw [genTrojan_stages, realityFields_get _ _ _ _ (by decide),
      realityFields_get _ _ _ _ (by decide), (tlsFields_flat _ _ hs).1,
      (tlsFields_flat _ _ hs).2, trojanTransport_get _ _ _ _ _ _ (by decide),
      trojanTransport_get _ _ _ _ _ _ (by decide)]
    simp [mapGet]
  · rw [h4] at hproto
    exact absurd hproto (by decide)

/-- Under Reality settings without `shortId` no generator sets `short-id`. -/
theorem genProxy_noShortId (env : Env) (inb : Inbound) (s : JObj) (client : Client)
    (ext : JObj) (p : Proxy) (hs : NoShortId s)
    (h : genProxy env inb s client ext = some (some p)) :
    mapGet p "short-id" = none := by
  obtain ⟨remark, _, hc⟩ := genProxy_cases env inb s client ext p h
  rcases hc with ⟨_, rfl⟩ | ⟨_, rfl⟩ | ⟨_, rfl⟩ | ⟨_, rfl⟩
  · rw [genVmess_stages, tlsFields_get _ _ _ (by decide),
      vmessTransport_get _ _ _ _ _ _ (by decide)]
    simp [mapGet]
  · rw [genVless_stages, realityFields_shortId _ _ _ hs, tlsFields_get _ _ _ (by decide),
      vlessTransport_get _ _ _ _ _ _ (by decide)]
    simp [mapGet]
  · rw [genTrojan_stages, realityFields_shortId _ _ _ hs, tlsFields_get _ _ _ (by decide),
      trojanTransport_get _ _ _ _ _ _ (by decide)]
    simp [mapGet]
  · rw [genShadowsocks_eq]
    by_cases hn : (asStr (mapGet s "network")).getD "" = "tcp" <;> simp [hn, mapGet]

/-! ## Descriptors of `getProxies` -/

/-- C14 (behaviour of the code). For every vmess, vless or trojan listener,
every descriptor that `getProxies` returns has `skip-cert-verify = false` and
no `fingerprint` field, whatever the TLS client-tunable settings carry:
`streamData` flattens these settings, and the generators look for them in a
nested `settings` object that is no longer there. -/
theorem tls_client_settings_ignored (env : Env) (g : Nat) (inbound : Inbound)
    (client : Client) (host : String) (r : Inbound × List Proxy × Nat)
    (hproto : inbound.Protocol ∈ ["vmess", "vless", "trojan"])
    (h : getProxies env g inbound client host = some r) :
    ∀ p ∈ r.2.1,
      mapGet p "skip-cert-verify" = some (.bool false) ∧ mapGet p "fingerprint" = none :=
  getProxies_inv env g inbound client host TlsFlat
    (fun p => mapGet p "skip-cert-verify" = some (.bool false) ∧ mapGet p "fingerprint" = none)
    (fun s g1 hs => (streamData_normal env g _ s g1 hs).1)
    forceTls_TlsFlat
    (fun inb s ext p hp hs hg => genProxy_flat env inb s client ext p (by rw [hp]; exact hproto)
      hs hg)
    r h

theorem tls_client_settings_ignored_witness :
    asBool (mapGet [("allowInsecure", JVal.bool true), ("fingerprint", .str "chrome")]
      "allowInsecure") = some true ∧
    ∃ r, getProxies (streamEnv tlsOverrideStream) 0 (sampleInbound "vless") demoClient
        "h.example" = some r ∧
      r.2.1.length = 1 ∧
      ∀ p ∈ r.2.1,
        mapGet p "skip-cert-verify" = some (.bool false) ∧ mapGet p "fingerprint" = none := by
  have hr : getProxies (streamEnv tlsOverrideStream) 0 (sampleInbound "vless") demoClient
      "h.example" =
      some ({ sampleInbound "vless" with Listen := "h.example" },
        [[ ("name", .str "in-a@b"), ("type", .str "vless"), ("server", .str "h.example"),
           ("port", .int 443), ("uuid", .str "u1"), ("udp", .bool true),
           ("skip-cert-verify", .bool false), ("network", .str "tcp"), ("tls", .bool true),
           ("servername", .str "example.com") ]], 0) := by rfl
  exact ⟨by rfl, _, hr, rfl,
    tls_client_settings_ignored (streamEnv tlsOverrideStream) 0 (sampleInbound "vless")
      demoClient "h.example" _ (by decide) hr⟩

/-- C15 (behaviour of the code). No descriptor that `getProxies` returns has a
`short-id` field, whatever the configured short-id candidates: `realityData`
stores the picked short-id under the key `short-id`, and the generators read
the key `shortId`. -/
theorem reality_short_id_never_emitted (env : Env) (g : Nat) (inbound : Inbound)
    (client : Client) (host : String) (r : Inbound × List Proxy × Nat)
    (h : getProxies env g inbound client host = some r) :
    ∀ p ∈ r.2.1, mapGet p "short-id" = none :=
  getProxies_inv env g inbound client host NoShortId (fun p => mapGet p "short-id" = none)
    (fun s g1 hs => (streamData_normal env g _ s g1 hs).2)
    forceTls_NoShortId
    (fun inb s ext p _ hs hg => genProxy_noShortId env inb s client ext p hs hg)
    r h

theorem reality_short_id_never_emitted_witness :
    ∃ r, getProxies (streamEnv realityStream) 0 (sampleInbound "vless") demoClient
        "h.example" = some r ∧
      r.2.1.length = 1 ∧
      (∀ p ∈ r.2.1, mapGet p "reality" = some (.bool true)) ∧
      ∀ p ∈ r.2.1, mapGet p "short-id" = none := by
  have hr : getProxies (streamEnv realityStream) 0 (sampleInbound "vless") demoClient
      "h.example" =
      some ({ sampleInbound "vless" with Listen := "h.example" },
        [[ ("name", .str "in-a@b"), ("type", .str "vless"), ("server", .str "h.example"),
           ("port", .int 443), ("uuid", .str "u1"), ("udp", .bool true),
           ("skip-cert-verify", .bool false), ("network", .str "tcp"), ("tls", .bool true),
           ("reality", .bool true), ("servername", .str "a.example"),
           ("public-key", .str "PK"), ("spiderX", .str "/abcdefghijklmno") ]], 3) := by rfl
  refine ⟨_, hr, rfl, ?_,
    reality_short_id_never_emitted (streamEnv realityStream) 0 (sampleInbound "vless")
      demoClient "h.example" _ hr⟩
  intro p hp
  simp only [List.mem_singleton] at hp
  subst hp
  rfl

/-! ## Endpoints, forward -/

theorem endpointStep_eq (env : Env) (client : Client) (st : EndpointState) (ext : JObj)
    (dest : String) (port : Int) (mode : String) (p : Proxy)
    (hd : asStr (mapGet ext "dest") = some dest)
    (hp : asNum (mapGet ext "port") = some port)
    (hm : asStr (mapGet ext "forceTls") = some mode)
    (hg : genProxy env { st.inbound with Listen := dest, Port := intOfFloat64 port }
      (forceTls st.stream mode) client ext = some (some p)) :
    endpointStep env client st (.obj ext) =
      some { inbound := { st.inbound with Listen := dest, Port := intOfFloat64 port }
             stream := forceTls st.stream mode
             proxies := st.proxies ++ [p] } := by
  simp only [endpointStep, asObj, hd, hp, hm, hg]

theorem genProxy_remark_only (env : Env) (inb : Inbound) (s : JObj) (client : Client)
    (ext ext' : JObj) (h : asStr (mapGet ext "remark") = asStr (mapGet ext' "remark")) :
    genProxy env inb s client ext = genProxy env inb s client ext' := by
  unfold genProxy
  rw [h]

/-- Without a non-empty endpoint list `getProxies` runs the protocol switch
once, on the endpoint made of the request host, the listener's port converted
to `float64`, the mode `same` and the empty remark. -/
theorem getProxies_default (env : Env) (g : Nat) (inbound : Inbound) (client : Client)
    (host : String) (stream : JObj) (g1 : Nat) (p : Proxy)
    (hs : streamData env g inbound.StreamSettings = some (stream, g1))
    (hext : ∀ ep eps, asArr (mapGet stream "externalProxy") ≠ some (ep :: eps))
    (hg : genProxy env
      { inbound with Listen := host, Port := intOfFloat64 (float64OfInt inbound.Port) }
      (mapDelete stream "externalProxy") client [("remark", .str "")] = some (some p)) :
    getProxies env g inbound client host =
      some ({ inbound with Listen := host, Port := intOfFloat64 (float64OfInt inbound.Port) },
        [p], g1) := by
  have hdef : (match asArr (mapGet stream "externalProxy") with
      | some (ep :: eps) => ep :: eps
      | _ =>
        [ JVal.obj
            [ ("forceTls", .str "same"),
              ("dest", .str host),
              ("port", .num (float64OfInt inbound.Port)),
              ("remark", .str "") ] ]) =
      [ JVal.obj
          [ ("forceTls", .str "same"),
            ("dest", .str host),
            ("port", .num (float64OfInt inbound.Port)),
            ("remark", .str "") ] ] := by
    split
    · rename_i ep eps he
      exact absurd he (hext ep eps)
    · rfl
  have hstep := endpointStep_eq env client
    { inbound := inbound, stream := mapDelete stream "externalProxy", proxies := [] }
    [ ("forceTls", .str "same"), ("dest", .str host),
      ("port", .num (float64OfInt inbound.Port)), ("remark", .str "") ]
    host (float64OfInt inbound.Port) "same" p (by rfl) (by rfl) (by rfl)
    (by
      rw [genProxy_remark_only env _ _ client _ [("remark", .str "")] (by rfl)]
      exact hg)
  simp only [getProxies, hs, hdef, endpointLoop, hstep]
  rfl

/-- C17 (as amended). For a listener of a supported protocol whose normalized
settings carry no external-endpoint list or an empty one, and for every
request hostname, `getProxies` returns exactly one descriptor, built by the
generator of the protocol on the normalized settings without TLS override and
with the empty remark; its server field is the request hostname, and its port
field is the listener's own port after the conversion to `float64` and back
that the implicit endpoint goes through, which is the listener's own port
whenever that port is at most 2^53 in magnitude. -/
theorem getProxies_default_endpoint (env : Env) (g : Nat) (inbound : Inbound)
    (client : Client) (host : String) (stream : JObj) (g1 : Nat)
    (hproto : inbound.Protocol ∈ ["vmess", "vless", "trojan", "shadowsocks"])
    (hs : streamData env g inbound.StreamSettings = some (stream, g1))
    (hext : ∀ ep eps, asArr (mapGet stream "externalProxy") ≠ some (ep :: eps)) :
    ∃ p,
      getProxies env g inbound client host =
        some ({ inbound with
                  Listen := host, Port := intOfFloat64 (float64OfInt inbound.Port) },
          [p], g1) ∧
      genProxy env
        { inbound with Listen := host, Port := intOfFloat64 (float64OfInt inbound.Port) }
        (mapDelete stream "externalProxy") client [("remark", .str "")] = some (some p) ∧
      mapGet p "server" = some (.str host) ∧
      mapGet p "port" = some (.int (intOfFloat64 (float64OfInt inbound.Port))) ∧
      (inbound.Port.natAbs ≤ 9007199254740992 →
        mapGet p "port" = some (.int inbound.Port)) := by
  obtain ⟨p, hg⟩ := genProxy_supported env
    { inbound with Listen := host, Port := intOfFloat64 (float64OfInt inbound.Port) }
    (mapDelete stream "externalProxy") client [("remark", .str "")] "" hproto (by rfl)
  have hsp := genProxy_server_port env _ _ client _ p hg
  refine ⟨p, getProxies_default env g inbound client host stream g1 p hs hext hg, hg,
    hsp.1, hsp.2, ?_⟩
  intro hsmall
  have h := hsp.2
  rw [show ({ inbound with
      Listen := host, Port := intOfFloat64 (float64OfInt inbound.Port) } : Inbound).Port =
      intOfFloat64 (float64OfInt inbound.Port) from rfl,
    intOfFloat64_float64OfInt_small _ hsmall] at h
  exact h

theorem getProxies_default_endpoint_witness :
    ∃ p,
      getProxies (demoEnv "" []) 0 demoInbound demoClient "h.example" =
        some ({ demoInbound with Listen := "h.example" }, [p], 0) ∧
      mapGet p "server" = some (.str "h.example") ∧
      mapGet p "port" = some (.int 443) := by
  obtain ⟨p, h1, _, h3, _, h5⟩ := getProxies_default_endpoint (demoEnv "" []) 0 demoInbound
    demoClient "h.example"
    [ ("network", .str "ws"),
      ("security", .str "tls"),
      ("wsSettings",
        .obj [("path", .str "/ws"), ("headers", .obj [("Host", .str "example.com")])]),
      ("tlsSettings", .obj [("serverName", .str "example.com"), ("alpn", .null)]) ]
    0 (by decide) (by rfl)
    (by intro ep eps h; cases h)
  exact ⟨p, h1, h3, h5 (by decide)⟩

set_option maxRecDepth 100000 in
/-- C17 (counterexample). The sample listener listens on `0.0.0.0`; for the
request host `h.example` the server field of its descriptor is `h.example`,
not the listener's own address. And with the port 2^53 + 1 the port field of
the descriptor is 2^53: the implicit endpoint carries the port as a `float64`,
which has no value 2^53 + 1. -/
theorem getProxies_default_endpoint_counterexample :
    demoInbound.Listen = "0.0.0.0" ∧
    (getProxies (demoEnv "" []) 0 demoInbound demoClient "h.example").map
      (fun r => r.2.1.map fun p => (mapGet p "server").map fmtV) =
      some [some "h.example"] ∧
    (getProxies (demoEnv "" []) 0 { demoInbound with Port := 9007199254740993 } demoClient
        "h.example").map
      (fun r => r.2.1.map fun p => (mapGet p "port").map fmtV) =
      some [some "9007199254740992"] := by
  decide

/-! ## A VLESS listener over WebSocket and TLS -/

theorem stripInternal_ws (s : JObj) (h : asStr (mapGet s "network") = some "ws") :
    mapGet (stripInternal s) "wsSettings" =
      some (.obj (removeAcceptProxy (mapGet s "wsSettings"))) := by
  unfold stripInternal
  simp only [mapGet_mapDelete_ne s "network" "sockopt" (by decide),
    mapGet_mapDelete_ne s "wsSettings" "sockopt" (by decide), h, Option.getD_some]
  simp [mapGet_mapSet_eq]

theorem wsFields_ws_opts (proxy : Proxy) (stream ws hd : JObj) (path host : String)
    (hws : asObj (mapGet stream "wsSettings") = some ws)
    (hpath : asStr (mapGet ws "path") = some path) (hpne : path ≠ "")
    (hhd : asObj (mapGet ws "headers") = some hd)
    (hH : asStr (mapGet hd "Host") = some host) (hHne : host ≠ "") :
    mapGet (wsFields proxy stream) "ws-opts" =
      some (.map [("path", .str path), ("headers", .map [("Host", .str host)])]) := by
  unfold wsFields
  simp only [hws, hpath, hpne, hhd, hH, hHne, ne_eq, not_false_eq_true, if_true,
    mapGet_mapSet_eq]
  simp [mapGet_mapSet_eq, mapSet]

theorem vlessTransport_network (env : Env) (inbound : Inbound) (stream : JObj)
    (client : Client) (remark : String) :
    mapGet (vlessTransport env inbound stream client remark) "network" =
      some (.str ((asStr (mapGet stream "network")).getD "")) := by
  unfold vlessTransport
  dsimp only
  repeat' split
  all_goals
    simp only [tcpFields_get _ _ "network" (by decide), wsFields_get _ _ "network" (by decide),
      httpupgradeFields_get _ _ "network" (by decide),
      mapGet_mapSet_ne _ "network" "encryption" _ (by decide),
      mapGet_mapSet_ne _ "network" "flow" _ (by decide), mapGet_mapSet_eq]

theorem vlessTransport_ws_opts (env : Env) (inbound : Inbound) (stream : JObj)
    (client : Client) (remark : String) (ws hd : JObj) (path host : String)
    (hnet : asStr (mapGet stream "network") = some "ws")
    (hws : asObj (mapGet stream "wsSettings") = some ws)
    (hpath : asStr (mapGet ws "path") = some path) (hpne : path ≠ "")
    (hhd : asObj (mapGet ws "headers") = some hd)
    (hH : asStr (mapGet hd "Host") = some host) (hHne : host ≠ "") :
    mapGet (vlessTransport env inbound stream client remark) "ws-opts" =
      some (.map [("path", .str path), ("headers", .map [("Host", .str host)])]) := by
  unfold vlessTransport
  simp only [hnet, Option.getD_some]
  rw [if_pos trivial]
  exact wsFields_ws_opts _ stream ws hd path host hws hpath hpne hhd hH hHne

/-- C13. For a VLESS listener whose transport is WebSocket with a non-empty
path and a non-empty Host header, whose security is TLS with a non-empty
server name, and which has no explicit external endpoints, `getProxies`
returns a single descriptor with `network = ws`, `ws-opts` made of that path
and of `headers` with that Host, `tls = true`, `servername` that server name
and `uuid` the client's UUID. -/
theorem vless_ws_tls_descriptor (env : Env) (g : Nat) (inbound : Inbound) (client : Client)
    (host : String) (ws hd t : JObj) (path hostHeader serverName : String)
    (hproto : inbound.Protocol = "vless")
    (hnet : asStr (mapGet (env.jsonUnmarshal inbound.StreamSettings) "network") = some "ws")
    (hsec : asStr (mapGet (env.jsonUnmarshal inbound.StreamSettings) "security") = some "tls")
    (hws : asObj (mapGet (env.jsonUnmarshal inbound.StreamSettings) "wsSettings") = some ws)
    (hpath : asStr (mapGet ws "path") = some path) (hpne : path ≠ "")
    (hhd : asObj (mapGet ws "headers") = some hd)
    (hH : asStr (mapGet hd "Host") = some hostHeader) (hHne : hostHeader ≠ "")
    (ht : asObj (mapGet (env.jsonUnmarshal inbound.StreamSettings) "tlsSettings") = some t)
    (hsn : asStr (mapGet t "serverName") = some serverName) (hsne : serverName ≠ "")
    (hext : ∀ ep eps,
      asArr (mapGet (env.jsonUnmarshal inbound.StreamSettings) "externalProxy") ≠
        some (ep :: eps)) :
    ∃ p g1,
      getProxies env g inbound client host =
        some ({ inbound with
                  Listen := host, Port := intOfFloat64 (float64OfInt inbound.Port) },
          [p], g1) ∧
      mapGet p "network" = some (.str "ws") ∧
      mapGet p "ws-opts" =
        some (.map [("path", .str path), ("headers", .map [("Host", .str hostHeader)])]) ∧
      mapGet p "tls" = some (.bool true) ∧
      mapGet p "servername" = some (.str serverName) ∧
      mapGet p "uuid" = some (.str client.ID) := by
  -- the normalized stream settings
  have hn : normalizeSecurity env g (env.jsonUnmarshal inbound.StreamSettings) =
      some (mapSet (env.jsonUnmarshal inbound.StreamSettings) "tlsSettings"
        (.obj (tlsData t)), g) := by
    simp [normalizeSecurity, hsec, ht]
  have hs : streamData env g inbound.StreamSettings =
      some (stripInternal (mapSet (env.jsonUnmarshal inbound.StreamSettings) "tlsSettings"
        (.obj (tlsData t))), g) := by
    rw [streamData_eq, hn]
  generalize hs1 : mapSet (env.jsonUnmarshal inbound.StreamSettings) "tlsSettings"
    (JVal.obj (tlsData t)) = s1 at hs
  have hk1 : ∀ k, k ≠ "tlsSettings" →
      mapGet s1 k = mapGet (env.jsonUnmarshal inbound.StreamSettings) k := by
    intro k hk; rw [← hs1]; exact mapGet_mapSet_ne _ _ _ _ (Ne.symm hk)
  have hnet1 : asStr (mapGet s1 "network") = some "ws" := by
    rw [hk1 _ (by decide)]; exact hnet
  have hextS : ∀ ep eps,
      asArr (mapGet (stripInternal s1) "externalProxy") ≠ some (ep :: eps) := by
    intro ep eps
    rw [stripInternal_get _ _ (by decide), hk1 _ (by decide)]
    exact hext ep eps
  -- the stream settings seen by the generator
  have hkS : ∀ k, k ∉ ["sockopt", "tcpSettings", "wsSettings", "httpupgradeSettings"] →
      k ≠ "externalProxy" →
      mapGet (mapDelete (stripInternal s1) "externalProxy") k = mapGet s1 k := by
    intro k hk hk2
    rw [mapGet_mapDelete_ne _ _ _ (Ne.symm hk2), stripInternal_get _ _ hk]
  have hnetS : asStr (mapGet (mapDelete (stripInternal s1) "externalProxy") "network") =
      some "ws" := by
    rw [hkS _ (by decide) (by decide)]; exact hnet1
  have hsecS : asStr (mapGet (mapDelete (stripInternal s1) "externalProxy") "security") =
      some "tls" := by
    rw [hkS _ (by decide) (by decide), hk1 _ (by decide)]; exact hsec
  have htlsS : asObj (mapGet (mapDelete (stripInternal s1) "externalProxy") "tlsSettings") =
      some (tlsData t) := by
    rw [hkS _ (by decide) (by decide), ← hs1, mapGet_mapSet_eq]; rfl
  have hwsS : asObj (mapGet (mapDelete (stripInternal s1) "externalProxy") "wsSettings") =
      some (mapDelete ws "acceptProxyProtocol") := by
    rw [mapGet_mapDelete_ne _ _ _ (by decide), stripInternal_ws _ hnet1, hk1 _ (by decide),
      asObj_eq_some hws]
    rfl
  have hsnS : asStr (mapGet (tlsData t) "serverName") = some serverName := by
    rw [tlsData_serverName, anyGet, asStr_eq_some hsn]; rfl
  -- the single descriptor
  obtain ⟨p, hg⟩ := genProxy_supported env
    { inbound with Listen := host, Port := intOfFloat64 (float64OfInt inbound.Port) }
    (mapDelete (stripInternal s1) "externalProxy") client [("remark", .str "")] ""
    (by rw [show
        ({ inbound with Listen := host, Port := intOfFloat64 (float64OfInt inbound.Port) } :
          Inbound).Protocol = inbound.Protocol from rfl,
      hproto]; decide) (by rfl)
  have hget := getProxies_default env g inbound client host (stripInternal s1) g p hs hextS hg
  obtain ⟨remark, hr, hc⟩ := genProxy_cases env _ _ client _ p hg
  have hrem : remark = "" := by
    have : asStr (mapGet [("remark", JVal.str "")] "remark") = some "" := by rfl
    rw [this] at hr; exact (Option.some.inj hr).symm
  have hp : p = genVless env
      { inbound with Listen := host, Port := intOfFloat64 (float64OfInt inbound.Port) }
      (mapDelete (stripInternal s1) "externalProxy") client remark := by
    rcases hc with ⟨h1, _⟩ | ⟨_, h2⟩ | ⟨h3, _⟩ | ⟨h4, _⟩
    · rw [show
        ({ inbound with Listen := host, Port := intOfFloat64 (float64OfInt inbound.Port) } :
          Inbound).Protocol = inbound.Protocol from rfl,
        hproto] at h1
      exact absurd h1 (by decide)
    · exact h2
    · rw [show
        ({ inbound with Listen := host, Port := intOfFloat64 (float64OfInt inbound.Port) } :
          Inbound).Protocol = inbound.Protocol from rfl,
        hproto] at h3
      exact absurd h3 (by decide)
    · rw [show
        ({ inbound with Listen := host, Port := intOfFloat64 (float64OfInt inbound.Port) } :
          Inbound).Protocol = inbound.Protocol from rfl,
        hproto] at h4
      exact absurd h4 (by decide)
  have hnr : asStr (mapGet (mapDelete (stripInternal s1) "externalProxy") "security") ≠
      some "reality" := by
    rw [hsecS]; decide
  refine ⟨p, g, hget, ?_, ?_, ?_, ?_, ?_⟩
  · rw [hp, genVless_stages, realityFields_get _ _ _ _ (by decide),
      tlsFields_get _ _ _ (by decide), vlessTransport_network, hnetS]
    rfl
  · rw [hp, genVless_stages, realityFields_get _ _ _ _ (by decide),
      tlsFields_get _ _ _ (by decide)]
    exact vlessTransport_ws_opts env _ _ client remark (mapDelete ws "acceptProxyProtocol") hd
      path hostHeader hnetS hwsS
      (by rw [mapGet_mapDelete_ne _ _ _ (by decide)]; exact hpath) hpne
      (by rw [mapGet_mapDelete_ne _ _ _ (by decide)]; exact hhd) hH hHne
  · rw [hp, genVless_stages, realityFields_of_not_reality _ _ _ hnr]
    exact tlsFields_tls _ _ hsecS
  · rw [hp, genVless_stages, realityFields_of_not_reality _ _ _ hnr]
    exact tlsFields_servername _ _ (tlsData t) serverName hsecS htlsS hsnS hsne
  · rw [hp, genVless_stages, realityFields_get _ _ _ _ (by decide),
      tlsFields_get _ _ _ (by decide), vlessTransport_get _ _ _ _ _ _ (by decide)]
    simp [mapGet]

theorem vless_ws_tls_descriptor_witness :
    ∃ p g1,
      getProxies (demoEnv "" []) 0 demoInbound demoClient "h.example" =
        some ({ demoInbound with Listen := "h.example" }, [p], g1) ∧
      mapGet p "network" = some (.str "ws") ∧
      mapGet p "ws-opts" =
        some (.map [("path", .str "/ws"), ("headers", .map [("Host", .str "example.com")])]) ∧
      mapGet p "tls" = some (.bool true) ∧
      mapGet p "servername" = some (.str "example.com") ∧
      mapGet p "uuid" = some (.str "u1") :=
  vless_ws_tls_descriptor (demoEnv "" []) 0 demoInbound demoClient "h.example"
    [("path", .str "/ws"), ("headers", .obj [("Host", .str "example.com")])]
    [("Host", .str "example.com")] [("serverName", .str "example.com")]
    "/ws" "example.com" "example.com"
    rfl (by rfl) (by rfl) (by rfl) (by rfl) (by decide) (by rfl) (by rfl) (by decide)
    (by rfl) (by rfl) (by decide) (by intro ep eps h; cases h)

/-! ## Forced security modes -/

theorem forceTls_other (s : JObj) (mode : String) (h1 : mode ≠ "tls") (h2 : mode ≠ "none") :
    forceTls s mode = s := by
  simp [forceTls, h1, h2]

theorem forceTls_tls_security (s : JObj) :
    asStr (mapGet (forceTls s "tls") "security") = some "tls" := by
  unfold forceTls
  simp only [if_true]
  split
  · rw [mapGet_mapSet_ne _ _ _ _ (by decide), mapGet_mapSet_eq]; rfl
  · rename_i h
    simp only [Bool.not_eq_true, Bool.not_eq_false] at h
    have := isStr_eq_true.1 (by simpa using h)
    exact this

theorem forceTls_none_security (s : JObj) :
    asStr (mapGet (forceTls s "none") "security") = some "none" := by
  unfold forceTls
  rw [if_neg (by decide), if_pos rfl]
  split
  · rw [mapGet_mapDelete_ne _ _ _ (by decide), mapGet_mapSet_eq]; rfl
  · rename_i h
    have := isStr_eq_true.1 (by simpa using h)
    exact this

/-- Under security `tls` the three generators with a TLS block set
`tls = true`. -/
theorem genProxy_tls (env : Env) (inb : Inbound) (s : JObj) (client : Client)
    (ext : JObj) (p : Proxy)
    (hproto : inb.Protocol ∈ ["vmess", "vless", "trojan"])
    (hs : asStr (mapGet s "security") = some "tls")
    (h : genProxy env inb s client ext = some (some p)) :
    mapGet p "tls" = some (.bool true) := by
  have hnr : asStr (mapGet s "security") ≠ some "reality" := by rw [hs]; decide
  obtain ⟨remark, _, hc⟩ := genProxy_cases env inb s client ext p h
  rcases hc with ⟨_, rfl⟩ | ⟨_, rfl⟩ | ⟨_, rfl⟩ | ⟨h4, _⟩
  · rw [genVmess_stages]; exact tlsFields_tls _ _ hs
  · rw [genVless_stages, realityFields_of_not_reality _ _ _ hnr]; exact tlsFields_tls _ _ hs
  · rw [genTrojan_stages, realityFields_of_not_reality _ _ _ hnr]; exact tlsFields_tls _ _ hs
  · rw [h4] at hproto
    exact absurd hproto (by decide)

/-- C18 (behaviour of the code). For a vmess, vless or trojan listener whose
own security mode is not `tls` and whose endpoint list is a first endpoint
with `forceTls = tls` followed by a second endpoint with `forceTls = same`,
`getProxies` returns two descriptors and the second one has `tls = true` as
well: the forced mode of the first endpoint is written into the stream map
that all endpoints share. -/
theorem forced_tls_leaks_to_next_endpoint (env : Env) (g : Nat) (inbound : Inbound)
    (client : Client) (host : String) (stream : JObj) (g1 : Nat) (ext1 ext2 : JObj)
    (d1 d2 : String) (p1 p2 : Int) (r1 r2 : String)
    (hproto : inbound.Protocol ∈ ["vmess", "vless", "trojan"])
    (hs : streamData env g inbound.StreamSettings = some (stream, g1))
    (hsec : asStr (mapGet stream "security") ≠ some "tls")
    (hext : asArr (mapGet stream "externalProxy") = some [.obj ext1, .obj ext2])
    (h1d : asStr (mapGet ext1 "dest") = some d1) (h1p : asNum (mapGet ext1 "port") = some p1)
    (h1r : asStr (mapGet ext1 "remark") = some r1)
    (h1m : asStr (mapGet ext1 "forceTls") = some "tls")
    (h2d : asStr (mapGet ext2 "dest") = some d2) (h2p : asNum (mapGet ext2 "port") = some p2)
    (h2r : asStr (mapGet ext2 "remark") = some r2)
    (h2m : asStr (mapGet ext2 "forceTls") = some "same") :
    asStr (mapGet (mapDelete stream "externalProxy") "security") ≠ some "tls" ∧
    ∃ q1 q2,
      getProxies env g inbound client host =
        some ({ inbound with Listen := d2, Port := intOfFloat64 p2 }, [q1, q2], g1) ∧
      mapGet q1 "tls" = some (.bool true) ∧
      mapGet q2 "tls" = some (.bool true) := by
  have hproto4 : inbound.Protocol ∈ ["vmess", "vless", "trojan", "shadowsocks"] := by
    simp only [List.mem_cons, List.mem_singleton, List.not_mem_nil, or_false] at hproto ⊢
    rcases hproto with h | h | h
    · exact Or.inl h
    · exact Or.inr (Or.inl h)
    · exact Or.inr (Or.inr (Or.inl h))
  have hsec1 := forceTls_tls_security (mapDelete stream "externalProxy")
  obtain ⟨q1, hq1⟩ := genProxy_supported env
    { inbound with Listen := d1, Port := intOfFloat64 p1 }
    (forceTls (mapDelete stream "externalProxy") "tls") client ext1 r1 hproto4 h1r
  obtain ⟨q2, hq2⟩ := genProxy_supported env
    { inbound with Listen := d2, Port := intOfFloat64 p2 }
    (forceTls (mapDelete stream "externalProxy") "tls") client ext2 r2 hproto4 h2r
  have hstep1 : endpointStep env client
      { inbound := inbound, stream := mapDelete stream "externalProxy", proxies := [] }
      (.obj ext1) =
      some { inbound := { inbound with Listen := d1, Port := intOfFloat64 p1 }
             stream := forceTls (mapDelete stream "externalProxy") "tls"
             proxies := [q1] } :=
    endpointStep_eq env client
      { inbound := inbound, stream := mapDelete stream "externalProxy", proxies := [] }
      ext1 d1 p1 "tls" q1 h1d h1p h1m hq1
  have hstep2 : endpointStep env client
      { inbound := { inbound with Listen := d1, Port := intOfFloat64 p1 }
        stream := forceTls (mapDelete stream "externalProxy") "tls"
        proxies := [q1] }
      (.obj ext2) =
      some { inbound := { inbound with Listen := d2, Port := intOfFloat64 p2 }
             stream := forceTls (mapDelete stream "externalProxy") "tls"
             proxies := [q1, q2] } := by
    have h := endpointStep_eq env client
      { inbound := { inbound with Listen := d1, Port := intOfFloat64 p1 }
        stream := forceTls (mapDelete stream "externalProxy") "tls"
        proxies := [q1] }
      ext2 d2 p2 "same" q2 h2d h2p h2m
      (by
        rw [forceTls_other _ "same" (by decide) (by decide)]
        exact hq2)
    rw [forceTls_other _ "same" (by decide) (by decide)] at h
    exact h
  have hloop : endpointLoop env client [.obj ext1, .obj ext2]
      { inbound := inbound, stream := mapDelete stream "externalProxy", proxies := [] } =
      some { inbound := { inbound with Listen := d2, Port := intOfFloat64 p2 }
             stream := forceTls (mapDelete stream "externalProxy") "tls"
             proxies := [q1, q2] } := by
    rw [endpointLoop, hstep1]
    simp only []
    rw [endpointLoop, hstep2]
    simp only [endpointLoop]
  have ht1 : mapGet q1 "tls" = some (.bool true) :=
    genProxy_tls env { inbound with Listen := d1, Port := intOfFloat64 p1 }
      (forceTls (mapDelete stream "externalProxy") "tls") client ext1 q1 hproto hsec1 hq1
  have ht2 : mapGet q2 "tls" = some (.bool true) :=
    genProxy_tls env { inbound with Listen := d2, Port := intOfFloat64 p2 }
      (forceTls (mapDelete stream "externalProxy") "tls") client ext2 q2 hproto hsec1 hq2
  have hown : asStr (mapGet (mapDelete stream "externalProxy") "security") ≠ some "tls" := by
    rw [mapGet_mapDelete_ne _ _ _ (by decide)]; exact hsec
  have hget : getProxies env g inbound client host =
      some ({ inbound with Listen := d2, Port := intOfFloat64 p2 }, [q1, q2], g1) := by
    unfold getProxies
    rw [hs]
    simp only [hext, hloop]
  exact ⟨hown, q1, q2, hget, ht1, ht2⟩

theorem forced_tls_leaks_to_next_endpoint_witness :
    asStr (mapGet twoEndpointStream "security") = some "none" ∧
    ∃ q1 q2,
      getProxies (streamEnv twoEndpointStream) 0 (sampleInbound "vless") demoClient
        "h.example" =
        some ({ sampleInbound "vless" with Listen := "direct.example", Port := 8080 },
          [q1, q2], 0) ∧
      mapGet q1 "tls" = some (.bool true) ∧
      mapGet q2 "tls" = some (.bool true) :=
  ⟨by rfl,
    (forced_tls_leaks_to_next_endpoint (streamEnv twoEndpointStream) 0 (sampleInbound "vless")
      demoClient "h.example"
      [ ("network", .str "tcp"),
        ("security", .str "none"),
        ("externalProxy",
          .arr [ .obj [ ("forceTls", .str "tls"), ("dest", .str "cdn.example"),
                        ("port", .num 443), ("remark", .str "-cdn") ],
                 .obj [ ("forceTls", .str "same"), ("dest", .str "direct.example"),
                        ("port", .num 8080), ("remark", .str "-direct") ] ]),
        ("tcpSettings", .obj []) ]
      0
      [ ("forceTls", .str "tls"), ("dest", .str "cdn.example"), ("port", .num 443),
        ("remark", .str "-cdn") ]
      [ ("forceTls", .str "same"), ("dest", .str "direct.example"), ("port", .num 8080),
        ("remark", .str "-direct") ]
      "cdn.example" "direct.example" 443 8080 "-cdn" "-direct"
      (by decide) (by rfl) (by decide) (by rfl) (by rfl) (by rfl) (by rfl) (by rfl) (by rfl)
      (by rfl) (by rfl) (by rfl)).2⟩

/-! ## Reality under a forced mode -/

theorem vless_reality_field (env : Env) (inb : Inbound) (s : JObj) (client : Client)
    (remark : String) :
    (asStr (mapGet s "security") = some "reality" →
      mapGet (genVless env inb s client remark) "reality" = some (.bool true)) ∧
    (asStr (mapGet s "security") ≠ some "reality" →
      mapGet (genVless env inb s client remark) "reality" = none) := by
  constructor
  · intro h
    rw [genVless_stages]
    exact (realityFields_reality _ _ _ h).1
  · intro h
    rw [genVless_stages, realityFields_of_not_reality _ _ _ h, tlsFields_get _ _ _ (by decide),
      vlessTransport_get _ _ _ _ _ _ (by decide)]
    simp [mapGet]

theorem trojan_reality_field (env : Env) (inb : Inbound) (s : JObj) (client : Client)
    (remark : String) :
    (asStr (mapGet s "security") = some "reality" →
      mapGet (genTrojan env inb s client remark) "reality" = some (.bool true)) ∧
    (asStr (mapGet s "security") ≠ some "reality" →
      mapGet (genTrojan env inb s client remark) "reality" = none) := by
  constructor
  · intro h
    rw [genTrojan_stages]
    exact (realityFields_reality _ _ _ h).1
  · intro h
    rw [genTrojan_stages, realityFields_of_not_reality _ _ _ h, tlsFields_get _ _ _ (by decide),
      trojanTransport_get _ _ _ _ _ _ (by decide)]
    simp [mapGet]

theorem vless_tls_field (env : Env) (inb : Inbound) (s : JObj) (client : Client)
    (remark : String) :
    (asStr (mapGet s "security") = some "tls" →
      mapGet (genVless env inb s client remark) "tls" = some (.bool true)) ∧
    (asStr (mapGet s "security") ≠ some "tls" →
      asStr (mapGet s "security") ≠ some "reality" →
      mapGet (genVless env inb s client remark) "tls" = none) := by
  constructor
  · intro h
    have hnr : asStr (mapGet s "security") ≠ some "reality" := by rw [h]; decide
    rw [genVless_stages, realityFields_of_not_reality _ _ _ hnr]
    exact tlsFields_tls _ _ h
  · intro h1 h2
    rw [genVless_stages, realityFields_of_not_reality _ _ _ h2, tlsFields_of_not_tls _ _ h1,
      vlessTransport_get _ _ _ _ _ _ (by decide)]
    simp [mapGet]

theorem trojan_tls_field (env : Env) (inb : Inbound) (s : JObj) (client : Client)
    (remark : String) :
    (asStr (mapGet s "security") = some "tls" →
      mapGet (genTrojan env inb s client remark) "tls" = some (.bool true)) ∧
    (asStr (mapGet s "security") ≠ some "tls" →
      asStr (mapGet s "security") ≠ some "reality" →
      mapGet (genTrojan env inb s client remark) "tls" = none) := by
  constructor
  · intro h
    have hnr : asStr (mapGet s "security") ≠ some "reality" := by rw [h]; decide
    rw [genTrojan_stages, realityFields_of_not_reality _ _ _ hnr]
    exact tlsFields_tls _ _ h
  · intro h1 h2
    rw [genTrojan_stages, realityFields_of_not_reality _ _ _ h2, tlsFields_of_not_tls _ _ h1,
      trojanTransport_get _ _ _ _ _ _ (by decide)]
    simp [mapGet]

/-- C19 (as amended). When the stream settings on entry to an endpoint have
the security mode `reality`: an endpoint whose `forceTls` is neither `tls` nor
`none` (such as `same`) leaves the settings as they are, and the vless and
trojan descriptors carry `reality = true`; an endpoint with `forceTls = tls`
replaces the mode by `tls`, and the descriptors carry `tls = true` and no
`reality` field; an endpoint with `forceTls = none` replaces the mode by
`none`, and the descriptors carry neither `tls` nor `reality`. -/
theorem forceTls_on_reality (env : Env) (inb : Inbound) (s : JObj) (client : Client)
    (remark : String) (hsec : asStr (mapGet s "security") = some "reality") :
    (∀ mode, mode ≠ "tls" → mode ≠ "none" →
      forceTls s mode = s ∧
      mapGet (genVless env inb (forceTls s mode) client remark) "reality" = some (.bool true) ∧
      mapGet (genTrojan env inb (forceTls s mode) client remark) "reality" =
        some (.bool true)) ∧
    (asStr (mapGet (forceTls s "tls") "security") = some "tls" ∧
      mapGet (genVless env inb (forceTls s "tls") client remark) "reality" = none ∧
      mapGet (genVless env inb (forceTls s "tls") client remark) "tls" = some (.bool true) ∧
      mapGet (genTrojan env inb (forceTls s "tls") client remark) "reality" = none ∧
      mapGet (genTrojan env inb (forceTls s "tls") client remark) "tls" = some (.bool true)) ∧
    (asStr (mapGet (forceTls s "none") "security") = some "none" ∧
      mapGet (genVless env inb (forceTls s "none") client remark) "reality" = none ∧
      mapGet (genVless env inb (forceTls s "none") client remark) "tls" = none ∧
      mapGet (genTrojan env inb (forceTls s "none") client remark) "reality" = none ∧
      mapGet (genTrojan env inb (forceTls s "none") client remark) "tls" = none) := by
  have ht := forceTls_tls_security s
  have hn := forceTls_none_security s
  have ht1 : asStr (mapGet (forceTls s "tls") "security") ≠ some "reality" := by
    rw [ht]; decide
  have hn1 : asStr (mapGet (forceTls s "none") "security") ≠ some "reality" := by
    rw [hn]; decide
  have hn2 : asStr (mapGet (forceTls s "none") "security") ≠ some "tls" := by
    rw [hn]; decide
  refine ⟨?_, ⟨ht, ?_, ?_, ?_, ?_⟩, ⟨hn, ?_, ?_, ?_, ?_⟩⟩
  · intro mode h1 h2
    rw [forceTls_other s mode h1 h2]
    exact ⟨rfl, (vless_reality_field env inb s client remark).1 hsec,
      (trojan_reality_field env inb s client remark).1 hsec⟩
  · exact (vless_reality_field env inb _ client remark).2 ht1
  · exact (vless_tls_field env inb _ client remark).1 ht
  · exact (trojan_reality_field env inb _ client remark).2 ht1
  · exact (trojan_tls_field env inb _ client remark).1 ht
  · exact (vless_reality_field env inb _ client remark).2 hn1
  · exact (vless_tls_field env inb _ client remark).2 hn2 hn1
  · exact (trojan_reality_field env inb _ client remark).2 hn1
  · exact (trojan_tls_field env inb _ client remark).2 hn2 hn1

theorem forceTls_on_reality_witness :
    mapGet (genVless (streamEnv realityStream) (sampleInbound "vless")
      (forceTls [("network", .str "tcp"), ("security", .str "reality")] "same")
      demoClient "") "reality" = some (.bool true) ∧
    mapGet (genVless (streamEnv realityStream) (sampleInbound "vless")
      (forceTls [("network", .str "tcp"), ("security", .str "reality")] "tls")
      demoClient "") "reality" = none :=
  ⟨((forceTls_on_reality (streamEnv realityStream) (sampleInbound "vless")
      [("network", .str "tcp"), ("security", .str "reality")] demoClient "" (by rfl)).1
      "same" (by decide) (by decide)).2.1,
   (forceTls_on_reality (streamEnv realityStream) (sampleInbound "vless")
      [("network", .str "tcp"), ("security", .str "reality")] demoClient "" (by rfl)).2.1.2.1⟩

set_option maxRecDepth 100000 in
/-- C19 (counterexample). A vless listener in Reality mode with one external
endpoint whose `forceTls` is `tls`: the descriptor of that endpoint has no
`reality` field and carries `tls = true`; the mode used to build it is `tls`,
not `reality`. -/
theorem forceTls_on_reality_counterexample :
    asStr (mapGet realityForcedStream "security") = some "reality" ∧
    (getProxies (streamEnv realityForcedStream) 0 (sampleInbound "vless") demoClient
        "h.example").map
      (fun r => r.2.1.map fun p =>
        ((mapGet p "reality").map fmtV, (mapGet p "tls").map fmtV, (mapGet p "server").map fmtV)) =
      some [(none, some "true", some "cdn.example")] := by
  decide

/-! ## The flow field of a VLESS descriptor -/

theorem realityFields_flow (proxy : Proxy) (stream : JObj) (client : Client) :
    mapGet (realityFields proxy stream client) "flow" =
      if asStr (mapGet stream "security") = some "reality" ∧ client.Flow ≠ "" then
        some (.str client.Flow)
      else mapGet proxy "flow" := by
  by_cases hs : asStr (mapGet stream "security") = some "reality"
  · by_cases hf : client.Flow = ""
    · unfold realityFields
      simp only [hs, if_true, hf, ne_eq, not_true_eq_false, if_false, and_false]
      repeat' (first | split | dsimp only)
      all_goals simp [mapGet_mapSet_ne, setNonEmpty_get]
    · unfold realityFields
      simp only [hs, if_true, hf, ne_eq, not_false_eq_true, and_self, mapGet_mapSet_eq]
  · rw [realityFields_of_not_reality _ _ _ hs]
    simp [hs]

theorem vlessTransport_flow (env : Env) (inbound : Inbound) (stream : JObj) (client : Client)
    (remark : String) :
    mapGet (vlessTransport env inbound stream client remark) "flow" =
      if asStr (mapGet stream "network") = some "tcp" ∧ client.Flow ≠ "" then
        some (.str client.Flow)
      else none := by
  have hnet : (asStr (mapGet stream "network")).getD "" = "tcp" ↔
      asStr (mapGet stream "network") = some "tcp" := by
    cases asStr (mapGet stream "network") with
    | none => simp
    | some s => simp
  have key : mapGet (vlessTransport env inbound stream client remark) "flow" =
      if (asStr (mapGet stream "network")).getD "" = "tcp" ∧ client.Flow ≠ "" then
        some (.str client.Flow)
      else none := by
    unfold vlessTransport
    dsimp only
    generalize (asStr (mapGet stream "network")).getD "" = network
    by_cases hn : network = "tcp"
    · by_cases hf : client.Flow = ""
      · simp only [hn, if_true, hf, ne_eq, not_true_eq_false, if_false, and_false]
        rw [tcpFields_get _ _ _ (by decide)]
        split <;> simp [mapGet_mapSet_ne, mapGet]
      · simp only [hn, if_true, hf, ne_eq, not_false_eq_true, and_self, mapGet_mapSet_eq]
    · simp only [hn, if_false, false_and]
      repeat' split
      all_goals
        simp [wsFields_get, httpupgradeFields_get, mapGet_mapSet_ne, mapGet]
  rw [key]
  simp only [hnet]

/-- C21. The descriptor built by `genVless` carries the field `flow` if and
only if the flow-control tag of the client is non-empty and the transport of
the stream settings is `tcp` or their security mode is `reality`; when the
field is present its value is the client's tag. -/
theorem genVless_flow (env : Env) (inbound : Inbound) (stream : JObj) (client : Client)
    (remark : String) :
    mapGet (genVless env inbound stream client remark) "flow" =
      (if client.Flow ≠ "" ∧
          (asStr (mapGet stream "network") = some "tcp" ∨
            asStr (mapGet stream "security") = some "reality") then
        some (.str client.Flow)
      else none) ∧
    ((mapGet (genVless env inbound stream client remark) "flow").isSome = true ↔
      client.Flow ≠ "" ∧
        (asStr (mapGet stream "network") = some "tcp" ∨
          asStr (mapGet stream "security") = some "reality")) := by
  have key : mapGet (genVless env inbound stream client remark) "flow" =
      (if client.Flow ≠ "" ∧
          (asStr (mapGet stream "network") = some "tcp" ∨
            asStr (mapGet stream "security") = some "reality") then
        some (.str client.Flow)
      else none) := by
    rw [genVless_stages, realityFields_flow, tlsFields_get _ _ _ (by decide),
      vlessTransport_flow]
    by_cases hf : client.Flow = ""
    · simp [hf]
    · by_cases hs : asStr (mapGet stream "security") = some "reality"
      · simp [hf, hs]
      · by_cases hn : asStr (mapGet stream "network") = some "tcp"
        · simp [hf, hs, hn]
        · simp [hf, hs, hn]
  refine ⟨key, ?_⟩
  rw [key]
  split
  · rename_i h; simp [h]
  · rename_i h
    constructor
    · intro h1; cases h1
    · intro h1; exact absurd h1 h

/-! ## Closed forms of the summary -/

/-- The summary expiry of a non-empty sequence: the common expiry when it is
positive and every record carries it, zero otherwise. -/
theorem aggregate_Expiry_common (cts : List ClientTraffic) (hne : cts ≠ []) :
    (∀ e, 0 < e → (∀ c ∈ cts, c.ExpiryTime = e) → (aggregate cts).ExpiryTime = e) ∧
    ((¬ ∃ e, 0 < e ∧ ∀ c ∈ cts, c.ExpiryTime = e) → (aggregate cts).ExpiryTime = 0) := by
  cases cts with
  | nil => exact absurd rfl hne
  | cons c rest =>
    constructor
    · intro e he hall
      have hc : c.ExpiryTime = e := hall c (List.mem_cons_self _ _)
      rw [aggregate_Expiry, if_pos, hc]
      refine ⟨by rw [hc]; exact he, ?_⟩
      intro d hd
      rw [hall d (List.mem_cons_of_mem _ hd), hc]
    · intro hno
      rw [aggregate_Expiry, if_neg]
      rintro ⟨hpos, hall⟩
      apply hno
      refine ⟨c.ExpiryTime, hpos, ?_⟩
      intro d hd
      rcases List.mem_cons.1 hd with rfl | hd
      · rfl
      · exact hall d hd

/-- The summary expiry is the same for every permutation of the records. -/
theorem aggregate_Expiry_perm (cts cts' : List ClientTraffic) (hp : cts.Perm cts') :
    (aggregate cts').ExpiryTime = (aggregate cts).ExpiryTime := by
  by_cases hne : cts = []
  · subst hne
    rw [List.nil_perm.1 hp]
  · have hne' : cts' ≠ [] := by
      intro h
      subst h
      exact hne (List.perm_nil.1 hp)
    by_cases hex : ∃ e, 0 < e ∧ ∀ c ∈ cts, c.ExpiryTime = e
    · obtain ⟨e, he, hall⟩ := hex
      rw [(aggregate_Expiry_common cts hne).1 e he hall,
        (aggregate_Expiry_common cts' hne').1 e he (fun c hc => hall c (hp.mem_iff.2 hc))]
    · have hex' : ¬ ∃ e, 0 < e ∧ ∀ c ∈ cts', c.ExpiryTime = e := by
        rintro ⟨e, he, hall⟩
        exact hex ⟨e, he, fun c hc => hall c (hp.mem_iff.1 hc)⟩
      rw [(aggregate_Expiry_common cts hne).2 hex, (aggregate_Expiry_common cts' hne').2 hex']

/-- The summary total under non-negative totals whose sum fits in `int64`. -/
theorem aggregate_Total_closed (cts : List ClientTraffic) (hnn : ∀ c ∈ cts, 0 ≤ c.Total)
    (hs : (cts.map (·.Total)).sum < 9223372036854775808) :
    (aggregate cts).Total =
      if ∃ c ∈ cts, c.Total = 0 then 0 else (cts.map (·.Total)).sum := by
  cases cts with
  | nil => simp [aggregate, aggLoop, zeroTraffic]
  | cons c rest =>
    have hc : 0 ≤ c.Total := hnn c (List.mem_cons_self _ _)
    have hrest : ∀ d ∈ rest, 0 ≤ d.Total := fun d hd => hnn d (List.mem_cons_of_mem _ hd)
    simp only [List.map_cons, List.sum_cons] at hs
    have hseed : (aggStep 0 zeroTraffic c).Total = c.Total := by simp [aggStep]
    simp only [aggregate, aggLoop]
    rw [aggLoop_succ_Total rest 0 _ (by rw [hseed]; exact hc) hrest (by rw [hseed]; exact hs),
      hseed]
    simp only [List.mem_cons, exists_eq_or_imp, List.map_cons, List.sum_cons]

/-- C24. For every non-empty sequence of records the summary expiry of the
aggregation is e when every record carries the same expiry e > 0, and 0 in
every other case (an expiry that is zero or negative, or two expiries that
differ); the summary expiry is never negative. -/
theorem summary_expiry_closed_form (cts : List ClientTraffic) (hne : cts ≠ []) :
    (∀ e, 0 < e → (∀ c ∈ cts, c.ExpiryTime = e) → (aggregate cts).ExpiryTime = e) ∧
    ((¬ ∃ e, 0 < e ∧ ∀ c ∈ cts, c.ExpiryTime = e) → (aggregate cts).ExpiryTime = 0) ∧
    ((∃ c ∈ cts, c.ExpiryTime ≤ 0) → (aggregate cts).ExpiryTime = 0) ∧
    ((∃ a ∈ cts, ∃ b ∈ cts, a.ExpiryTime ≠ b.ExpiryTime) → (aggregate cts).ExpiryTime = 0) ∧
    0 ≤ (aggregate cts).ExpiryTime := by
  have h := aggregate_Expiry_common cts hne
  refine ⟨h.1, h.2, ?_, ?_, ?_⟩
  · rintro ⟨c, hc, hle⟩
    apply h.2
    rintro ⟨e, he, hall⟩
    have := hall c hc
    omega
  · rintro ⟨a, ha, b, hb, hab⟩
    apply h.2
    rintro ⟨e, he, hall⟩
    exact hab ((hall a ha).trans (hall b hb).symm)
  · by_cases hex : ∃ e, 0 < e ∧ ∀ c ∈ cts, c.ExpiryTime = e
    · obtain ⟨e, he, hall⟩ := hex
      rw [h.1 e he hall]
      exact le_of_lt he
    · rw [h.2 hex]

theorem summary_expiry_closed_form_witness :
    (aggregate [⟨1, 2, 3, 7000⟩, ⟨4, 5, 6, 7000⟩]).ExpiryTime = 7000 ∧
    (aggregate [⟨1, 2, 3, 7000⟩, ⟨4, 5, 6, 0⟩, ⟨7, 8, 9, 7000⟩]).ExpiryTime = 0 ∧
    (aggregate [⟨1, 2, 3, -5⟩, ⟨4, 5, 6, -5⟩]).ExpiryTime = 0 ∧
    (aggregate [⟨1, 2, 3, 7000⟩, ⟨4, 5, 6, 9000⟩, ⟨7, 8, 9, 7000⟩]).ExpiryTime = 0 :=
  ⟨(summary_expiry_closed_form [⟨1, 2, 3, 7000⟩, ⟨4, 5, 6, 7000⟩] (by decide)).1 7000
      (by decide) (by decide),
   (summary_expiry_closed_form [⟨1, 2, 3, 7000⟩, ⟨4, 5, 6, 0⟩, ⟨7, 8, 9, 7000⟩]
      (by decide)).2.2.1 ⟨⟨4, 5, 6, 0⟩, by decide, by decide⟩,
   (summary_expiry_closed_form [⟨1, 2, 3, -5⟩, ⟨4, 5, 6, -5⟩] (by decide)).2.2.1
      ⟨⟨1, 2, 3, -5⟩, by decide, by decide⟩,
   (summary_expiry_closed_form [⟨1, 2, 3, 7000⟩, ⟨4, 5, 6, 9000⟩, ⟨7, 8, 9, 7000⟩]
      (by decide)).2.2.2.1
      ⟨⟨1, 2, 3, 7000⟩, by decide, ⟨4, 5, 6, 9000⟩, by decide, by decide⟩⟩

/-- C25. For every sequence of `int64` records whose totals are all
non-negative and sum to an `int64` value, and for every permutation of that
sequence, the aggregation yields the same summary for the permuted sequence
as for the original one, also when some totals are zero or the expiries
disagree; the summary total is 0 if some total is 0 and the sum of the totals
otherwise. -/
theorem aggregate_perm_nonneg (cts cts' : List ClientTraffic) (hp : cts.Perm cts')
    (hv : ∀ c ∈ cts, c.valid) (hnn : ∀ c ∈ cts, 0 ≤ c.Total)
    (hs : (cts.map (·.Total)).sum < 9223372036854775808) :
    aggregate cts' = aggregate cts ∧
    (aggregate cts).Total =
      (if ∃ c ∈ cts, c.Total = 0 then 0 else (cts.map (·.Total)).sum) ∧
    (aggregate cts').Total =
      (if ∃ c ∈ cts, c.Total = 0 then 0 else (cts.map (·.Total)).sum) := by
  have hv' : ∀ c ∈ cts', c.valid := fun c hc => hv c (hp.mem_iff.2 hc)
  have hnn' : ∀ c ∈ cts', 0 ≤ c.Total := fun c hc => hnn c (hp.mem_iff.2 hc)
  have hT : (cts'.map (·.Total)).sum = (cts.map (·.Total)).sum := ((hp.map _).sum_eq).symm
  have hU : (cts'.map (·.Up)).sum = (cts.map (·.Up)).sum := ((hp.map _).sum_eq).symm
  have hD : (cts'.map (·.Down)).sum = (cts.map (·.Down)).sum := ((hp.map _).sum_eq).symm
  have hz : (∃ c ∈ cts', c.Total = 0) ↔ ∃ c ∈ cts, c.Total = 0 := by
    constructor
    · rintro ⟨c, hc, h0⟩; exact ⟨c, hp.mem_iff.2 hc, h0⟩
    · rintro ⟨c, hc, h0⟩; exact ⟨c, hp.mem_iff.1 hc, h0⟩
  have ht := aggregate_Total_closed cts hnn hs
  have ht' : (aggregate cts').Total =
      (if ∃ c ∈ cts, c.Total = 0 then 0 else (cts.map (·.Total)).sum) := by
    rw [aggregate_Total_closed cts' hnn' (by rw [hT]; exact hs), hT]
    simp only [hz]
  refine ⟨?_, ht, ht'⟩
  apply ClientTraffic.eq_of_fields
  · rw [aggregate_Up _ hv', aggregate_Up _ hv, hU]
  · rw [aggregate_Down _ hv', aggregate_Down _ hv, hD]
  · rw [ht, ht']
  · exact aggregate_Expiry_perm cts cts' hp

theorem aggregate_perm_nonneg_witness :
    aggregate [⟨50, 50, 0, 9000⟩, ⟨100, 200, 500, 7000⟩, ⟨1, 1, 20, 7000⟩] =
      aggregate [(⟨100, 200, 500, 7000⟩ : ClientTraffic), ⟨50, 50, 0, 9000⟩,
        ⟨1, 1, 20, 7000⟩] ∧
    (aggregate [(⟨100, 200, 500, 7000⟩ : ClientTraffic), ⟨50, 50, 0, 9000⟩,
        ⟨1, 1, 20, 7000⟩]).Total = 0 :=
  have h := aggregate_perm_nonneg
    [⟨100, 200, 500, 7000⟩, ⟨50, 50, 0, 9000⟩, ⟨1, 1, 20, 7000⟩]
    [⟨50, 50, 0, 9000⟩, ⟨100, 200, 500, 7000⟩, ⟨1, 1, 20, 7000⟩]
    (List.Perm.swap _ _ _) (by decide) (by decide) (by decide)
  ⟨h.1, h.2.1.trans (by decide)⟩

/-! ## The number of descriptors -/

theorem genProxy_unsupported (env : Env) (inb : Inbound) (s : JObj) (client : Client)
    (ext : JObj) (hproto : inb.Protocol ∉ supportedProtocols) :
    genProxy env inb s client ext = some none := by
  simp only [supportedProtocols, List.mem_cons, List.mem_singleton, List.not_mem_nil, or_false,
    not_or] at hproto
  obtain ⟨h1, h2, h3, h4⟩ := hproto
  simp only [genProxy, h1, h2, h3, h4, if_false]

theorem wellFormedEndpoint_spec (ep : JVal) (h : wellFormedEndpoint ep = true) :
    ∃ ext dest port mode remark, ep = .obj ext ∧
      asStr (mapGet ext "dest") = some dest ∧ asNum (mapGet ext "port") = some port ∧
      asStr (mapGet ext "forceTls") = some mode ∧ asStr (mapGet ext "remark") = some remark := by
  unfold wellFormedEndpoint at h
  rcases Option.eq_none_or_eq_some (asObj (some ep)) with ho | ⟨ext, ho⟩
  · simp [ho] at h
  · simp only [ho, Bool.and_eq_true, Option.isSome_iff_exists] at h
    obtain ⟨⟨⟨⟨dest, hd⟩, ⟨port, hp⟩⟩, ⟨mode, hm⟩⟩, ⟨remark, hr⟩⟩ := h
    refine ⟨ext, dest, port, mode, remark, ?_, hd, hp, hm, hr⟩
    cases ep <;> simp [asObj] at ho
    rw [ho]

/-- One well-formed endpoint: the step returns, keeps the protocol tag and
adds one descriptor for a supported protocol, none otherwise. -/
theorem endpointStep_count (env : Env) (client : Client) (st : EndpointState) (ep : JVal)
    (h : wellFormedEndpoint ep = true) :
    ∃ st1, endpointStep env client st ep = some st1 ∧
      st1.inbound.Protocol = st.inbound.Protocol ∧
      st1.proxies.length =
        st.proxies.length + (if st.inbound.Protocol ∈ supportedProtocols then 1 else 0) := by
  obtain ⟨ext, dest, port, mode, remark, rfl, hd, hp, hm, hr⟩ := wellFormedEndpoint_spec ep h
  by_cases hproto : st.inbound.Protocol ∈ supportedProtocols
  · obtain ⟨p, hg⟩ := genProxy_supported env
      { st.inbound with Listen := dest, Port := intOfFloat64 port }
      (forceTls st.stream mode) client ext remark hproto hr
    refine ⟨_, endpointStep_eq env client st ext dest port mode p hd hp hm hg, rfl, ?_⟩
    simp [hproto]
  · have hg := genProxy_unsupported env
      { st.inbound with Listen := dest, Port := intOfFloat64 port }
      (forceTls st.stream mode) client ext hproto
    refine ⟨{ inbound := { st.inbound with Listen := dest, Port := intOfFloat64 port }
              stream := forceTls st.stream mode
              proxies := st.proxies }, ?_, rfl, ?_⟩
    · simp only [endpointStep, asObj, hd, hp, hm, hg]
    · simp [hproto]

theorem endpointLoop_count (env : Env) (client : Client) (eps : List JVal)
    (st : EndpointState) (h : ∀ ep ∈ eps, wellFormedEndpoint ep = true) :
    ∃ st1, endpointLoop env client eps st = some st1 ∧
      st1.inbound.Protocol = st.inbound.Protocol ∧
      st1.proxies.length =
        st.proxies.length +
          (if st.inbound.Protocol ∈ supportedProtocols then eps.length else 0) := by
  induction eps generalizing st with
  | nil => exact ⟨st, rfl, rfl, by split <;> simp⟩
  | cons ep rest ih =>
    obtain ⟨st1, h1, hp1, hl1⟩ := endpointStep_count env client st ep
      (h ep (List.mem_cons_self _ _))
    obtain ⟨st2, h2, hp2, hl2⟩ := ih st1 (fun e he => h e (List.mem_cons_of_mem _ he))
    refine ⟨st2, ?_, hp2.trans hp1, ?_⟩
    · simp only [endpointLoop, h1, h2]
    · rw [hl2, hl1, hp1]
      split
      · simp only [List.length_cons]; omega
      · rfl

/-- The endpoint list of the normalized stream settings is the one of the
decoded document. -/
theorem streamData_externalProxy (env : Env) (g : Nat) (stream : String) (s : JObj) (g1 : Nat)
    (h : streamData env g stream = some (s, g1)) :
    mapGet s "externalProxy" = mapGet (env.jsonUnmarshal stream) "externalProxy" := by
  rw [streamData_eq] at h
  rcases Option.eq_none_or_eq_some (normalizeSecurity env g (env.jsonUnmarshal stream)) with
    hn | ⟨⟨s1, g2⟩, hn⟩
  · simp [hn] at h
  · simp only [hn, Option.some.injEq, Prod.mk.injEq] at h
    obtain ⟨hs1, _⟩ := h
    subst hs1
    rw [stripInternal_get _ _ (by decide)]
    exact (normalizeSecurity_spec env g _ s1 g2 hn).2.2.2 _ (by decide) (by decide)

/-- When the stream settings normalize and the explicit endpoints are well
formed, `getProxies` returns one descriptor per explicit endpoint (one when
there is none) for a supported protocol, and no descriptor otherwise. -/
theorem getProxies_length (env : Env) (g : Nat) (inbound : Inbound) (client : Client)
    (host : String) (stream : JObj) (g1 : Nat)
    (hs : streamData env g inbound.StreamSettings = some (stream, g1))
    (hwf : ∀ ep ∈ explicitEndpoints stream, wellFormedEndpoint ep = true) :
    ∃ inbound1 proxies,
      getProxies env g inbound client host = some (inbound1, proxies, g1) ∧
      proxies.length =
        if inbound.Protocol ∈ supportedProtocols then
          (if (explicitEndpoints stream).length = 0 then 1
           else (explicitEndpoints stream).length)
        else 0 := by
  have hdef : wellFormedEndpoint
      (.obj [ ("forceTls", .str "same"), ("dest", .str host),
              ("port", .num (float64OfInt inbound.Port)), ("remark", .str "") ]) = true := rfl
  rcases Option.eq_none_or_eq_some (asArr (mapGet stream "externalProxy")) with ha | ⟨l, ha⟩
  · obtain ⟨st1, h1, _, hl1⟩ := endpointLoop_count env client
      [ .obj [ ("forceTls", .str "same"), ("dest", .str host),
               ("port", .num (float64OfInt inbound.Port)), ("remark", .str "") ] ]
      { inbound := inbound, stream := mapDelete stream "externalProxy", proxies := [] }
      (by intro ep hep; rw [List.mem_singleton.1 hep]; exact hdef)
    refine ⟨st1.inbound, st1.proxies, ?_, ?_⟩
    · simp only [getProxies, hs, ha, h1]
    · rw [hl1]
      simp [explicitEndpoints, ha]
  · cases l with
    | nil =>
      obtain ⟨st1, h1, _, hl1⟩ := endpointLoop_count env client
        [ .obj [ ("forceTls", .str "same"), ("dest", .str host),
                 ("port", .num (float64OfInt inbound.Port)), ("remark", .str "") ] ]
        { inbound := inbound, stream := mapDelete stream "externalProxy", proxies := [] }
        (by intro ep hep; rw [List.mem_singleton.1 hep]; exact hdef)
      refine ⟨st1.inbound, st1.proxies, ?_, ?_⟩
      · simp only [getProxies, hs, ha, h1]
      · rw [hl1]
        simp [explicitEndpoints, ha]
    | cons ep eps =>
      have hwf1 : ∀ e ∈ ep :: eps, wellFormedEndpoint e = true := by
        intro e he
        apply hwf
        simp only [explicitEndpoints, ha, Option.getD_some]
        exact he
      obtain ⟨st1, h1, _, hl1⟩ := endpointLoop_count env client (ep :: eps)
        { inbound := inbound, stream := mapDelete stream "externalProxy", proxies := [] } hwf1
      refine ⟨st1.inbound, st1.proxies, ?_, ?_⟩
      · simp only [getProxies, hs, ha, h1]
      · rw [hl1]
        simp [explicitEndpoints, ha]

/-- C22 (behaviour of the code). For a listener whose explicit external
endpoints are all well formed: when `streamData` returns, `getProxies` returns
as many descriptors as there are explicit external endpoints (1 when the list
is absent or empty) for the protocol tags vmess, vless, trojan, shadowsocks,
and none for every other tag; but when `streamData` panics, as it does under
the security mode `tls` without a `tlsSettings` object and under `reality`
without a `realitySettings` object, `getProxies` panics with it and returns no
list at all, although the endpoints are well formed. -/
theorem getProxies_count (env : Env) (g : Nat) (inbound : Inbound) (client : Client)
    (host : String)
    (hwf : ∀ ep ∈ explicitEndpoints (env.jsonUnmarshal inbound.StreamSettings),
      wellFormedEndpoint ep = true) :
    (∀ stream g1, streamData env g inbound.StreamSettings = some (stream, g1) →
      ∃ inbound1 proxies,
        getProxies env g inbound client host = some (inbound1, proxies, g1) ∧
        proxies.length =
          if inbound.Protocol ∈ supportedProtocols then
            (if (explicitEndpoints (env.jsonUnmarshal inbound.StreamSettings)).length = 0
              then 1
             else (explicitEndpoints (env.jsonUnmarshal inbound.StreamSettings)).length)
          else 0) ∧
    (streamData env g inbound.StreamSettings = none →
      getProxies env g inbound client host = none) ∧
    (asStr (mapGet (env.jsonUnmarshal inbound.StreamSettings) "security") = some "tls" →
      asObj (mapGet (env.jsonUnmarshal inbound.StreamSettings) "tlsSettings") = none →
      getProxies env g inbound client host = none) ∧
    (asStr (mapGet (env.jsonUnmarshal inbound.StreamSettings) "security") = some "reality" →
      asObj (mapGet (env.jsonUnmarshal inbound.StreamSettings) "realitySettings") = none →
      getProxies env g inbound client host = none) := by
  have hnone : streamData env g inbound.StreamSettings = none →
      getProxies env g inbound client host = none := by
    intro h
    simp only [getProxies, h]
  refine ⟨?_, hnone, ?_, ?_⟩
  · intro stream g1 hs
    have hx : explicitEndpoints stream =
        explicitEndpoints (env.jsonUnmarshal inbound.StreamSettings) := by
      simp only [explicitEndpoints, streamData_externalProxy env g _ stream g1 hs]
    rw [← hx]
    exact getProxies_length env g inbound client host stream g1 hs (by rw [hx]; exact hwf)
  · intro hsec ht
    apply hnone
    simp [streamData, hsec, ht]
  · intro hsec hr
    apply hnone
    simp [streamData, hsec, hr]

set_option maxRecDepth 100000 in
theorem getProxies_count_witness :
    (∃ inbound1 proxies,
      getProxies (streamEnv twoEndpointStream) 0 (sampleInbound "vless") demoClient
        "h.example" = some (inbound1, proxies, 0) ∧ proxies.length = 2) ∧
    (∃ inbound1 proxies,
      getProxies (streamEnv twoEndpointStream) 0 (sampleInbound "socks") demoClient
        "h.example" = some (inbound1, proxies, 0) ∧ proxies.length = 0) ∧
    explicitEndpoints [("network", JVal.str "tcp"), ("security", .str "tls")] = [] ∧
    getProxies (streamEnv [("network", .str "tcp"), ("security", .str "tls")]) 0
      (sampleInbound "vless") demoClient "h.example" = none :=
  ⟨(getProxies_count (streamEnv twoEndpointStream) 0 (sampleInbound "vless") demoClient
      "h.example" (by decide)).1
      [ ("network", .str "tcp"), ("security", .str "none"),
        ("externalProxy",
          .arr [ .obj [ ("forceTls", .str "tls"), ("dest", .str "cdn.example"),
                        ("port", .num 443), ("remark", .str "-cdn") ],
                 .obj [ ("forceTls", .str "same"), ("dest", .str "direct.example"),
                        ("port", .num 8080), ("remark", .str "-direct") ] ]),
        ("tcpSettings", .obj []) ]
      0 (by rfl),
   (getProxies_count (streamEnv twoEndpointStream) 0 (sampleInbound "socks") demoClient
      "h.example" (by decide)).1
      [ ("network", .str "tcp"), ("security", .str "none"),
        ("externalProxy",
          .arr [ .obj [ ("forceTls", .str "tls"), ("dest", .str "cdn.example"),
                        ("port", .num 443), ("remark", .str "-cdn") ],
                 .obj [ ("forceTls", .str "same"), ("dest", .str "direct.example"),
                        ("port", .num 8080), ("remark", .str "-direct") ] ]),
        ("tcpSettings", .obj []) ]
      0 (by rfl),
   rfl,
   (getProxies_count (streamEnv [("network", .str "tcp"), ("security", .str "tls")]) 0
      (sampleInbound "vless") demoClient "h.example" (by decide)).2.2.1 (by rfl) (by rfl)⟩

/-! ## The listener between two calls of `getProxies` -/

theorem endpointStep_relisten (env : Env) (client : Client) (inb : Inbound) (l : String)
    (p : Int) (s : JObj) (ps : List Proxy) (ep : JVal) :
    endpointStep env client
        { inbound := { inb with Listen := l, Port := p }, stream := s, proxies := ps } ep =
      endpointStep env client { inbound := inb, stream := s, proxies := ps } ep := rfl

theorem endpointLoop_relisten (env : Env) (client : Client) (inb : Inbound) (l : String)
    (p : Int) (s : JObj) (ps : List Proxy) (ep : JVal) (eps : List JVal) :
    endpointLoop env client (ep :: eps)
        { inbound := { inb with Listen := l, Port := p }, stream := s, proxies := ps } =
      endpointLoop env client (ep :: eps) { inbound := inb, stream := s, proxies := ps } := by
  simp only [endpointLoop, endpointStep_relisten]

/-- The step of the endpoint loop on the implicit endpoint: the protocol
switch on the listener with the request host as address and the converted
port. -/
theorem endpointStep_implicit (env : Env) (client : Client) (st : EndpointState)
    (host : String) (x : Int) :
    endpointStep env client st
        (.obj [ ("forceTls", .str "same"), ("dest", .str host), ("port", .num x),
                ("remark", .str "") ]) =
      match genProxy env { st.inbound with Listen := host, Port := intOfFloat64 x } st.stream
          client [("remark", .str "")] with
      | none => none
      | some none =>
        some { inbound := { st.inbound with Listen := host, Port := intOfFloat64 x }
               stream := st.stream
               proxies := st.proxies }
      | some (some proxy) =>
        some { inbound := { st.inbound with Listen := host, Port := intOfFloat64 x }
               stream := st.stream
               proxies := st.proxies ++ [proxy] } := by
  have hd : asStr (mapGet [ ("forceTls", JVal.str "same"), ("dest", .str host),
      ("port", .num x), ("remark", .str "") ] "dest") = some host := rfl
  have hp : asNum (mapGet [ ("forceTls", JVal.str "same"), ("dest", .str host),
      ("port", .num x), ("remark", .str "") ] "port") = some x := rfl
  have hm : asStr (mapGet [ ("forceTls", JVal.str "same"), ("dest", .str host),
      ("port", .num x), ("remark", .str "") ] "forceTls") = some "same" := rfl
  simp only [endpointStep, asObj, hd, hp, hm, forceTls_other st.stream "same" (by decide)
    (by decide)]
  rw [genProxy_remark_only env _ _ client _ [("remark", .str "")] (by rfl)]

/-- A listener that differs in address and port as the endpoint loop leaves
it gives the same result of `getProxies`. -/
theorem getProxies_relisten (env : Env) (g : Nat) (inb inb1 : Inbound) (client : Client)
    (host : String) (h : Relisten env inb inb1) :
    getProxies env g inb1 client host = getProxies env g inb client host := by
  obtain ⟨l, p, rfl, hp⟩ := h
  unfold getProxies
  dsimp only
  rcases Option.eq_none_or_eq_some (streamData env g inb.StreamSettings) with
    hs | ⟨⟨s, g1⟩, hs⟩
  · simp only [hs]
  · simp only [hs]
    have hx := streamData_externalProxy env g _ s g1 hs
    have himplicit : asArr (mapGet s "externalProxy") = none ∨
        asArr (mapGet s "externalProxy") = some [] →
        intOfFloat64 (float64OfInt p) = intOfFloat64 (float64OfInt inb.Port) := by
      intro ha
      rcases hp with hp | ⟨ep, eps, he⟩
      · exact hp
      · rw [← hx] at he
        rcases ha with ha | ha
        · rw [ha] at he; cases he
        · rw [ha] at he; cases he
    rcases Option.eq_none_or_eq_some (asArr (mapGet s "externalProxy")) with ha | ⟨arr, ha⟩
    · have hp1 := himplicit (Or.inl ha)
      simp only [ha, endpointLoop, endpointStep_implicit, hp1]
    · cases arr with
      | nil =>
        have hp1 := himplicit (Or.inr ha)
        simp only [ha, endpointLoop, endpointStep_implicit, hp1]
      | cons ep eps =>
        simp only [ha, endpointLoop_relisten]

theorem endpointLoop_inbound (env : Env) (client : Client) (eps : List JVal)
    (st st1 : EndpointState) (h : endpointLoop env client eps st = some st1) :
    ∃ l p, st1.inbound = { st.inbound with Listen := l, Port := p } := by
  induction eps generalizing st with
  | nil =>
    simp only [endpointLoop, Option.some.injEq] at h
    subst h
    exact ⟨st.inbound.Listen, st.inbound.Port, rfl⟩
  | cons ep rest ih =>
    simp only [endpointLoop] at h
    rcases Option.eq_none_or_eq_some (endpointStep env client st ep) with hs | ⟨st2, hs⟩
    · simp [hs] at h
    · simp only [hs] at h
      obtain ⟨_, dest, port, _, _, _, _, _, hinb, _, _⟩ := endpointStep_inv env client st st2 ep hs
      obtain ⟨l, p, h2⟩ := ih st2 h
      exact ⟨l, p, by rw [h2, hinb]⟩

/-- The listener that `getProxies` leaves differs from the one it was given
at most in address and port, and in the port only by the conversion to
`float64` and back or under explicit endpoints. -/
theorem getProxies_Relisten (env : Env) (g : Nat) (inb inb1 : Inbound) (client : Client)
    (host : String) (ps : List Proxy) (g1 : Nat)
    (h : getProxies env g inb client host = some (inb1, ps, g1)) : Relisten env inb inb1 := by
  unfold getProxies at h
  rcases Option.eq_none_or_eq_some (streamData env g inb.StreamSettings) with
    hs | ⟨⟨s, g2⟩, hs⟩
  · simp [hs] at h
  · simp only [hs] at h
    have hx := streamData_externalProxy env g _ s g2 hs
    have hdefault :
        ∀ st1, endpointLoop env client
          [ JVal.obj [ ("forceTls", .str "same"), ("dest", .str host),
                       ("port", .num (float64OfInt inb.Port)), ("remark", .str "") ] ]
          { inbound := inb, stream := mapDelete s "externalProxy", proxies := [] } = some st1 →
        Relisten env inb st1.inbound := by
      intro st1 hl
      simp only [endpointLoop] at hl
      rcases Option.eq_none_or_eq_some (endpointStep env client
        { inbound := inb, stream := mapDelete s "externalProxy", proxies := [] }
        (JVal.obj [ ("forceTls", .str "same"), ("dest", .str host),
                    ("port", .num (float64OfInt inb.Port)), ("remark", .str "") ])) with
        he | ⟨st2, he⟩
      · simp [he] at hl
      · simp only [he, Option.some.injEq] at hl
        subst hl
        obtain ⟨ext, dest, port, _, hep, _, hport, _, hinb, _, _⟩ :=
          endpointStep_inv env client _ st2 _ he
        have hext : ext = [ ("forceTls", JVal.str "same"), ("dest", .str host),
                            ("port", .num (float64OfInt inb.Port)), ("remark", .str "") ] :=
          (JVal.obj.inj hep).symm
        subst hext
        have hport1 : port = float64OfInt inb.Port := (Option.some.inj hport).symm
        subst hport1
        exact ⟨dest, intOfFloat64 (float64OfInt inb.Port), hinb,
          Or.inl (intOfFloat64_float64OfInt_idem inb.Port)⟩
    rcases Option.eq_none_or_eq_some (asArr (mapGet s "externalProxy")) with ha | ⟨arr, ha⟩
    · simp only [ha] at h
      split at h
      · cases h
      · rename_i st1 hl
        simp only [Option.some.injEq, Prod.mk.injEq] at h
        rw [← h.1]
        exact hdefault st1 hl
    · cases arr with
      | nil =>
        simp only [ha] at h
        split at h
        · cases h
        · rename_i st1 hl
          simp only [Option.some.injEq, Prod.mk.injEq] at h
          rw [← h.1]
          exact hdefault st1 hl
      | cons ep eps =>
        simp only [ha] at h
        split at h
        · cases h
        · rename_i st1 hl
          simp only [Option.some.injEq, Prod.mk.injEq] at h
          rw [← h.1]
          obtain ⟨l, p, hlp⟩ := endpointLoop_inbound env client _ _ st1 hl
          exact ⟨l, p, hlp, Or.inr ⟨ep, eps, by rw [← hx, ha]⟩⟩

/-! ## The collected descriptors -/

/-- The client loop on a listener as an earlier call of `getProxies` left it
collects the concatenation of `getProxies` on the listener itself over the
selected clients. -/
theorem clientLoop_proxies (env : Env) (subId host : String) (inb : Inbound)
    (clients : List Client) (inb1 : Inbound) (st : CollectState) (h : Relisten env inb inb1) :
    (clientLoop env subId host clients inb1 st).map (fun r => (r.2.proxies, r.2.draws)) =
      (proxiesOfClients env host inb (selectedClients subId clients) st.draws).map
        (fun r => (st.proxies ++ r.1, r.2)) := by
  induction clients generalizing inb1 st with
  | nil => simp [clientLoop, selectedClients, proxiesOfClients]
  | cons c rest ih =>
    by_cases hc : c.Enable = true ∧ c.SubID = subId
    · have hsel : selectedClients subId (c :: rest) = c :: selectedClients subId rest := by
        simp [selectedClients, List.filter_cons, hc.1, hc.2]
      rw [hsel]
      simp only [clientLoop, hc, and_self, if_true, proxiesOfClients]
      rw [getProxies_relisten env st.draws inb inb1 c host h]
      rcases Option.eq_none_or_eq_some (getProxies env st.draws inb c host) with
        hg | ⟨⟨inb2, ps, g1⟩, hg⟩
      · simp only [hg, Option.map_none']
      · simp only [hg]
        have h2 := getProxies_Relisten env st.draws inb inb2 c host ps g1 hg
        rw [ih inb2
          { clientTraffics :=
              st.clientTraffics ++ [env.getClientTraffics inb1.ClientStats c.Email]
            proxies := st.proxies ++ ps
            draws := g1 } h2]
        rcases Option.eq_none_or_eq_some
          (proxiesOfClients env host inb (selectedClients subId rest) g1) with
          hr | ⟨⟨qs, g2⟩, hr⟩
        · simp only [hr, Option.map_none']
        · simp only [hr, Option.map_some', List.append_assoc]
    · have hsel : selectedClients subId (c :: rest) = selectedClients subId rest := by
        simp only [selectedClients, List.filter_cons]
        rw [if_neg]
        simpa using hc
      rw [hsel]
      simp only [clientLoop, hc, if_false]
      exact ih inb1 st h

theorem Relisten_refl (env : Env) (inb : Inbound) : Relisten env inb inb :=
  ⟨inb.Listen, inb.Port, rfl, Or.inl rfl⟩

/-- The listener loop collects the concatenation, in listener order, of the
descriptors of the selected clients of each listener. -/
theorem inboundLoop_proxies (env : Env) (subId host : String) (inbounds : List Inbound)
    (st : CollectState) :
    (inboundLoop env subId host inbounds st).map (fun r => (r.proxies, r.draws)) =
      (proxiesOfListeners env subId host inbounds st.draws).map
        (fun r => (st.proxies ++ r.1, r.2)) := by
  induction inbounds generalizing st with
  | nil => simp [inboundLoop, proxiesOfListeners]
  | cons i rest ih =>
    simp only [inboundLoop, proxiesOfListeners]
    rcases Option.eq_none_or_eq_some (env.GetClients i) with hg | ⟨clients, hg⟩
    · simp only [hg]
      exact ih st
    · simp only [hg]
      have hcl := clientLoop_proxies env subId host (resolveFallback env i) clients
        (resolveFallback env i) st (Relisten_refl env _)
      rcases Option.eq_none_or_eq_some
        (clientLoop env subId host clients (resolveFallback env i) st) with
        hc | ⟨⟨inb2, st1⟩, hc⟩
      · rw [hc] at hcl
        simp only [Option.map_none'] at hcl
        have hn : proxiesOfClients env host (resolveFallback env i)
            (selectedClients subId clients) st.draws = none := by
          rcases Option.eq_none_or_eq_some (proxiesOfClients env host (resolveFallback env i)
            (selectedClients subId clients) st.draws) with hn | ⟨x, hn⟩
          · exact hn
          · rw [hn] at hcl; cases hcl
        simp only [hc, hn, Option.map_none']
      · rw [hc] at hcl
        simp only [Option.map_some'] at hcl
        rcases Option.eq_none_or_eq_some (proxiesOfClients env host (resolveFallback env i)
          (selectedClients subId clients) st.draws) with hn | ⟨⟨ps, g1⟩, hn⟩
        · rw [hn] at hcl; cases hcl
        · rw [hn] at hcl
          simp only [Option.map_some', Option.some.injEq, Prod.mk.injEq] at hcl
          simp only [hc, hn]
          rw [ih st1, hcl.2]
          rcases Option.eq_none_or_eq_some (proxiesOfListeners env subId host rest g1) with
            hr | ⟨⟨qs, g2⟩, hr⟩
          · simp only [hr, Option.map_none']
          · simp only [hr, Option.map_some', hcl.1, List.append_assoc]

theorem selectedClients_mem (subId : String) (clients : List Client) (c : Client) :
    c ∈ selectedClients subId clients ↔ c ∈ clients ∧ c.Enable = true ∧ c.SubID = subId := by
  simp only [selectedClients, List.mem_filter, Bool.and_eq_true, decide_eq_true_eq]

/-- The descriptors of the listener loop from its initial state. -/
theorem inboundLoop_init_proxies (env : Env) (subId host : String) (inbounds : List Inbound) :
    (inboundLoop env subId host inbounds
        { clientTraffics := [], proxies := [], draws := 0 }).map (fun st => st.proxies) =
      (proxiesOfListeners env subId host inbounds 0).map (fun r => r.1) := by
  have key := inboundLoop_proxies env subId host inbounds
    { clientTraffics := [], proxies := [], draws := 0 }
  simp only [List.nil_append] at key
  rcases Option.eq_none_or_eq_some (inboundLoop env subId host inbounds
    { clientTraffics := [], proxies := [], draws := 0 }) with hi | ⟨st, hi⟩
  · rw [hi] at key ⊢
    rcases Option.eq_none_or_eq_some (proxiesOfListeners env subId host inbounds 0) with
      hp | ⟨r, hp⟩
    · rw [hp]; rfl
    · rw [hp] at key; cases key
  · rw [hi] at key ⊢
    rcases Option.eq_none_or_eq_some (proxiesOfListeners env subId host inbounds 0) with
      hp | ⟨r, hp⟩
    · rw [hp] at key; cases key
    · rw [hp] at key ⊢
      simp only [Option.map_some', Option.some.injEq, Prod.mk.injEq] at key ⊢
      exact key.1

/-- Every descriptor of a subscription has a string name. -/
theorem subscriptionProxies_names (env : Env) (subId host : String) (proxies : List Proxy)
    (h : subscriptionProxies env subId host = some proxies) : ∀ p ∈ proxies, HasName p := by
  unfold subscriptionProxies at h
  rcases hl : env.getInboundsBySubId subId with ⟨inbounds, err⟩
  rw [hl] at h
  simp only [] at h
  split at h
  · simp only [Option.some.injEq] at h
    subst h
    intro p hp
    cases hp
  · rw [← inboundLoop_init_proxies] at h
    rcases Option.eq_none_or_eq_some (inboundLoop env subId host inbounds
      { clientTraffics := [], proxies := [], draws := 0 }) with hi | ⟨st, hi⟩
    · rw [hi] at h; cases h
    · rw [hi] at h
      simp only [Option.map_some', Option.some.injEq] at h
      subst h
      exact inboundLoop_names env subId host inbounds _ st hi (by intro p hp; cases hp)

/-- The document and the error of `GetClash` in terms of the descriptors of
the subscription. -/
theorem GetClash_of_subscriptionProxies (env : Env) (subId host : String) :
    (GetClash env subId host).map (fun r => (r.doc, r.err)) =
      (match subscriptionProxies env subId host with
       | none => none
       | some proxies =>
         if proxies.length = 0 then some ("", (env.getInboundsBySubId subId).2)
         else
           (formatSection env 0 proxies "proxies:\n").map fun proxiesSection =>
             (spliceTemplate env.acl4ssrFullTpl proxiesSection, none)) := by
  unfold GetClash subscriptionProxies
  rcases hl : env.getInboundsBySubId subId with ⟨inbounds, err⟩
  simp only []
  cases err with
  | some e => simp
  | none =>
    simp only [Option.isSome_none, Bool.false_eq_true, false_or, if_false]
    rw [← inboundLoop_init_proxies]
    by_cases h0 : inbounds.length = 0
    · have hnil : inbounds = [] := List.length_eq_zero.1 h0
      subst hnil
      simp [inboundLoop]
    · simp only [h0, if_false]
      rcases Option.eq_none_or_eq_some (inboundLoop env subId host inbounds
        { clientTraffics := [], proxies := [], draws := 0 }) with hi | ⟨st, hi⟩
      · simp only [hi, Option.map_none']
      · simp only [hi, Option.map_some']
        by_cases hp : st.proxies.length = 0
        · simp only [hp, if_true, Option.map_some']
        · simp only [hp, if_false]
          rcases Option.eq_none_or_eq_some (formatSection env 0 st.proxies "proxies:\n") with
            hf | ⟨sec, hf⟩
          · simp only [hf, Option.map_none']
          · simp only [hf, Option.map_some']

/-- The document of `GetClash` when the subscription has descriptors: the
template spliced with the block of their rendered entries. -/
theorem GetClash_doc_of_entries (env : Env) (subId host : String) (proxies : List Proxy)
    (entries : List String) (h : subscriptionProxies env subId host = some proxies)
    (hne : proxies.length ≠ 0) (he : renderedEntries env 0 proxies = some entries) :
    (GetClash env subId host).map (fun r => r.doc) =
      some (spliceTemplate env.acl4ssrFullTpl (Join ("proxies:" :: entries) "\n" ++ "\n")) := by
  have h2 := GetClash_of_subscriptionProxies env subId host
  rw [h] at h2
  simp only [hne, if_false, formatSection_proxies env proxies entries he,
    Option.map_some'] at h2
  rcases Option.eq_none_or_eq_some (GetClash env subId host) with hg | ⟨r, hg⟩
  · rw [hg] at h2; cases h2
  · rw [hg] at h2 ⊢
    simp only [Option.map_some', Option.some.injEq, Prod.mk.injEq] at h2 ⊢
    exact h2.1

/-- C23. For every subscription id and every lookup result, the descriptors
that `GetClash` collects and hands to its rendering loop are exactly the
concatenation, in listener order then client order, of the descriptors of
`getProxies` over the clients that are enabled and whose subscription-group
identifier equals the requested id (none when the lookup fails). The rendering
loop renders each of them once, in this order, into the block that starts with
the `proxies:` line, and the document of `GetClash` is the template spliced
with this block (the empty document when there is no descriptor): without an
anchor line the template lines followed by the block, and with an anchor line
followed by a section token the block at the anchor and once more at the end,
so that the rendered entries are those of the concatenation and no other. A
client is selected exactly when it is enabled and of the requested group: no
descriptor is produced for a disabled client or for a client of another group,
nor, the requested id being a non-empty route parameter, for a client without
group. -/
theorem getClash_descriptors (env : Env) (subId host : String) :
    (∀ inbounds,
      (inboundLoop env subId host inbounds
          { clientTraffics := [], proxies := [], draws := 0 }).map (fun st => st.proxies) =
        (proxiesOfListeners env subId host inbounds 0).map (fun r => r.1)) ∧
    (GetClash env subId host).map (fun r => (r.doc, r.err)) =
      (match subscriptionProxies env subId host with
       | none => none
       | some proxies =>
         if proxies.length = 0 then some ("", (env.getInboundsBySubId subId).2)
         else
           (formatSection env 0 proxies "proxies:\n").map fun proxiesSection =>
             (spliceTemplate env.acl4ssrFullTpl proxiesSection, none)) ∧
    (∀ proxies, subscriptionProxies env subId host = some proxies →
      ∃ entries,
        renderedEntries env 0 proxies = some entries ∧
        entries.length = proxies.length ∧
        formatSection env 0 proxies "proxies:\n" =
          some (Join ("proxies:" :: entries) "\n" ++ "\n")) ∧
    (∀ proxies entries, subscriptionProxies env subId host = some proxies →
      proxies.length ≠ 0 → renderedEntries env 0 proxies = some entries →
      ((∀ l ∈ Split env.acl4ssrFullTpl, TrimSpace l ≠ "proxies:") →
        (GetClash env subId host).map (fun r => r.doc) =
          some (Join (Split env.acl4ssrFullTpl ++ [Join ("proxies:" :: entries) "\n"]) "\n")) ∧
      (∀ (before mid rest : List String) (anchor tok : String),
        Split env.acl4ssrFullTpl = before ++ anchor :: mid ++ tok :: rest →
        (∀ l ∈ before, TrimSpace l ≠ "proxies:") →
        TrimSpace anchor = "proxies:" →
        (∀ l ∈ mid, TrimSpace l ≠ "proxies:" ∧
          (HasPrefix (TrimSpace l) "proxy-groups:" || HasPrefix (TrimSpace l) "rules:") =
            false) →
        (HasPrefix (TrimSpace tok) "proxy-groups:" || HasPrefix (TrimSpace tok) "rules:") =
          true →
        (∀ l ∈ rest, TrimSpace l ≠ "proxies:") →
        (GetClash env subId host).map (fun r => r.doc) =
          some (Join (before ++ [Join ("proxies:" :: entries) "\n"] ++ tok :: rest ++
            [Join ("proxies:" :: entries) "\n"]) "\n"))) ∧
    (∀ clients c,
      c ∈ selectedClients subId clients ↔ c ∈ clients ∧ c.Enable = true ∧ c.SubID = subId) ∧
    (∀ clients, ∀ c ∈ clients, c.Enable = false ∨ c.SubID ≠ subId →
      c ∉ selectedClients subId clients) ∧
    (subId ≠ "" → ∀ clients, ∀ c ∈ clients, c.SubID = "" →
      c ∉ selectedClients subId clients) := by
  refine ⟨inboundLoop_init_proxies env subId host, GetClash_of_subscriptionProxies env subId host,
    ?_, ?_, selectedClients_mem subId, ?_, ?_⟩
  · intro proxies h
    obtain ⟨entries, he⟩ := renderedEntries_of_names env proxies 0
      (subscriptionProxies_names env subId host proxies h)
    exact ⟨entries, he, renderedEntries_length env proxies 0 entries he,
      formatSection_proxies env proxies entries he⟩
  · intro proxies entries h hne he
    have hdoc := GetClash_doc_of_entries env subId host proxies entries h hne he
    constructor
    · intro hno
      rw [hdoc, spliceTemplate_no_anchor _ _ hno, dropLastByte_append_newline]
    · intro before mid rest anchor tok hs hb ha hm ht hr
      rw [hdoc, spliceTemplate_anchor_then_token _ _ before mid rest anchor tok hs hb ha hm ht hr,
        dropLastByte_append_newline]
  · intro clients c _ hc hsel
    have h := (selectedClients_mem subId clients c).1 hsel
    rcases hc with hc | hc
    · rw [h.2.1] at hc; cases hc
    · exact hc h.2.2
  · intro hne clients c _ hc hsel
    have h := (selectedClients_mem subId clients c).1 hsel
    apply hne
    rw [← h.2.2, hc]

set_option maxRecDepth 100000 in
theorem getClash_descriptors_witness :
    subscriptionProxies
        (demoEnv "port: 7890\nproxies:\n  - old\nrules:\n  - MATCH"
          [{ demoClient with Enable := false }, demoClient, { demoClient with SubID := "other" },
           { demoClient with SubID := "" }])
        "sub1" "h.example" = some [demoProxy] ∧
    (GetClash
        (demoEnv "port: 7890\nproxies:\n  - old\nrules:\n  - MATCH"
          [{ demoClient with Enable := false }, demoClient, { demoClient with SubID := "other" },
           { demoClient with SubID := "" }])
        "sub1" "h.example").map (fun r => (r.doc, r.err)) =
      some ("port: 7890\nproxies:\n" ++ demoEntry ++ "\nrules:\n  - MATCH\nproxies:\n" ++
        demoEntry, none) :=
  ⟨by rfl,
   (getClash_descriptors
      (demoEnv "port: 7890\nproxies:\n  - old\nrules:\n  - MATCH"
        [{ demoClient with Enable := false }, demoClient, { demoClient with SubID := "other" },
         { demoClient with SubID := "" }])
      "sub1" "h.example").2.1.trans (by decide)⟩

end Sub
